import Mathlib

/-!
# Microblog: token authentication, the authorization gate and the use cases

A shallow embedding of the authentication core of the microblog services and of
the use cases of the blog and media services that its specification speaks of:

* `shared/pkg/auth/jwt_maker.go` (`Claims`, `GenerateTokens`, `ValidateToken`),
* `shared/pkg/auth/middleware.go` (`Middleware`),
* `auth-service/internal/usecase/email_usecase.go` (action tokens, `VerifyEmail`,
  `ResetPassword`),
* `auth-service/internal/usecase/user_usecase.go` (`Register`, `Login`, `Refresh`),
* `blog-service/internal/usecase/article_usecase.go` (`Create`, `Update`, `Delete`)
  and `category_usecase.go` (`ListTree`),
* `media-service/internal/usecase/media_usecase.go` (`Upload`, `validateFile`).

Go strings are modelled as lists of characters (`Str`), byte slices as lists of
`Fin 256`. The clock is explicit: every function that calls `time.Now()` takes
the current instant as a parameter, in nanoseconds since the Unix epoch.

The code calls into `github.com/golang-jwt/jwt/v5`, `encoding/base64`,
`crypto/hmac` and `encoding/json`. Their control flow is embedded here
(`ParseWithClaims`, `Validate`, `SignedString`, RFC 2104 HMAC, raw URL base64);
the hash functions and the JSON encoding of a header and of a claim set are
parameters (`Prims`).
-/

namespace Microblog

/-! ## Strings and bytes -/

/-- A Go string holding text. -/
abbrev Str := List Char

/-- One byte. -/
abbrev Byte := Fin 256

/-- A Go byte slice. -/
abbrev Bytes := List Byte

namespace strings

/-- The function `strings.Split(s, sep)` for a separator of one character: the
pieces of `s` between the occurrences of `sep`; a string without `sep` gives
the one piece `s`, the empty string gives one empty piece. -/
def Split (sep : Char) : Str → List Str
  | [] => [[]]
  | c :: cs =>
    if c = sep then [] :: Split sep cs
    else
      match Split sep cs with
      | [] => [[c]]
      | p :: ps => (c :: p) :: ps

end strings

/-- The UTF-8 bytes of one character. -/
def utf8EncodeChar (c : Char) : Bytes :=
  let n := c.toNat
  if n < 0x80 then [Fin.ofNat n]
  else if n < 0x800 then [Fin.ofNat (0xC0 + n / 64), Fin.ofNat (0x80 + n % 64)]
  else if n < 0x10000 then
    [Fin.ofNat (0xE0 + n / 4096), Fin.ofNat (0x80 + n / 64 % 64), Fin.ofNat (0x80 + n % 64)]
  else
    [Fin.ofNat (0xF0 + n / 262144), Fin.ofNat (0x80 + n / 4096 % 64),
     Fin.ofNat (0x80 + n / 64 % 64), Fin.ofNat (0x80 + n % 64)]

/-- The conversion `[]byte(s)`. -/
def toBytes (s : Str) : Bytes := s.flatMap utf8EncodeChar

/-! ## encoding/base64, `RawURLEncoding` -/

namespace base64

/-- The URL alphabet of RFC 4648. -/
def encodeURL : Str :=
  "ABCDEFGHIJKLMNOPQRSTUVWXYZabcdefghijklmnopqrstuvwxyz0123456789-_".toList

/-- The character of a six-bit value. -/
def encodeSextet (n : Nat) : Char := encodeURL.getD n 'A'

/-- The six-bit value of a character of the alphabet (`decodeMap`). -/
def decodeChar (c : Char) : Option Nat :=
  let i := encodeURL.indexOf c
  if i < 64 then some i else none

/-- The six-bit values of a byte sequence: three bytes give four values, a rest
of one or two bytes gives two or three. -/
def sextets : Bytes → List Nat
  | a :: b :: c :: rest =>
    a.val / 4 :: (a.val % 4 * 16 + b.val / 16) :: (b.val % 16 * 4 + c.val / 64) ::
      c.val % 64 :: sextets rest
  | [a, b] => [a.val / 4, a.val % 4 * 16 + b.val / 16, b.val % 16 * 4]
  | [a] => [a.val / 4, a.val % 4 * 16]
  | [] => []

/-- The method `RawURLEncoding.EncodeToString`: the characters of the six-bit
values, without padding. -/
def EncodeToString (bs : Bytes) : Str := (sextets bs).map encodeSextet

/-- Every character mapped to its six-bit value; fails on a character outside
the alphabet. -/
def decodeChars : Str → Option (List Nat)
  | [] => some []
  | c :: cs =>
    match decodeChar c, decodeChars cs with
    | some v, some vs => some (v :: vs)
    | _, _ => none

/-- Groups of four six-bit values to three bytes; a rest of two or three values
gives one or two bytes (trailing bits are not checked: the encoding is not
strict), a rest of one value is corrupt input. -/
def decodeQuanta : List Nat → Option Bytes
  | s0 :: s1 :: s2 :: s3 :: rest =>
    match decodeQuanta rest with
    | some bs =>
      some (Fin.ofNat (s0 * 4 + s1 / 16) :: Fin.ofNat (s1 % 16 * 16 + s2 / 4) ::
        Fin.ofNat (s2 % 4 * 64 + s3) :: bs)
    | none => none
  | [s0, s1, s2] => some [Fin.ofNat (s0 * 4 + s1 / 16), Fin.ofNat (s1 % 16 * 16 + s2 / 4)]
  | [s0, s1] => some [Fin.ofNat (s0 * 4 + s1 / 16)]
  | [_] => none
  | [] => some []

/-- The method `RawURLEncoding.DecodeString`: carriage returns and line feeds are
skipped, any other character outside the alphabet is corrupt input. -/
def DecodeString (s : Str) : Option Bytes :=
  match decodeChars (s.filter fun c => c != '\n' && c != '\r') with
  | some vs => decodeQuanta vs
  | none => none

end base64

/-! ## time -/

namespace time

/-- One second, in nanoseconds (`time.Second`). -/
def Second : Int := 1000000000

/-- One minute, in nanoseconds (`time.Minute`). -/
def Minute : Int := 60 * Second

/-- One hour, in nanoseconds (`time.Hour`). -/
def Hour : Int := 60 * Minute

/-- A mathematical integer as a 64-bit signed machine integer (two's complement
wrap-around). -/
def wrap64 (x : Int) : Int := (x + 2 ^ 63) % 2 ^ 64 - 2 ^ 63

/-- The product `time.Duration(n) * unit`, computed in `int64`. -/
def Duration (n unit : Int) : Int := wrap64 (n * unit)

/-- The method `Time.Unix`: whole seconds since the epoch of an instant given in
nanoseconds. -/
def Unix (t : Int) : Int := t / Second

end time

/-! ## crypto/hmac -/

/-- A hash function with its block size in bytes. -/
structure HashFn where
  Sum : Bytes → Bytes
  BlockSize : Nat

namespace hmac

/-- The key block of `hmac.New`: a key longer than the block is hashed first, the
key is copied into a zeroed block, and every byte is xor-ed with `x`
(`0x36` for the inner pad, `0x5c` for the outer pad). -/
def pad (h : HashFn) (key : Bytes) (x : Byte) : Bytes :=
  let key := if key.length > h.BlockSize then h.Sum key else key
  ((key ++ List.replicate (h.BlockSize - key.length) 0).take h.BlockSize).map fun b => b ^^^ x

/-- The key block of `hmac.New` before the pads are applied: the key, hashed first
when it is longer than the block, filled up with zero bytes to the block
size. -/
def keyBlock (h : HashFn) (key : Bytes) : Bytes :=
  let key := if key.length > h.BlockSize then h.Sum key else key
  (key ++ List.replicate (h.BlockSize - key.length) 0).take h.BlockSize

/-- The MAC of `msg` under `key`: `H(opad ++ H(ipad ++ msg))`. -/
def Sum (h : HashFn) (key msg : Bytes) : Bytes :=
  h.Sum (pad h key 0x5c ++ h.Sum (pad h key 0x36 ++ msg))

/-- The function `hmac.Equal`: a constant-time comparison, true exactly for equal
byte sequences. -/
def Equal (a b : Bytes) : Bool := decide (a = b)

end hmac

/-! ## github.com/golang-jwt/jwt/v5 -/

namespace jwt

/-- A `jwt.NumericDate`: whole seconds since the epoch. -/
abbrev NumericDate := Int

/-- The function `jwt.NewNumericDate`: the instant truncated to the precision of
one second. -/
def NewNumericDate (t : Int) : NumericDate := time.Unix t

/-- The dates of `jwt.RegisteredClaims`. The other registered claims (issuer,
subject, audience, id) are never set, read or validated by this program. -/
structure RegisteredClaims where
  ExpiresAt : Option NumericDate
  NotBefore : Option NumericDate
  IssuedAt : Option NumericDate
deriving DecidableEq, Repr

/-- The signing methods the library registers. -/
inductive SigningMethod
  | HS256 | HS384 | HS512
  | RS256 | RS384 | RS512
  | PS256 | PS384 | PS512
  | ES256 | ES384 | ES512
  | EdDSA | None
deriving DecidableEq, Repr

/-- The method `SigningMethod.Alg`: the name written into a header. -/
def SigningMethod.Alg : SigningMethod → Str
  | .HS256 => "HS256".toList | .HS384 => "HS384".toList | .HS512 => "HS512".toList
  | .RS256 => "RS256".toList | .RS384 => "RS384".toList | .RS512 => "RS512".toList
  | .PS256 => "PS256".toList | .PS384 => "PS384".toList | .PS512 => "PS512".toList
  | .ES256 => "ES256".toList | .ES384 => "ES384".toList | .ES512 => "ES512".toList
  | .EdDSA => "EdDSA".toList | .None => "none".toList

/-- Every registered signing method. -/
def signingMethods : List SigningMethod :=
  [.HS256, .HS384, .HS512, .RS256, .RS384, .RS512, .PS256, .PS384, .PS512,
   .ES256, .ES384, .ES512, .EdDSA, .None]

/-- The function `jwt.GetSigningMethod`: the registered method of a name. -/
def GetSigningMethod (alg : Str) : Option SigningMethod :=
  signingMethods.find? fun m => decide (m.Alg = alg)

/-- The type assertion `t.Method.(*jwt.SigningMethodHMAC)`. -/
def SigningMethod.isHMAC : SigningMethod → Bool
  | .HS256 | .HS384 | .HS512 => true
  | _ => false

/-- The errors of the library that the program can meet, and the error a caller
makes with `fmt.Errorf`. -/
inductive Error
  | ErrTokenMalformed
  | ErrTokenUnverifiable
  | ErrTokenSignatureInvalid
  | ErrTokenInvalidClaims (expired notValidYet : Bool)
  | ErrInvalidKeyType
  | Errorf (msg : Str)
deriving DecidableEq, Repr

end jwt

/-! ## shared/pkg/auth: the claim set -/

/-- The struct `Claims` of `jwt_maker.go`. -/
structure Claims where
  UserID : Str
  Role : Str
  RegisteredClaims : jwt.RegisteredClaims
deriving DecidableEq, Repr

/-- A date that a JSON number carries exactly: `NumericDate` is read back through
a `float64`, which holds every integer up to `2 ^ 53`. -/
def dateExact : Option Int → Prop
  | some d => -(2 ^ 53 : Int) ≤ d ∧ d ≤ 2 ^ 53
  | none => True

/-- The hash functions and the JSON encodings the token library is built on.
`unmarshalHeader` gives `none` for bytes that are no JSON object, and the
header's `alg` when it is a string. -/
structure Prims where
  sha256 : Bytes → Bytes
  sha384 : Bytes → Bytes
  sha512 : Bytes → Bytes
  marshalHeader : Str → Bytes
  unmarshalHeader : Bytes → Option (Option Str)
  marshalClaims : Claims → Bytes
  unmarshalClaims : Bytes → Option Claims
  header_roundtrip : ∀ alg, unmarshalHeader (marshalHeader alg) = some (some alg)
  claims_roundtrip : ∀ c : Claims,
    dateExact c.RegisteredClaims.ExpiresAt → dateExact c.RegisteredClaims.NotBefore →
    dateExact c.RegisteredClaims.IssuedAt → unmarshalClaims (marshalClaims c) = some c

namespace jwt

/-- The struct `jwt.Token`. -/
structure Token where
  Raw : Str
  Method : SigningMethod
  Claims : Claims
  Signature : Bytes
  Valid : Bool

/-- The hash of an HMAC signing method. -/
def SigningMethod.hash (P : Prims) : SigningMethod → Option HashFn
  | .HS256 => some ⟨P.sha256, 64⟩
  | .HS384 => some ⟨P.sha384, 128⟩
  | .HS512 => some ⟨P.sha512, 128⟩
  | _ => none

/-- The method `SigningMethod.Sign` for a key of type `[]byte`: the HMAC methods
sign, every other method refuses the key type. -/
def SigningMethod.Sign (P : Prims) (m : SigningMethod) (signingString : Str) (key : Bytes) :
    Except Error Bytes :=
  match m.hash P with
  | some h => .ok (hmac.Sum h key (toBytes signingString))
  | none => .error .ErrInvalidKeyType

/-- The method `SigningMethod.Verify` for a key of type `[]byte`: the HMAC methods
compare the signature with the MAC of the signing string, every other method
refuses the key type. -/
def SigningMethod.Verify (P : Prims) (m : SigningMethod) (signingString : Str) (sig key : Bytes) :
    Except Error Unit :=
  match m.hash P with
  | some h =>
    if hmac.Equal sig (hmac.Sum h key (toBytes signingString)) then .ok ()
    else .error .ErrTokenSignatureInvalid
  | none => .error .ErrInvalidKeyType

/-- The function `jwt.NewWithClaims`. -/
def NewWithClaims (method : SigningMethod) (claims : Claims) : Token :=
  { Raw := [], Method := method, Claims := claims, Signature := [], Valid := false }

/-- The method `Token.SigningString`: the encoded header, a dot, the encoded claims. -/
def Token.SigningString (P : Prims) (t : Token) : Str :=
  base64.EncodeToString (P.marshalHeader t.Method.Alg) ++ '.' ::
    base64.EncodeToString (P.marshalClaims t.Claims)

/-- The method `Token.SignedString`: the signing string, a dot, the encoded signature. -/
def Token.SignedString (P : Prims) (t : Token) (key : Bytes) : Except Error Str :=
  match t.Method.Sign P (t.SigningString P) key with
  | .error e => .error e
  | .ok sig => .ok (t.SigningString P ++ '.' :: base64.EncodeToString sig)

/-- The method `Parser.ParseUnverified`: three segments; header and claims are
decoded; the header's `alg` must name a registered method. Returns the token
and its three segments. -/
def ParseUnverified (P : Prims) (tokenString : Str) : Except Error (Token × Str × Str × Str) :=
  match strings.Split '.' tokenString with
  | [p0, p1, p2] =>
    match base64.DecodeString p0 with
    | none => .error .ErrTokenMalformed
    | some headerBytes =>
      match P.unmarshalHeader headerBytes with
      | none => .error .ErrTokenMalformed
      | some alg =>
        match base64.DecodeString p1 with
        | none => .error .ErrTokenMalformed
        | some claimBytes =>
          match P.unmarshalClaims claimBytes with
          | none => .error .ErrTokenMalformed
          | some claims =>
            match alg with
            | none => .error .ErrTokenUnverifiable
            | some name =>
              match GetSigningMethod name with
              | none => .error .ErrTokenUnverifiable
              | some method =>
                .ok ({ Raw := tokenString, Method := method, Claims := claims,
                       Signature := [], Valid := false }, p0, p1, p2)
  | _ => .error .ErrTokenMalformed

/-- The method `Validator.Validate` with the default options (no leeway, no
required claim, issued-at not checked): a present expiry must lie after `now`,
a present not-before must not. `now` is in nanoseconds. -/
def Validate (now : Int) (c : RegisteredClaims) : Except Error Unit :=
  let expired : Bool :=
    match c.ExpiresAt with
    | some exp => !decide (now < exp * time.Second)
    | none => false
  let notValidYet : Bool :=
    match c.NotBefore with
    | some nbf => decide (now < nbf * time.Second)
    | none => false
  if expired || notValidYet then .error (.ErrTokenInvalidClaims expired notValidYet)
  else .ok ()

/-- The method `Parser.ParseWithClaims` of the default parser: parse, ask the
key function for the key, decode and verify the signature, then validate the
claims against the clock. A key function that fails makes the token
unverifiable; a signature that does not verify is a signature failure whatever
the claims say, since the claims are validated last. (Later releases of the
library decode the signature before they ask for the key: only the error of a
token that fails both steps differs.) -/
def ParseWithClaims (P : Prims) (now : Int) (tokenString : Str)
    (keyFunc : Token → Except Error Bytes) : Except Error Token :=
  match ParseUnverified P tokenString with
  | .error e => .error e
  | .ok (token, p0, p1, p2) =>
    match keyFunc token with
    | .error _ => .error .ErrTokenUnverifiable
    | .ok key =>
      match base64.DecodeString p2 with
      | none => .error .ErrTokenMalformed
      | some sig =>
        match token.Method.Verify P (p0 ++ '.' :: p1) sig key with
        | .error _ => .error .ErrTokenSignatureInvalid
        | .ok _ =>
          match Validate now token.Claims.RegisteredClaims with
          | .error e => .error e
          | .ok _ => .ok { token with Signature := sig, Valid := true }

end jwt

/-! ## shared/pkg/auth/jwt_maker.go -/

/-- The function `GenerateTokens`; `now` is the instant `time.Now()` returns. -/
def GenerateTokens (P : Prims) (now : Int) (uid role accessSecret refreshSecret : Str)
    (accMin refHour : Int) : Except jwt.Error (Str × Str) :=
  let accClaims : Claims :=
    { UserID := uid
      Role := role
      RegisteredClaims :=
        { ExpiresAt := some (jwt.NewNumericDate (now + time.Duration accMin time.Minute))
          NotBefore := none
          IssuedAt := some (jwt.NewNumericDate now) } }
  let accToken := jwt.NewWithClaims .HS256 accClaims
  match accToken.SignedString P (toBytes accessSecret) with
  | .error err => .error err
  | .ok acc =>
    let refClaims : Claims :=
      { UserID := uid
        Role := role
        RegisteredClaims :=
          { ExpiresAt := some (jwt.NewNumericDate (now + time.Duration refHour time.Hour))
            NotBefore := none
            IssuedAt := some (jwt.NewNumericDate now) } }
    let refToken := jwt.NewWithClaims .HS256 refClaims
    match refToken.SignedString P (toBytes refreshSecret) with
    | .error err => .error err
    | .ok ref => .ok (acc, ref)

/-- The function `ValidateToken`; `now` is the instant the validator reads from the
clock. -/
def ValidateToken (P : Prims) (now : Int) (tokenString secret : Str) : Except jwt.Error Claims :=
  match jwt.ParseWithClaims P now tokenString (fun t =>
      if t.Method.isHMAC then .ok (toBytes secret)
      else .error (.Errorf "unexpected signing method".toList)) with
  | .error err => .error err
  | .ok token =>
    if token.Valid then .ok token.Claims
    else .error (.Errorf "invalid token".toList)


/-! ## shared/pkg/httputil and the echo context -/

/-- The struct `httputil.ErrResp`. -/
structure ErrResp where
  Error : Str
  Code : Nat
deriving DecidableEq, Repr

/-- The function `httputil.NewError`. -/
def NewError (code : Nat) (msg : Str) : ErrResp := { Error := msg, Code := code }

/-- What `c.JSON(status, body)` writes. -/
structure Response where
  status : Nat
  body : ErrResp
deriving DecidableEq, Repr

/-- The part of an `echo.Context` the gate touches: the request's header (each
key with its first value) and the values stored with `c.Set`. -/
structure Context where
  Header : List (Str × Str)
  store : List (Str × Str)
deriving DecidableEq, Repr

/-- The method `Header.Get`: the first value of the key, the empty string when the
key is absent. -/
def Context.HeaderGet (c : Context) (key : Str) : Str :=
  match c.Header.lookup key with
  | some v => v
  | none => []

/-- The method `c.Set`. -/
def Context.Set (c : Context) (key val : Str) : Context :=
  { c with store := (key, val) :: c.store.filter fun kv => kv.1 != key }

/-- The method `c.Get`. -/
def Context.Get (c : Context) (key : Str) : Option Str := c.store.lookup key

/-- What the gate does with a request: answer it, or hand the context to the
downstream handler. -/
inductive Outcome
  | respond (r : Response)
  | next (c : Context)
deriving DecidableEq, Repr

/-! ## shared/pkg/auth/middleware.go -/

/-- The body of the handler that `Middleware(accessSecret)` builds, up to its last
statement `return next(c)`. -/
def MiddlewareGate (P : Prims) (now : Int) (accessSecret : Str) (c : Context) : Outcome :=
  let authHeader := c.HeaderGet "Authorization".toList
  if authHeader = [] then
    .respond ⟨401, NewError 401 "missing token".toList⟩
  else
    match strings.Split ' ' authHeader with
    | [scheme, tok] =>
      if scheme ≠ "Bearer".toList then
        .respond ⟨401, NewError 401 "invalid token format".toList⟩
      else
        match ValidateToken P now tok accessSecret with
        | .error _ => .respond ⟨401, NewError 401 "invalid or expired token".toList⟩
        | .ok claims => .next ((c.Set "userID".toList claims.UserID).Set "role".toList claims.Role)
    | _ => .respond ⟨401, NewError 401 "invalid token format".toList⟩

/-- The function `Middleware`: the gate in front of the handler `next`. -/
def Middleware (P : Prims) (now : Int) (accessSecret : Str) (next : Context → Response)
    (c : Context) : Response :=
  match MiddlewareGate P now accessSecret c with
  | .respond r => r
  | .next c' => next c'

/-! ## auth-service/internal/domain -/

/-- The struct `domain.User`. -/
structure User where
  ID : Str
  Email : Str
  PasswordHash : Str
  Role : Str
  Verified : Bool
  CreatedAt : Int
deriving DecidableEq, Repr

/-- The user store as the email use case calls it, over a store state `σ`:
`GetByID` gives an error, no user or a user; `Update` gives an optional error
and the next state. -/
structure UserRepository (σ : Type) where
  GetByID : σ → Str → Except Str (Option User)
  Update : σ → User → Option Str × σ

/-- A store held in memory: the list of users. -/
def memRepo : UserRepository (List User) where
  GetByID := fun s id => .ok (s.find? fun u => decide (u.ID = id))
  Update := fun s u => (none, s.map fun x => if x.ID = u.ID then u else x)

/-! ## auth-service/internal/usecase/email_usecase.go -/

/-- The struct `EmailConfig`. -/
structure EmailConfig where
  FromEmail : Str
  BaseURL : Str
  TokenSecret : Str
  TokenTTLHours : Int

/-- The struct `EmailUseCase`: the store and the configuration. -/
structure EmailUseCase (σ : Type) where
  repo : UserRepository σ
  cfg : EmailConfig

/-- The verb `%d` of `fmt.Sprintf` for an integer. -/
def formatInt : Int → Str
  | .ofNat n => Nat.toDigits 10 n
  | .negSucc n => '-' :: Nat.toDigits 10 (n + 1)

/-- The method `generateVerificationToken`: `verify_<userID>_<unix seconds>`. -/
def EmailUseCase.generateVerificationToken {σ : Type} (_uc : EmailUseCase σ) (now : Int)
    (userID : Str) : Except Str Str :=
  .ok ("verify_".toList ++ userID ++ "_".toList ++ formatInt (time.Unix now))

/-- The method `validateVerificationToken`. -/
def EmailUseCase.validateVerificationToken {σ : Type} (_uc : EmailUseCase σ) (token : Str) :
    Except Str Str :=
  if (toBytes token).length < 10 then .error "invalid token format".toList
  else .ok "user123".toList

/-- The method `generatePasswordResetToken`: `reset_<userID>_<unix seconds>`. -/
def EmailUseCase.generatePasswordResetToken {σ : Type} (_uc : EmailUseCase σ) (now : Int)
    (userID : Str) : Except Str Str :=
  .ok ("reset_".toList ++ userID ++ "_".toList ++ formatInt (time.Unix now))

/-- The method `validatePasswordResetToken`. -/
def EmailUseCase.validatePasswordResetToken {σ : Type} (_uc : EmailUseCase σ) (token : Str) :
    Except Str Str :=
  if (toBytes token).length < 10 then .error "invalid token format".toList
  else .ok "user123".toList

/-- The method `hashPassword`. -/
def EmailUseCase.hashPassword {σ : Type} (_uc : EmailUseCase σ) (password : Str) :
    Except Str Str :=
  .ok ("hashed_".toList ++ password)

/-- The method `VerifyEmail`: the result and the state of the store afterwards. -/
def EmailUseCase.VerifyEmail {σ : Type} (uc : EmailUseCase σ) (token : Str) (s : σ) :
    Except Str Unit × σ :=
  match uc.validateVerificationToken token with
  | .error err => (.error ("invalid verification token: ".toList ++ err), s)
  | .ok userID =>
    match uc.repo.GetByID s userID with
    | .error err => (.error ("failed to get user: ".toList ++ err), s)
    | .ok none => (.error "user not found".toList, s)
    | .ok (some user) =>
      if user.Verified then (.error "email already verified".toList, s)
      else
        match uc.repo.Update s { user with Verified := true } with
        | (some err, s') => (.error ("failed to update user verification: ".toList ++ err), s')
        | (none, s') => (.ok (), s')

/-- The method `ResetPassword`: the result and the state of the store afterwards. -/
def EmailUseCase.ResetPassword {σ : Type} (uc : EmailUseCase σ) (token newPassword : Str)
    (s : σ) : Except Str Unit × σ :=
  match uc.validatePasswordResetToken token with
  | .error err => (.error ("invalid reset token: ".toList ++ err), s)
  | .ok userID =>
    match uc.repo.GetByID s userID with
    | .error err => (.error ("failed to get user: ".toList ++ err), s)
    | .ok none => (.error "user not found".toList, s)
    | .ok (some user) =>
      match uc.hashPassword newPassword with
      | .error err => (.error ("failed to hash password: ".toList ++ err), s)
      | .ok hash =>
        match uc.repo.Update s { user with PasswordHash := hash } with
        | (some err, s') => (.error ("failed to update password: ".toList ++ err), s')
        | (none, s') => (.ok (), s')


/-! ## auth-service/internal/domain: roles and the whole store -/

/-- The constant `domain.RoleGuest`. -/
def RoleGuest : Str := "guest".toList

/-- The constant `domain.RoleUser`. -/
def RoleUser : Str := "user".toList

/-- The constant `domain.RoleManager`. -/
def RoleManager : Str := "manager".toList

/-- The constant `domain.RoleAdmin`. -/
def RoleAdmin : Str := "admin".toList

/-- The user store with the two further methods the use cases call: `Create`
gives an error or the id the store assigned to the new user, and the next
state; `GetByEmail` gives an error, no user or a user. -/
structure UserStore (σ : Type) extends UserRepository σ where
  Create : σ → User → Except Str Str × σ
  GetByEmail : σ → Str → Except Str (Option User)

/-- The store held in memory, in full: a new user is appended under an id made
of the number of users held, a lookup by email gives the first user with that
email. Neither fails; `lookupDown` is the store whose lookup does. -/
def memStore : UserStore (List User) where
  toUserRepository := memRepo
  Create := fun s u =>
    (.ok ('u' :: Nat.toDigits 10 s.length),
      s ++ [{ u with ID := 'u' :: Nat.toDigits 10 s.length }])
  GetByEmail := fun s email => .ok (s.find? fun u => decide (u.Email = email))

/-- The store held in memory behind a lookup that fails, as `GetByEmail` of the
Mongo store does when the driver returns an error other than "no documents":
users are appended as in `memStore`, every lookup by email answers the error
`connection refused`. -/
def lookupDown : UserStore (List User) where
  toUserRepository := memRepo
  Create := memStore.Create
  GetByEmail := fun _ _ => .error "connection refused".toList

/-- The method `Sender.Send` of the mail sender, by recipient, subject and
body: an error or `nil`. -/
abbrev Sender := Str → Str → Str → Option Str

/-- The functions `auth.HashPassword` and `auth.CheckPassword`. Their file is
not among the sources of the repository: they are parameters of the use case.
`CheckPassword` takes the stored hash, then the password. -/
structure PasswordHasher where
  HashPassword : Str → Except Str Str
  CheckPassword : Str → Str → Bool

/-! ## auth-service/internal/usecase/dto.go and user_usecase.go -/

/-- The struct `RegisterRequest`. -/
structure RegisterRequest where
  Email : Str
  Password : Str
deriving DecidableEq, Repr

/-- The struct `RegisterResponse`. -/
structure RegisterResponse where
  AccessToken : Str
  RefreshToken : Str
deriving DecidableEq, Repr

/-- The struct `LoginRequest`. -/
structure LoginRequest where
  Email : Str
  Password : Str
deriving DecidableEq, Repr

/-- The type `LoginResponse`, an alias of `RegisterResponse`. -/
abbrev LoginResponse := RegisterResponse

/-- The struct `RefreshResponse`. -/
structure RefreshResponse where
  AccessToken : Str
deriving DecidableEq, Repr

/-- The struct `Config` of the user use case. -/
structure Config where
  AccessSecret : Str
  RefreshSecret : Str
  AccessTTLMin : Int
  RefreshTTLHour : Int
  EmailFrom : Str

/-- The struct `UserUseCase`: the store, the mail sender and the configuration. -/
structure UserUseCase (σ : Type) where
  repo : UserStore σ
  email : Sender
  cfg : Config

/-- An `error` of the user use case: one made with `errors.New` or handed up from
the store or the hasher, known by its message, or one of the token library. -/
inductive GoError
  | New (msg : Str)
  | Jwt (e : jwt.Error)
deriving DecidableEq, Repr

/-- The method `UserUseCase.Register`: the result and the state of the store
afterwards. `now` is the clock when the user record is built, `now'` when the
tokens are generated. An error of the first lookup is discarded with the
blank identifier; the verification mail is sent from a goroutine whose outcome
the method does not wait for. -/
def UserUseCase.Register {σ : Type} (P : Prims) (H : PasswordHasher) (uc : UserUseCase σ)
    (now now' : Int) (req : RegisterRequest) (s : σ) : Except GoError RegisterResponse × σ :=
  let existing : Option User :=
    match uc.repo.GetByEmail s req.Email with
    | .ok u => u
    | .error _ => none
  match existing with
  | some _ => (.error (.New "email already exists".toList), s)
  | none =>
    match H.HashPassword req.Password with
    | .error err => (.error (.New err), s)
    | .ok hash =>
      let u : User :=
        { ID := [], Email := req.Email, PasswordHash := hash, Role := RoleUser,
          Verified := false, CreatedAt := now }
      match uc.repo.Create s u with
      | (.error err, s') => (.error (.New err), s')
      | (.ok id, s') =>
        match GenerateTokens P now' id RoleUser uc.cfg.AccessSecret uc.cfg.RefreshSecret
            uc.cfg.AccessTTLMin uc.cfg.RefreshTTLHour with
        | .error err => (.error (.Jwt err), s')
        | .ok (acc, ref) => (.ok { AccessToken := acc, RefreshToken := ref }, s')

/-- The method `UserUseCase.Login`; the store is only read. -/
def UserUseCase.Login {σ : Type} (P : Prims) (H : PasswordHasher) (uc : UserUseCase σ)
    (now : Int) (req : LoginRequest) (s : σ) : Except GoError LoginResponse :=
  match uc.repo.GetByEmail s req.Email with
  | .error err => .error (.New err)
  | .ok none => .error (.New "invalid credentials".toList)
  | .ok (some u) =>
    if !H.CheckPassword u.PasswordHash req.Password then
      .error (.New "invalid credentials".toList)
    else if !u.Verified then .error (.New "account not verified".toList)
    else
      match GenerateTokens P now u.ID u.Role uc.cfg.AccessSecret uc.cfg.RefreshSecret
          uc.cfg.AccessTTLMin uc.cfg.RefreshTTLHour with
      | .error err => .error (.Jwt err)
      | .ok (acc, ref) => .ok { AccessToken := acc, RefreshToken := ref }

/-- The method `UserUseCase.Refresh`: `now` is the clock when the refresh token is
validated, `now'` when the new access token is generated. -/
def UserUseCase.Refresh {σ : Type} (P : Prims) (uc : UserUseCase σ) (now now' : Int)
    (refreshToken : Str) : Except GoError RefreshResponse :=
  match ValidateToken P now refreshToken uc.cfg.RefreshSecret with
  | .error _ => .error (.New "invalid refresh token".toList)
  | .ok claims =>
    match GenerateTokens P now' claims.UserID claims.Role uc.cfg.AccessSecret
        uc.cfg.RefreshSecret uc.cfg.AccessTTLMin uc.cfg.RefreshTTLHour with
    | .error err => .error (.Jwt err)
    | .ok (acc, _) => .ok { AccessToken := acc }

/-! ## email_usecase.go: the password reset mail -/

/-- The subject of the password reset mail. -/
def passwordResetSubject : Str := "بازیابی رمز عبور - Microblog".toList

/-- The body of the password reset mail for a reset link and a lifetime in hours. -/
def passwordResetBody (resetURL : Str) (ttlHours : Int) : Str :=
  "\nسلام،\n\nبرای بازیابی رمز عبور خود روی لینک زیر کلیک کنید:\n\n".toList ++ resetURL ++
    "\n\nاین لینک تا ".toList ++ formatInt ttlHours ++
    " ساعت معتبر است.\n\nاگر شما این درخواست را نکرده\u200cاید، این ایمیل را نادیده بگیرید.\n\nبا تشکر،\nتیم Microblog\n".toList

/-- The method `EmailUseCase.SendPasswordResetEmail`. The store's `GetByEmail` and
the mail sender's `Send`, which the method reaches through `uc.repo` and
`uc.email`, are the parameters `getByEmail` and `send`; `now` is the clock when
the token is generated. The store is only read. -/
def EmailUseCase.SendPasswordResetEmail {σ : Type} (uc : EmailUseCase σ)
    (getByEmail : σ → Str → Except Str (Option User)) (send : Sender) (now : Int)
    (email : Str) (s : σ) : Except Str Unit :=
  match getByEmail s email with
  | .error err => .error ("failed to get user: ".toList ++ err)
  | .ok none => .ok ()
  | .ok (some user) =>
    match uc.generatePasswordResetToken now user.ID with
    | .error err => .error ("failed to generate reset token: ".toList ++ err)
    | .ok token =>
      let resetURL := uc.cfg.BaseURL ++ "/reset-password?token=".toList ++ token
      match send email passwordResetSubject (passwordResetBody resetURL uc.cfg.TokenTTLHours) with
      | some err => .error ("failed to send password reset email: ".toList ++ err)
      | none => .ok ()

/-! ## shared/pkg/httputil/response.go and the handlers -/

/-- The struct `httputil.Meta`. -/
structure Meta where
  Message : Str
deriving DecidableEq, Repr

/-- The struct `httputil.SuccessResp`, for data that is a map of strings. -/
structure SuccessResp where
  Data : List (Str × Str)
  Meta : Meta
deriving DecidableEq, Repr

/-- The function `httputil.OK`. -/
def OK (data : List (Str × Str)) : SuccessResp :=
  { Data := data, Meta := { Message := "success".toList } }

/-- The body `c.JSON` writes: an error envelope or a success envelope. -/
inductive JSONBody
  | error (e : ErrResp)
  | success (r : SuccessResp)
deriving DecidableEq, Repr

/-- The response a handler writes. -/
structure JSONResponse where
  status : Nat
  body : JSONBody
deriving DecidableEq, Repr

/-- The handler `HTTPHandler.SendPasswordResetEmail` of the auth service. `bound` is
what `httputil.BindAndValidate` made of the request: the message of its error,
or the email of the bound body. -/
def HTTPHandler.SendPasswordResetEmail {σ : Type} (emailUC : EmailUseCase σ)
    (getByEmail : σ → Str → Except Str (Option User)) (send : Sender) (now : Int)
    (bound : Except Str Str) (s : σ) : JSONResponse :=
  match bound with
  | .error err => ⟨400, .error (NewError 400 err)⟩
  | .ok email =>
    match emailUC.SendPasswordResetEmail getByEmail send now email s with
    | .error err => ⟨500, .error (NewError 500 err)⟩
    | .ok _ => ⟨200, .success (OK [("message".toList, "password reset email sent".toList)])⟩

namespace blog

/-- What a handler of the blog service does after its role check: answer, go on
to binding the request and calling the use case, or panic (the type assertion
`c.Get("role").(string)` on a context that holds no role). -/
inductive RoleCheck
  | respond (r : JSONResponse)
  | proceed
  | panic
deriving DecidableEq, Repr

/-- The role check that opens `HTTPHandler.CreateCategory`. -/
def CreateCategoryCheck (c : Context) : RoleCheck :=
  match c.Get "role".toList with
  | none => .panic
  | some role =>
    if role ≠ "manager".toList ∧ role ≠ "admin".toList then
      .respond ⟨403, .error (NewError 403 "forbidden".toList)⟩
    else .proceed

/-- The handler `HTTPHandler.CreateCategory`; `rest` is the handler after the role
check: binding, the call of `categoryUC.Create`, the response. A panic gives
no response. -/
def HTTPHandler.CreateCategory (rest : Context → JSONResponse) (c : Context) :
    Option JSONResponse :=
  match CreateCategoryCheck c with
  | .respond r => some r
  | .proceed => some (rest c)
  | .panic => none

/-- The role check that opens `HTTPHandler.UpdateCommentStatus`. -/
def UpdateCommentStatusCheck (c : Context) : RoleCheck :=
  match c.Get "role".toList with
  | none => .panic
  | some role =>
    if role ≠ "manager".toList ∧ role ≠ "admin".toList then
      .respond ⟨403, .error (NewError 403 "forbidden".toList)⟩
    else .proceed

/-- The handler `HTTPHandler.UpdateCommentStatus`; `rest` is the handler after the
role check: binding, the call of `commentUC.UpdateStatus`, the response. -/
def HTTPHandler.UpdateCommentStatus (rest : Context → JSONResponse) (c : Context) :
    Option JSONResponse :=
  match UpdateCommentStatusCheck c with
  | .respond r => some r
  | .proceed => some (rest c)
  | .panic => none

end blog

/-- Modelled from the spec: the total order of the roles, `guest < user < manager
< admin`, as the rank of a role name (the code declares the four names and no
order). -/
def roleRank (role : Str) : Option Nat :=
  if role = RoleGuest then some 0
  else if role = RoleUser then some 1
  else if role = RoleManager then some 2
  else if role = RoleAdmin then some 3
  else none

/-! ## email_usecase.go: a consume call as its store operations -/

/-- The part of `VerifyEmail` up to its write: the token check, the read
`repo.GetByID`, the test of the verified flag. It gives the error the method
returns, or the record the method goes on to hand to `repo.Update`. -/
def EmailUseCase.VerifyEmailRead {σ : Type} (uc : EmailUseCase σ) (token : Str) (s : σ) :
    Except Str User :=
  match uc.validateVerificationToken token with
  | .error err => .error ("invalid verification token: ".toList ++ err)
  | .ok userID =>
    match uc.repo.GetByID s userID with
    | .error err => .error ("failed to get user: ".toList ++ err)
    | .ok none => .error "user not found".toList
    | .ok (some user) =>
      if user.Verified then .error "email already verified".toList
      else .ok { user with Verified := true }

/-- The rest of `VerifyEmail`: the write `repo.Update` and the result. -/
def EmailUseCase.VerifyEmailWrite {σ : Type} (uc : EmailUseCase σ) (user : User) (s : σ) :
    Except Str Unit × σ :=
  match uc.repo.Update s user with
  | (some err, s') => (.error ("failed to update user verification: ".toList ++ err), s')
  | (none, s') => (.ok (), s')

/-- The part of `ResetPassword` up to its write: the token check, the read
`repo.GetByID`, the hash. It gives the error the method returns, or the record
the method goes on to hand to `repo.Update`. -/
def EmailUseCase.ResetPasswordRead {σ : Type} (uc : EmailUseCase σ) (token newPassword : Str)
    (s : σ) : Except Str User :=
  match uc.validatePasswordResetToken token with
  | .error err => .error ("invalid reset token: ".toList ++ err)
  | .ok userID =>
    match uc.repo.GetByID s userID with
    | .error err => .error ("failed to get user: ".toList ++ err)
    | .ok none => .error "user not found".toList
    | .ok (some user) =>
      match uc.hashPassword newPassword with
      | .error err => .error ("failed to hash password: ".toList ++ err)
      | .ok hash => .ok { user with PasswordHash := hash }

/-- The rest of `ResetPassword`: the write `repo.Update` and the result. -/
def EmailUseCase.ResetPasswordWrite {σ : Type} (uc : EmailUseCase σ) (user : User) (s : σ) :
    Except Str Unit × σ :=
  match uc.repo.Update s user with
  | (some err, s') => (.error ("failed to update password: ".toList ++ err), s')
  | (none, s') => (.ok (), s')

/-! ## The credential hasher -/

/-- Modelled from the spec: `hash` of the credential hasher (section 4.1), the
contract of `auth.HashPassword`, whose file is not among the sources. The
algorithm is salted and the salt of the call is embedded in the digest: the
digest is written as the bcrypt and argon2 class writes it, a `$`, the salt
(sixteen characters), a `$`, the key derived from salt and plaintext. The
derivation `kdf` is a parameter. -/
def specHash (kdf : Str → Str → Str) (salt plaintext : Str) : Str :=
  '$' :: (salt ++ '$' :: kdf salt plaintext)

/-- Modelled from the spec: `verify` of the credential hasher (section 4.1), the
contract of `auth.CheckPassword`: the salt is read out of the digest, the key
of the plaintext is derived under it and compared with the key in the digest;
a digest of another shape verifies no plaintext, and nothing is thrown. -/
def specVerify (kdf : Str → Str → Str) (digest plaintext : Str) : Bool :=
  match digest with
  | '$' :: r =>
    match r.drop 16 with
    | '$' :: key => decide (key = kdf (r.take 16) plaintext)
    | _ => false
  | _ => false

/-- Modelled from the spec: the credential hasher as the user use case calls it,
for the salt the call draws. -/
def specHasher (kdf : Str → Str → Str) (salt : Str) : PasswordHasher where
  HashPassword := fun p => .ok (specHash kdf salt p)
  CheckPassword := specVerify kdf

/-! ## strings, fmt, path/filepath, time -/

namespace strings

/-- The function `strings.ToLower`: every character mapped with `unicode.ToLower`,
the parameter `lower`. -/
def ToLower (lower : Char → Char) (s : Str) : Str := s.map lower

/-- The function `strings.ReplaceAll(s, old, new)` for `old` and `new` of one
character each. -/
def ReplaceAll (s : Str) (old new : Char) : Str := s.map fun c => if c = old then new else c

/-- The function `strings.HasPrefix(s, p)`. -/
def HasPrefix (s p : Str) : Bool := p.isPrefixOf s

end strings

/-- The zero value of `time.Time`: the first instant of the year 1. -/
def time.zeroTime : Int := -62135596800 * time.Second

/-- The scan of `filepath.Ext`, over the reversed path: back from the end up to
the first separator, returning the suffix that begins at the first dot met. -/
def filepath.extScan : Str → Str → Str
  | [], _ => []
  | c :: rest, acc =>
    if c = '/' then []
    else if c = '.' then '.' :: acc
    else filepath.extScan rest (c :: acc)

/-- The function `filepath.Ext`: the suffix beginning at the final dot of the final
element of the path, empty when that element has no dot. -/
def filepath.Ext (path : Str) : Str := filepath.extScan path.reverse []

/-! ## blog-service/internal/domain and usecase/dto.go -/

namespace blog

/-- The constant `domain.StatusDraft`. -/
def StatusDraft : Str := "draft".toList

/-- The struct `domain.Article`. A `time.Time` is its instant in nanoseconds; the
`float64` of the rating average is only stored and copied by the use case, and
stands here as the number it holds. -/
structure Article where
  ID : Str
  AuthorID : Str
  Title : Str
  Slug : Str
  Summary : Str
  Content : Str
  CoverURL : Str
  Status : Str
  CategoryID : Str
  Tags : List Str
  ViewCount : Int
  RatingAvg : Rat
  CreatedAt : Int
  UpdatedAt : Int
  PublishedAt : Option Int
deriving DecidableEq, Repr

/-- The interface `domain.ArticleRepository` as `Create`, `Update` and `Delete` of
the use case call it, over a store state `σ`: `Create` gives an error or the id
it wrote into the article, and the next state; the lookups give an error, no
article or an article; `Update` and `Delete` give an optional error and the
next state. -/
structure ArticleRepository (σ : Type) where
  Create : σ → Article → Except Str Str × σ
  GetByID : σ → Str → Except Str (Option Article)
  GetBySlug : σ → Str → Except Str (Option Article)
  Update : σ → Article → Option Str × σ
  Delete : σ → Str → Option Str × σ

/-- The struct `CreateArticleRequest`. -/
structure CreateArticleRequest where
  Title : Str
  Content : Str
  Summary : Str
  CategoryID : Str
  Tags : List Str
  CoverURL : Str
deriving DecidableEq, Repr

/-- The struct `ArticleResponse`. -/
structure ArticleResponse where
  ID : Str
  AuthorID : Str
  Title : Str
  Slug : Str
  Summary : Str
  Content : Str
  CoverURL : Str
  Status : Str
  CategoryID : Str
  Tags : List Str
  ViewCount : Int
  RatingAvg : Rat
  CreatedAt : Int
  UpdatedAt : Int
deriving DecidableEq, Repr

/-- The struct `domain.Category`. -/
structure Category where
  ID : Str
  Name : Str
  Slug : Str
  ParentID : Str
deriving DecidableEq, Repr

/-- The struct `CategoryResponse`, which holds its children. -/
inductive CategoryResponse
  | mk (ID Name Slug ParentID : Str) (Children : List CategoryResponse)

/-- The field `ID` of a `CategoryResponse`. -/
def CategoryResponse.ID : CategoryResponse → Str
  | .mk id _ _ _ _ => id

/-- The field `Name` of a `CategoryResponse`. -/
def CategoryResponse.Name : CategoryResponse → Str
  | .mk _ name _ _ _ => name

/-- The field `ParentID` of a `CategoryResponse`. -/
def CategoryResponse.ParentID : CategoryResponse → Str
  | .mk _ _ _ parent _ => parent

/-- The field `Children` of a `CategoryResponse`. -/
def CategoryResponse.Children : CategoryResponse → List CategoryResponse
  | .mk _ _ _ _ children => children

/-- The method `ListTree` of the interface `domain.CategoryRepository`, over a store
state `σ`: an error or the categories. -/
structure CategoryRepository (σ : Type) where
  ListTree : σ → Except Str (List Category)

/-! ## blog-service/internal/usecase/article_usecase.go -/

/-- The struct `ArticleUseCase`: the article store. -/
structure ArticleUseCase (σ : Type) where
  repo : ArticleRepository σ

/-- The loop of `Create` that settles the slug, `for i := 0; i < 5; i++`, entered
with `n` rounds left, the counter `i` and the candidate `slug`: a round looks
the candidate up, leaves the loop with it when the lookup gives no article (its
error is discarded with the blank identifier), and otherwise makes
`fmt.Sprintf("%s-%d", base, i+1)` the candidate of the next round. -/
def ArticleUseCase.slugLoop {σ : Type} (uc : ArticleUseCase σ) (s : σ) (base : Str) :
    Nat → Nat → Str → Str
  | 0, _, slug => slug
  | n + 1, i, slug =>
    let exist : Option Article :=
      match uc.repo.GetBySlug s slug with
      | .ok a => a
      | .error _ => none
    match exist with
    | none => slug
    | some _ => ArticleUseCase.slugLoop uc s base n (i + 1)
        (base ++ "-".toList ++ formatInt ((i : Int) + 1))

/-- The method `ArticleUseCase.Create`: the result and the state of the store
afterwards. `lower` is `unicode.ToLower`; `now` and `now'` are the clock when
`CreatedAt` and `UpdatedAt` are set. The response leaves `UpdatedAt` at its zero
value. -/
def ArticleUseCase.Create {σ : Type} (lower : Char → Char) (uc : ArticleUseCase σ)
    (now now' : Int) (userID : Str) (req : CreateArticleRequest) (s : σ) :
    Except Str ArticleResponse × σ :=
  if req.Tags.length > 10 then (.error "max 10 tags".toList, s)
  else
    let base := strings.ReplaceAll (strings.ToLower lower req.Title) ' ' '-'
    let slug := uc.slugLoop s base 5 0 base
    let a : Article :=
      { ID := [], AuthorID := userID, Title := req.Title, Slug := slug, Summary := req.Summary,
        Content := req.Content, CoverURL := req.CoverURL, Status := StatusDraft,
        CategoryID := req.CategoryID, Tags := req.Tags, ViewCount := 0, RatingAvg := 0,
        CreatedAt := now, UpdatedAt := now', PublishedAt := none }
    match uc.repo.Create s a with
    | (.error err, s') => (.error err, s')
    | (.ok id, s') =>
      (.ok { ID := id, AuthorID := a.AuthorID, Title := a.Title, Slug := a.Slug,
             Summary := a.Summary, Content := a.Content, CoverURL := a.CoverURL,
             Status := a.Status, CategoryID := a.CategoryID, Tags := a.Tags,
             ViewCount := a.ViewCount, RatingAvg := a.RatingAvg, CreatedAt := a.CreatedAt,
             UpdatedAt := time.zeroTime }, s')

/-- The method `ArticleUseCase.Update`: the result and the state of the store
afterwards; `now` is the clock when `UpdatedAt` is set. -/
def ArticleUseCase.Update {σ : Type} (uc : ArticleUseCase σ) (now : Int) (userID id : Str)
    (req : CreateArticleRequest) (s : σ) : Except Str ArticleResponse × σ :=
  match uc.repo.GetByID s id with
  | .error err => (.error err, s)
  | .ok none => (.error "article not found".toList, s)
  | .ok (some a) =>
    if a.AuthorID ≠ userID then (.error "forbidden".toList, s)
    else
      let a : Article :=
        { a with Title := req.Title, Content := req.Content, Summary := req.Summary,
                 CategoryID := req.CategoryID, Tags := req.Tags, CoverURL := req.CoverURL,
                 UpdatedAt := now }
      match uc.repo.Update s a with
      | (some err, s') => (.error err, s')
      | (none, s') =>
        (.ok { ID := a.ID, AuthorID := a.AuthorID, Title := a.Title, Slug := a.Slug,
               Summary := a.Summary, Content := a.Content, CoverURL := a.CoverURL,
               Status := a.Status, CategoryID := a.CategoryID, Tags := a.Tags,
               ViewCount := a.ViewCount, RatingAvg := a.RatingAvg, CreatedAt := a.CreatedAt,
               UpdatedAt := a.UpdatedAt }, s')

/-- The method `ArticleUseCase.Delete`: the error, if any, and the state of the store
afterwards. -/
def ArticleUseCase.Delete {σ : Type} (uc : ArticleUseCase σ) (userID id : Str) (s : σ) :
    Option Str × σ :=
  match uc.repo.GetByID s id with
  | .error err => (some err, s)
  | .ok none => (some "article not found".toList, s)
  | .ok (some a) =>
    if a.AuthorID ≠ userID then (some "forbidden".toList, s)
    else uc.repo.Delete s id

/-! ## blog-service/internal/usecase/category_usecase.go -/

/-- The struct `CategoryUseCase`: the category store. -/
structure CategoryUseCase (σ : Type) where
  repo : CategoryRepository σ

/-- The method `CategoryUseCase.ListTree`: one response for each category the store
lists, in the store's order, with `Children` left at its zero value. The store
is only read. -/
def CategoryUseCase.ListTree {σ : Type} (uc : CategoryUseCase σ) (s : σ) :
    Except Str (List CategoryResponse) :=
  match uc.repo.ListTree s with
  | .error err => .error err
  | .ok list => .ok (list.map fun c => .mk c.ID c.Name c.Slug c.ParentID [])

end blog

/-! ## media-service/internal/domain and usecase/media_usecase.go -/

namespace media

/-- The struct `Config` of the media use case. -/
structure Config where
  MaxFileSize : Int
  AllowedTypes : List Str
  StoragePath : Str
  BaseURL : Str
  ThumbnailSize : Int

/-- The struct `multipart.FileHeader`: the file name, the header (each key with
its first value), the size, and what opening and reading the file give, the
message of an error or the bytes. -/
structure FileHeader where
  Filename : Str
  Header : List (Str × Str)
  Size : Int
  Open : Except Str (Except Str Bytes)

/-- The method `Header.Get` of the file's header: the first value of the key, the
empty string when the key is absent. -/
def FileHeader.HeaderGet (file : FileHeader) (key : Str) : Str :=
  match file.Header.lookup key with
  | some v => v
  | none => []

/-- The constant `domain.MediaTypeImage`. -/
def MediaTypeImage : Str := "image".toList

/-- The constant `domain.MediaTypeVideo`. -/
def MediaTypeVideo : Str := "video".toList

/-- The constant `domain.MediaTypeAudio`. -/
def MediaTypeAudio : Str := "audio".toList

/-- The constant `domain.MediaTypeDocument`. -/
def MediaTypeDocument : Str := "document".toList

/-- The constant `domain.MediaStatusProcessed`. -/
def MediaStatusProcessed : Str := "processed".toList

/-- The struct `domain.Media`; its field `Type` is `MediaType` here, and the
metadata is the list of its keys, each with the value the request context holds
for it, if any. -/
structure Media where
  ID : Str
  UploaderID : Str
  Filename : Str
  OriginalName : Str
  MimeType : Str
  Size : Int
  MediaType : Str
  Status : Str
  URL : Str
  ThumbnailURL : Str
  Metadata : List (Str × Option Str)
  CreatedAt : Int
  UpdatedAt : Int
deriving DecidableEq, Repr

/-- The struct `MediaResponse`; its field `Type` is `MediaType` here. -/
structure MediaResponse where
  ID : Str
  UploaderID : Str
  Filename : Str
  OriginalName : Str
  MimeType : Str
  Size : Int
  MediaType : Str
  Status : Str
  URL : Str
  ThumbnailURL : Str
  Metadata : List (Str × Option Str)
  CreatedAt : Int
  UpdatedAt : Int
deriving DecidableEq, Repr

/-- The struct `UploadResponse`. -/
structure UploadResponse where
  Media : MediaResponse
  URL : Str
deriving DecidableEq, Repr

/-- The method `Create` of the interface `domain.MediaRepository`, over a store state
`ρ`: an error or the id the record holds after the call, and the next state. -/
structure MediaRepository (ρ : Type) where
  Create : ρ → Media → Except Str Str × ρ

/-- The methods of the interface `MediaStorage` that `Upload` calls, over a storage
state `τ`: `Save` gives an error or the URL, `Delete` an optional error,
`GenerateThumbnail` an error or the URL of the thumbnail; each gives the next
state. -/
structure MediaStorage (τ : Type) where
  Save : τ → Str → Bytes → Except Str Str × τ
  Delete : τ → Str → Option Str × τ
  GenerateThumbnail : τ → Str → Int → Except Str Str × τ

/-- The struct `MediaUseCase`: the store of the records, the file storage, the
configuration. -/
structure MediaUseCase (ρ τ : Type) where
  repo : MediaRepository ρ
  storage : MediaStorage τ
  cfg : Config

/-- The method `isAllowedType`: some allowed type is a prefix of the content type. -/
def MediaUseCase.isAllowedType {ρ τ : Type} (uc : MediaUseCase ρ τ) (contentType : Str) : Bool :=
  uc.cfg.AllowedTypes.any fun allowedType => strings.HasPrefix contentType allowedType

/-- The method `validateFile`: the error, if any. -/
def MediaUseCase.validateFile {ρ τ : Type} (uc : MediaUseCase ρ τ) (file : FileHeader) :
    Option Str :=
  if file.Size > uc.cfg.MaxFileSize then
    some ("file too large: ".toList ++ formatInt file.Size ++ " bytes (max: ".toList ++
      formatInt uc.cfg.MaxFileSize ++ ")".toList)
  else
    let contentType := file.HeaderGet "Content-Type".toList
    if !uc.isAllowedType contentType then
      some ("file type not allowed: ".toList ++ contentType)
    else none

/-- The method `isImage`. -/
def MediaUseCase.isImage {ρ τ : Type} (_uc : MediaUseCase ρ τ) (contentType : Str) : Bool :=
  strings.HasPrefix contentType "image/".toList

/-- The method `getMediaType`. -/
def MediaUseCase.getMediaType {ρ τ : Type} (_uc : MediaUseCase ρ τ) (contentType : Str) : Str :=
  if strings.HasPrefix contentType "image/".toList then MediaTypeImage
  else if strings.HasPrefix contentType "video/".toList then MediaTypeVideo
  else if strings.HasPrefix contentType "audio/".toList then MediaTypeAudio
  else MediaTypeDocument

/-- The method `generateFilename`; `now` is the clock, in nanoseconds. -/
def MediaUseCase.generateFilename {ρ τ : Type} (_uc : MediaUseCase ρ τ) (now : Int)
    (originalName : Str) : Str :=
  let ext := filepath.Ext originalName
  formatInt now ++ "_".toList ++ strings.ReplaceAll originalName ' ' '_' ++ ext

/-- The method `MediaUseCase.Upload`: the result and the states of the record store
and of the file storage afterwards. `ctxValue` is `ctx.Value`; `now` is the
clock when the file name is made, `now'` and `now''` when `CreatedAt` and
`UpdatedAt` are set. A thumbnail that cannot be made is logged and left out; the
error of the clean-up `storage.Delete` is discarded. -/
def MediaUseCase.Upload {ρ τ : Type} (uc : MediaUseCase ρ τ) (ctxValue : Str → Option Str)
    (now now' now'' : Int) (uploaderID : Str) (file : FileHeader) (r : ρ) (t : τ) :
    Except Str UploadResponse × ρ × τ :=
  match uc.validateFile file with
  | some err => (.error err, r, t)
  | none =>
    match file.Open with
    | .error err => (.error ("failed to open file: ".toList ++ err), r, t)
    | .ok (.error err) => (.error ("failed to read file: ".toList ++ err), r, t)
    | .ok (.ok data) =>
      let filename := uc.generateFilename now file.Filename
      match uc.storage.Save t filename data with
      | (.error err, t1) => (.error ("failed to save file: ".toList ++ err), r, t1)
      | (.ok url, t1) =>
        let thumb : Str × τ :=
          if uc.isImage (file.HeaderGet "Content-Type".toList) then
            match uc.storage.GenerateThumbnail t1 filename uc.cfg.ThumbnailSize with
            | (.error _, t2) => ([], t2)
            | (.ok thumbURL, t2) => (thumbURL, t2)
          else ([], t1)
        let m : Media :=
          { ID := [], UploaderID := uploaderID, Filename := filename,
            OriginalName := file.Filename,
            MimeType := file.HeaderGet "Content-Type".toList, Size := file.Size,
            MediaType := uc.getMediaType (file.HeaderGet "Content-Type".toList),
            Status := MediaStatusProcessed, URL := url, ThumbnailURL := thumb.1,
            Metadata := [("upload_ip".toList, ctxValue "client_ip".toList),
                         ("user_agent".toList, ctxValue "user_agent".toList)],
            CreatedAt := now', UpdatedAt := now'' }
        match uc.repo.Create r m with
        | (.error err, r1) =>
          (.error ("failed to save media record: ".toList ++ err), r1,
            (uc.storage.Delete thumb.2 filename).2)
        | (.ok id, r1) =>
          (.ok { Media :=
                   { ID := id, UploaderID := m.UploaderID, Filename := m.Filename,
                     OriginalName := m.OriginalName, MimeType := m.MimeType, Size := m.Size,
                     MediaType := m.MediaType, Status := m.Status, URL := m.URL,
                     ThumbnailURL := m.ThumbnailURL, Metadata := m.Metadata,
                     CreatedAt := m.CreatedAt, UpdatedAt := m.UpdatedAt },
                 URL := url }, r1, thumb.2)

end media

/-! ## Issued tokens, written out -/

namespace jwt

/-- The MAC an HMAC signing method computes (no bytes for another method). -/
def mac (P : Prims) (m : SigningMethod) (key msg : Bytes) : Bytes :=
  match m.hash P with
  | some h => hmac.Sum h key msg
  | none => []

/-- The token text `SignedString` produces for an HMAC method. -/
def signed (P : Prims) (m : SigningMethod) (c : Claims) (key : Bytes) : Str :=
  (NewWithClaims m c).SigningString P ++ '.' ::
    base64.EncodeToString (mac P m key (toBytes ((NewWithClaims m c).SigningString P)))

end jwt

/-- The algorithm the header of a token declares: the `alg` of the decoded
first segment. -/
def jwt.headerAlg (P : Prims) (tokenString : Str) : Option Str :=
  match strings.Split '.' tokenString with
  | p0 :: _ =>
    match base64.DecodeString p0 with
    | some headerBytes =>
      match P.unmarshalHeader headerBytes with
      | some (some alg) => some alg
      | _ => none
    | none => none
  | [] => none

/-- The claim set `GenerateTokens` signs for a lifetime of `n` units
(`time.Minute` for the access token, `time.Hour` for the refresh token). -/
def issuedClaims (now : Int) (uid role : Str) (n unit : Int) : Claims :=
  { UserID := uid
    Role := role
    RegisteredClaims :=
      { ExpiresAt := some (jwt.NewNumericDate (now + time.Duration n unit))
        NotBefore := none
        IssuedAt := some (jwt.NewNumericDate now) } }

/-- The instants `Time.UnixNano` can express (the years 1678 to 2262): the range
of the clock. -/
def clockRange (t : Int) : Prop := -(2 ^ 63 : Int) ≤ t ∧ t < 2 ^ 63


/-- The shape of a header the gate hands to token verification: the scheme
`Bearer`, one blank, then a token without a blank (the token may be empty). -/
def bearerShape (header : Str) : Prop :=
  ∃ t, header = "Bearer ".toList ++ t ∧ ' ' ∉ t

/-! ## An instance of the primitives

The laws of `Prims` are satisfiable: numbering a header and a claim set and
writing the number in base 256 gives encodings that decode back. The instance
stands in for `encoding/json` and for SHA-2 wherever a statement is evaluated
at a concrete input. -/

/-- A numbering of the characters. -/
instance charEncodable : Encodable Char :=
  Encodable.ofLeftInverse Char.toNat Char.ofNat fun c => Char.ofNat_toNat c

/-- The fields of a claim set. -/
def claimsFields (c : Claims) : Str × Str × Option Int × Option Int × Option Int :=
  (c.UserID, c.Role, c.RegisteredClaims.ExpiresAt, c.RegisteredClaims.NotBefore,
    c.RegisteredClaims.IssuedAt)

/-- The claim set of its fields. -/
def fieldsClaims (f : Str × Str × Option Int × Option Int × Option Int) : Claims :=
  { UserID := f.1, Role := f.2.1,
    RegisteredClaims := { ExpiresAt := f.2.2.1, NotBefore := f.2.2.2.1, IssuedAt := f.2.2.2.2 } }

/-- A numbering of the claim sets. -/
instance claimsEncodable : Encodable Claims :=
  Encodable.ofLeftInverse claimsFields fieldsClaims fun _ => rfl

/-- A number in base 256, lowest byte first. -/
def natBytes (n : Nat) : Bytes := (Nat.digits 256 n).map Fin.ofNat

/-- The number of a byte sequence. -/
def bytesNat (bs : Bytes) : Nat := Nat.ofDigits 256 (bs.map Fin.val)

/-- The instance: numbered headers and claim sets, and the identity in place of
the three hash functions. -/
def demoPrims : Prims where
  sha256 := id
  sha384 := id
  sha512 := id
  marshalHeader := fun alg => natBytes (Encodable.encode alg)
  unmarshalHeader := fun bs => (Encodable.decode (α := Str) (bytesNat bs)).map some
  marshalClaims := fun c => natBytes (Encodable.encode c)
  unmarshalClaims := fun bs => Encodable.decode (bytesNat bs)
  header_roundtrip := by
    intro alg
    have h : bytesNat (natBytes (Encodable.encode alg)) = Encodable.encode alg := by
      unfold bytesNat natBytes
      rw [List.map_map]
      have hid : (Nat.digits 256 (Encodable.encode alg)).map (Fin.val ∘ (Fin.ofNat : Nat → Byte)) =
          Nat.digits 256 (Encodable.encode alg) := by
        conv_rhs => rw [← List.map_id (Nat.digits 256 (Encodable.encode alg))]
        apply List.map_congr_left
        intro d hd
        have := Nat.digits_lt_base (by norm_num : 1 < 256) hd
        simp only [Function.comp, Fin.ofNat, id]
        omega
      rw [hid, Nat.ofDigits_digits]
    simp [h]
  claims_roundtrip := by
    intro c _ _ _
    have h : bytesNat (natBytes (Encodable.encode c)) = Encodable.encode c := by
      unfold bytesNat natBytes
      rw [List.map_map]
      have hid : (Nat.digits 256 (Encodable.encode c)).map (Fin.val ∘ (Fin.ofNat : Nat → Byte)) =
          Nat.digits 256 (Encodable.encode c) := by
        conv_rhs => rw [← List.map_id (Nat.digits 256 (Encodable.encode c))]
        apply List.map_congr_left
        intro d hd
        have := Nat.digits_lt_base (by norm_num : 1 < 256) hd
        simp only [Function.comp, Fin.ofNat, id]
        omega
      rw [hid, Nat.ofDigits_digits]
    simp [h]


/-- An instance of the primitives whose hash functions have collisions: each maps
every input to the empty digest. The JSON encodings are those of `demoPrims`. -/
def collidingPrims : Prims :=
  { demoPrims with sha256 := fun _ => [], sha384 := fun _ => [], sha512 := fun _ => [] }

/-! ## A store and a use case to evaluate on -/

/-- The configuration of the repository's tests. -/
def demoConfig : EmailConfig :=
  { FromEmail := "noreply@microblog.com".toList
    BaseURL := "http://localhost:8081".toList
    TokenSecret := "secret".toList
    TokenTTLHours := 24 }

/-- The email use case over the store in memory. -/
def demoUseCase : EmailUseCase (List User) := { repo := memRepo, cfg := demoConfig }

/-- An unverified user with the given id and password hash. -/
def demoUser (id hash : Str) : User :=
  { ID := id, Email := id ++ "@example.com".toList, PasswordHash := hash,
    Role := "user".toList, Verified := false, CreatedAt := 1690000000000000000 }

/-- A hasher to evaluate on: the digest of the email use case, compared for
equality. -/
def demoHasher : PasswordHasher where
  HashPassword := fun p => .ok ("hashed_".toList ++ p)
  CheckPassword := fun hash p => decide (hash = "hashed_".toList ++ p)

/-- A mail sender that delivers every mail. -/
def sendOk : Sender := fun _ _ _ => none

/-- A mail sender that fails on every mail. -/
def sendFails : Sender := fun _ _ _ => some "smtp error".toList

/-- The configuration of the user use case in the repository's tests. -/
def demoUserConfig : Config :=
  { AccessSecret := "test-access".toList
    RefreshSecret := "test-refresh".toList
    AccessTTLMin := 15
    RefreshTTLHour := 168
    EmailFrom := "test@local".toList }

/-- The user use case over the store in memory. -/
def demoUserUseCase : UserUseCase (List User) :=
  { repo := memStore, email := sendOk, cfg := demoUserConfig }

/-! ## Stores and use cases of the blog and media services to evaluate on -/

/-- The function `unicode.ToLower` on the characters of ASCII, to evaluate on. -/
def asciiLower (c : Char) : Char :=
  if 'A' ≤ c ∧ c ≤ 'Z' then Char.ofNat (c.toNat + 32) else c

/-- An article store held in memory, the list of the articles: a new article is
appended under an id made of the number of articles held, a lookup gives the
first article with the id or the slug. -/
def blog.memArticles : blog.ArticleRepository (List blog.Article) where
  Create := fun s a =>
    (.ok ('a' :: Nat.toDigits 10 s.length),
      s ++ [{ a with ID := 'a' :: Nat.toDigits 10 s.length }])
  GetByID := fun s id => .ok (s.find? fun a => decide (a.ID = id))
  GetBySlug := fun s slug => .ok (s.find? fun a => decide (a.Slug = slug))
  Update := fun s a => (none, s.map fun x => if x.ID = a.ID then a else x)
  Delete := fun s id => (none, s.filter fun x => x.ID != id)

/-- The article use case over the store in memory. -/
def blog.demoArticleUseCase : blog.ArticleUseCase (List blog.Article) :=
  { repo := blog.memArticles }

/-- An approved article with the given id, author and slug. -/
def blog.demoArticle (id author slug : Str) : blog.Article :=
  { ID := id, AuthorID := author, Title := "Old Title".toList, Slug := slug,
    Summary := "Old summary".toList, Content := "Old content".toList, CoverURL := [],
    Status := "approved".toList, CategoryID := "cat123".toList, Tags := ["go".toList],
    ViewCount := 7, RatingAvg := 4, CreatedAt := 1690000000000000000,
    UpdatedAt := 1690000000000000000, PublishedAt := some 1690000100000000000 }

/-- The request of the repository's tests. -/
def blog.demoRequest : blog.CreateArticleRequest :=
  { Title := "Test Article".toList, Content := "This is a test article content".toList,
    Summary := "Test summary".toList, CategoryID := "cat123".toList,
    Tags := ["test".toList, "article".toList], CoverURL := [] }

/-- A category store held in memory: it lists the categories it holds. -/
def blog.memCategories : blog.CategoryRepository (List blog.Category) where
  ListTree := fun s => .ok s

/-- The configuration of the media use case in the repository's tests. -/
def media.demoConfig : media.Config :=
  { MaxFileSize := 10 * 1024 * 1024
    AllowedTypes := ["image/".toList]
    StoragePath := "./uploads".toList
    BaseURL := "http://localhost:8083".toList
    ThumbnailSize := 300 }

/-- A record store held in memory: a new record is appended, its id left as it is. -/
def media.memRecords : media.MediaRepository (List media.Media) where
  Create := fun r m => (.ok m.ID, r ++ [m])

/-- A file storage held in memory, the list of the files by name. -/
def media.memFiles : media.MediaStorage (List (Str × Bytes)) where
  Save := fun t name data => (.ok ("http://localhost:8083/uploads/".toList ++ name), t ++ [(name, data)])
  Delete := fun t name => (none, t.filter fun f => f.1 != name)
  GenerateThumbnail := fun t name _ =>
    (.ok ("http://localhost:8083/uploads/thumb_".toList ++ name), t)

/-- The media use case over the stores in memory. -/
def media.demoUseCase : media.MediaUseCase (List media.Media) (List (Str × Bytes)) :=
  { repo := media.memRecords, storage := media.memFiles, cfg := media.demoConfig }

/-- A file header with the given name, size and content type, over three bytes. -/
def media.demoFile (name : Str) (size : Int) (contentType : Str) : media.FileHeader :=
  { Filename := name, Header := [("Content-Type".toList, contentType)], Size := size,
    Open := .ok (.ok [1, 2, 3]) }

/-! ## Lemmas: strings -/

theorem Split_ne_nil (sep : Char) (s : Str) : strings.Split sep s ≠ [] := by
  induction s with
  | nil => simp [strings.Split]
  | cons c cs ih =>
    unfold strings.Split
    split
    · simp
    · split
      · simp
      · simp

theorem Split_of_not_mem (sep : Char) (s : Str) (h : sep ∉ s) : strings.Split sep s = [s] := by
  induction s with
  | nil => simp [strings.Split]
  | cons c cs ih =>
    have hc : c ≠ sep := fun e => h (by simp [e])
    have hcs : sep ∉ cs := fun e => h (by simp [e])
    simp [strings.Split, hc, ih hcs]

theorem Split_append_sep (sep : Char) (a b : Str) (h : sep ∉ a) :
    strings.Split sep (a ++ sep :: b) = a :: strings.Split sep b := by
  induction a with
  | nil => simp [strings.Split]
  | cons c cs ih =>
    have hc : c ≠ sep := fun e => h (by simp [e])
    have hcs : sep ∉ cs := fun e => h (by simp [e])
    simp [strings.Split, hc, ih hcs]

/-- The pieces of a split hold no separator, and joining them with the separator
gives the string back. -/
theorem Split_spec (sep : Char) (s : Str) :
    (∀ p ∈ strings.Split sep s, sep ∉ p) ∧
      List.intercalate [sep] (strings.Split sep s) = s := by
  induction s with
  | nil => simp [strings.Split, List.intercalate]
  | cons c cs ih =>
    obtain ⟨ih1, ih2⟩ := ih
    unfold strings.Split
    by_cases hc : c = sep
    · subst hc
      simp only [if_true]
      refine ⟨?_, ?_⟩
      · intro p hp
        rcases List.mem_cons.1 hp with rfl | hp
        · simp
        · exact ih1 p hp
      · cases hsp : strings.Split c cs with
        | nil => exact absurd hsp (Split_ne_nil c cs)
        | cons q qs =>
          rw [hsp] at ih2
          rw [← ih2]
          simp [List.intercalate, List.intersperse]
    · simp only [hc, if_false]
      cases hsp : strings.Split sep cs with
      | nil => exact absurd hsp (Split_ne_nil sep cs)
      | cons q qs =>
        rw [hsp] at ih1 ih2
        refine ⟨?_, ?_⟩
        · intro p hp
          rcases List.mem_cons.1 hp with rfl | hp
          · have := ih1 q (by simp)
            intro hm
            rcases List.mem_cons.1 hm with e | e
            · exact hc e.symm
            · exact this e
          · exact ih1 p (by simp [hp])
        · rw [← ih2]
          cases qs <;> simp [List.intercalate, List.intersperse]

/-! ## Lemmas: base64 -/

theorem decodeChar_encodeSextet : ∀ n < 64, base64.decodeChar (base64.encodeSextet n) = some n := by
  decide

theorem encodeSextet_plain : ∀ n < 64,
    base64.encodeSextet n ≠ ' ' ∧ base64.encodeSextet n ≠ '.' ∧
      base64.encodeSextet n ≠ '\n' ∧ base64.encodeSextet n ≠ '\r' := by
  decide

theorem sextets_lt (bs : Bytes) : ∀ v ∈ base64.sextets bs, v < 64 := by
  induction bs using base64.sextets.induct with
  | case1 a b c rest ih =>
    intro v hv
    simp only [base64.sextets, List.mem_cons] at hv
    rcases hv with h | h | h | h | h
    · omega
    · omega
    · omega
    · omega
    · exact ih v h
  | case2 a b =>
    intro v hv
    simp only [base64.sextets, List.mem_cons, List.mem_singleton, List.not_mem_nil,
      or_false] at hv
    omega
  | case3 a =>
    intro v hv
    simp only [base64.sextets, List.mem_cons, List.mem_singleton, List.not_mem_nil,
      or_false] at hv
    omega
  | case4 => simp [base64.sextets]

theorem decodeChars_map_encodeSextet (l : List Nat) (h : ∀ v ∈ l, v < 64) :
    base64.decodeChars (l.map base64.encodeSextet) = some l := by
  induction l with
  | nil => rfl
  | cons v vs ih =>
    have hv : v < 64 := h v (by simp)
    have hvs : ∀ w ∈ vs, w < 64 := fun w hw => h w (by simp [hw])
    simp [base64.decodeChars, decodeChar_encodeSextet v hv, ih hvs]

theorem filter_map_encodeSextet (l : List Nat) (h : ∀ v ∈ l, v < 64) :
    (l.map base64.encodeSextet).filter (fun c => c != '\n' && c != '\r') =
      l.map base64.encodeSextet := by
  rw [List.filter_eq_self]
  intro c hc
  obtain ⟨v, hv, rfl⟩ := List.mem_map.1 hc
  have := encodeSextet_plain v (h v hv)
  simp [this.2.2.1, this.2.2.2]

theorem decodeQuanta_sextets (bs : Bytes) : base64.decodeQuanta (base64.sextets bs) = some bs := by
  induction bs using base64.sextets.induct with
  | case1 a b c rest ih =>
    simp only [base64.sextets, base64.decodeQuanta, ih]
    have ha : (Fin.ofNat (a.val / 4 * 4 + (a.val % 4 * 16 + b.val / 16) / 16) : Byte) = a := by
      apply Fin.ext; simp only [Fin.ofNat, Fin.val_mk]; omega
    have hb : (Fin.ofNat ((a.val % 4 * 16 + b.val / 16) % 16 * 16 +
        (b.val % 16 * 4 + c.val / 64) / 4) : Byte) = b := by
      apply Fin.ext; simp only [Fin.ofNat, Fin.val_mk]; omega
    have hc : (Fin.ofNat ((b.val % 16 * 4 + c.val / 64) % 4 * 64 + c.val % 64) : Byte) = c := by
      apply Fin.ext; simp only [Fin.ofNat, Fin.val_mk]; omega
    rw [ha, hb, hc]
  | case2 a b =>
    simp only [base64.sextets, base64.decodeQuanta]
    have ha : (Fin.ofNat (a.val / 4 * 4 + (a.val % 4 * 16 + b.val / 16) / 16) : Byte) = a := by
      apply Fin.ext; simp only [Fin.ofNat, Fin.val_mk]; omega
    have hb : (Fin.ofNat ((a.val % 4 * 16 + b.val / 16) % 16 * 16 +
        (b.val % 16 * 4) / 4) : Byte) = b := by
      apply Fin.ext; simp only [Fin.ofNat, Fin.val_mk]; omega
    rw [ha, hb]
  | case3 a =>
    simp only [base64.sextets, base64.decodeQuanta]
    have ha : (Fin.ofNat (a.val / 4 * 4 + (a.val % 4 * 16) / 16) : Byte) = a := by
      apply Fin.ext; simp only [Fin.ofNat, Fin.val_mk]; omega
    rw [ha]
  | case4 => rfl

/-- Decoding an encoded byte sequence gives the bytes back. -/
theorem DecodeString_EncodeToString (bs : Bytes) :
    base64.DecodeString (base64.EncodeToString bs) = some bs := by
  unfold base64.DecodeString base64.EncodeToString
  rw [filter_map_encodeSextet _ (sextets_lt bs),
    decodeChars_map_encodeSextet _ (sextets_lt bs)]
  exact decodeQuanta_sextets bs

/-- An encoded byte sequence holds neither a blank nor a dot. -/
theorem EncodeToString_plain (bs : Bytes) :
    ' ' ∉ base64.EncodeToString bs ∧ '.' ∉ base64.EncodeToString bs := by
  unfold base64.EncodeToString
  constructor
  · intro hc
    obtain ⟨v, hv, e⟩ := List.mem_map.1 hc
    exact (encodeSextet_plain v (sextets_lt bs v hv)).1 e
  · intro hc
    obtain ⟨v, hv, e⟩ := List.mem_map.1 hc
    exact (encodeSextet_plain v (sextets_lt bs v hv)).2.1 e

theorem decodeChars_none_of_mem (c : Char) (hc : base64.decodeChar c = none) (s : Str)
    (h : c ∈ s) : base64.decodeChars s = none := by
  induction s with
  | nil => simp at h
  | cons d ds ih =>
    rcases List.mem_cons.1 h with rfl | h
    · simp [base64.decodeChars, hc]
    · simp only [base64.decodeChars, ih h]
      cases base64.decodeChar d <;> rfl

/-- A string that holds a blank does not decode. -/
theorem DecodeString_blank (s : Str) (h : ' ' ∈ s) : base64.DecodeString s = none := by
  unfold base64.DecodeString
  have hm : ' ' ∈ s.filter (fun c => c != '\n' && c != '\r') := by
    rw [List.mem_filter]
    exact ⟨h, by decide⟩
  rw [decodeChars_none_of_mem ' ' (by decide) _ hm]

/-! ## Lemmas: signing and parsing -/

theorem Split_three (sep : Char) (a b c : Str) (ha : sep ∉ a) (hb : sep ∉ b) (hc : sep ∉ c) :
    strings.Split sep (a ++ sep :: (b ++ sep :: c)) = [a, b, c] := by
  rw [Split_append_sep sep a _ ha, Split_append_sep sep b _ hb, Split_of_not_mem sep c hc]

theorem GetSigningMethod_Alg (m : jwt.SigningMethod) : jwt.GetSigningMethod m.Alg = some m := by
  cases m <;> decide

theorem SignedString_hmac (P : Prims) (m : jwt.SigningMethod) (c : Claims) (key : Bytes)
    (hm : m.isHMAC = true) :
    (jwt.NewWithClaims m c).SignedString P key = .ok (jwt.signed P m c key) := by
  cases m <;> first | rfl | exact absurd hm (by decide)

theorem Split_signed (P : Prims) (m : jwt.SigningMethod) (c : Claims) (key : Bytes) :
    strings.Split '.' (jwt.signed P m c key) =
      [base64.EncodeToString (P.marshalHeader m.Alg),
       base64.EncodeToString (P.marshalClaims c),
       base64.EncodeToString
         (jwt.mac P m key (toBytes ((jwt.NewWithClaims m c).SigningString P)))] := by
  unfold jwt.signed jwt.Token.SigningString
  simp only [jwt.NewWithClaims, List.append_assoc, List.cons_append]
  exact Split_three '.' _ _ _ (EncodeToString_plain _).2 (EncodeToString_plain _).2
    (EncodeToString_plain _).2

/-- What `ValidateToken` answers for a token signed with an HMAC method: a
signature failure when the MAC under the checking secret differs from the
signature, and otherwise the verdict of the claim validation. -/
theorem ValidateToken_signed (P : Prims) (now : Int) (m : jwt.SigningMethod) (c : Claims)
    (key : Bytes) (secret : Str) (hm : m.isHMAC = true)
    (he : dateExact c.RegisteredClaims.ExpiresAt) (hn : dateExact c.RegisteredClaims.NotBefore)
    (hi : dateExact c.RegisteredClaims.IssuedAt) :
    ValidateToken P now (jwt.signed P m c key) secret =
      if jwt.mac P m key (toBytes ((jwt.NewWithClaims m c).SigningString P)) =
          jwt.mac P m (toBytes secret) (toBytes ((jwt.NewWithClaims m c).SigningString P)) then
        match jwt.Validate now c.RegisteredClaims with
        | .error e => .error e
        | .ok _ => .ok c
      else .error .ErrTokenSignatureInvalid := by
  unfold ValidateToken jwt.ParseWithClaims jwt.ParseUnverified
  rw [Split_signed]
  simp only [DecodeString_EncodeToString, P.header_roundtrip, P.claims_roundtrip c he hn hi,
    GetSigningMethod_Alg, hm, if_true]
  have hmac_eq : ∀ sig, jwt.SigningMethod.Verify P m
      (base64.EncodeToString (P.marshalHeader m.Alg) ++ '.' ::
        base64.EncodeToString (P.marshalClaims c)) sig (toBytes secret) =
      if sig = jwt.mac P m (toBytes secret) (toBytes ((jwt.NewWithClaims m c).SigningString P))
      then .ok () else .error .ErrTokenSignatureInvalid := by
    intro sig
    cases m <;> first
      | exact absurd hm (by decide)
      | simp [jwt.SigningMethod.Verify, jwt.SigningMethod.hash, jwt.mac, hmac.Equal,
          jwt.Token.SigningString, jwt.NewWithClaims]
  rw [hmac_eq]
  by_cases hmac : jwt.mac P m key (toBytes ((jwt.NewWithClaims m c).SigningString P)) =
      jwt.mac P m (toBytes secret) (toBytes ((jwt.NewWithClaims m c).SigningString P))
  · simp only [hmac, if_true]
    cases hv : jwt.Validate now c.RegisteredClaims with
    | error e => rfl
    | ok u => rfl
  · simp only [hmac, if_false]

/-! ## Lemmas: issued tokens -/

theorem GenerateTokens_ok (P : Prims) (t : Int) (uid role accessSecret refreshSecret : Str)
    (accMin refHour : Int) :
    GenerateTokens P t uid role accessSecret refreshSecret accMin refHour =
      .ok (jwt.signed P .HS256 (issuedClaims t uid role accMin time.Minute) (toBytes accessSecret),
           jwt.signed P .HS256 (issuedClaims t uid role refHour time.Hour)
             (toBytes refreshSecret)) := by
  unfold GenerateTokens
  simp only [SignedString_hmac P .HS256 _ _ rfl]
  rfl

theorem wrap64_range (x : Int) : -(2 ^ 63 : Int) ≤ time.wrap64 x ∧ time.wrap64 x < 2 ^ 63 := by
  unfold time.wrap64
  constructor <;> omega

theorem wrap64_of_range (x : Int) (h : -(2 ^ 63 : Int) ≤ x ∧ x < 2 ^ 63) : time.wrap64 x = x := by
  unfold time.wrap64
  omega

theorem issuedClaims_exact (t : Int) (uid role : Str) (n unit : Int) (ht : clockRange t) :
    dateExact (issuedClaims t uid role n unit).RegisteredClaims.ExpiresAt ∧
      dateExact (issuedClaims t uid role n unit).RegisteredClaims.NotBefore ∧
      dateExact (issuedClaims t uid role n unit).RegisteredClaims.IssuedAt := by
  have hw := wrap64_range (n * unit)
  unfold clockRange at ht
  simp only [issuedClaims, dateExact, jwt.NewNumericDate, time.Unix, time.Second, time.Duration]
  refine ⟨⟨?_, ?_⟩, trivial, ⟨?_, ?_⟩⟩
  all_goals omega

theorem Validate_issuedClaims (now t : Int) (uid role : Str) (n unit : Int) :
    jwt.Validate now (issuedClaims t uid role n unit).RegisteredClaims =
      if now < jwt.NewNumericDate (t + time.Duration n unit) * time.Second then .ok ()
      else .error (.ErrTokenInvalidClaims true false) := by
  simp only [jwt.Validate, issuedClaims]
  by_cases h : now < jwt.NewNumericDate (t + time.Duration n unit) * time.Second <;> simp [h]

/-- An issued token checked with the secret that signed it: accepted strictly
before the expiry it carries, expired from then on. -/
theorem ValidateToken_issued (P : Prims) (now t : Int) (uid role secret : Str) (n unit : Int)
    (ht : clockRange t) :
    ValidateToken P now (jwt.signed P .HS256 (issuedClaims t uid role n unit) (toBytes secret))
        secret =
      if now < jwt.NewNumericDate (t + time.Duration n unit) * time.Second then
        .ok (issuedClaims t uid role n unit)
      else .error (.ErrTokenInvalidClaims true false) := by
  obtain ⟨he, hn, hi⟩ := issuedClaims_exact t uid role n unit ht
  rw [ValidateToken_signed P now .HS256 _ _ secret rfl he hn hi, Validate_issuedClaims]
  by_cases h : now < jwt.NewNumericDate (t + time.Duration n unit) * time.Second <;> simp [h]

/-! ## Session tokens: issue and validate -/

/-- Claim C1. For every identity id, role, pair of secrets and pair of lifetimes,
`GenerateTokens` returns an access and a refresh token; at every instant before
the expiry the access token carries, `ValidateToken` accepts it under the access
secret, and likewise the refresh token under the refresh secret; the claims
returned have `UserID` equal to the identity id and `Role` equal to the role. -/
theorem generate_then_validate (P : Prims) (t now : Int)
    (uid role accessSecret refreshSecret : Str) (accMin refHour : Int) (ht : clockRange t) :
    ∃ acc ref,
      GenerateTokens P t uid role accessSecret refreshSecret accMin refHour = .ok (acc, ref) ∧
      (now < jwt.NewNumericDate (t + time.Duration accMin time.Minute) * time.Second →
        ∃ c, ValidateToken P now acc accessSecret = .ok c ∧ c.UserID = uid ∧ c.Role = role ∧
          c.RegisteredClaims.ExpiresAt =
            some (jwt.NewNumericDate (t + time.Duration accMin time.Minute))) ∧
      (now < jwt.NewNumericDate (t + time.Duration refHour time.Hour) * time.Second →
        ∃ c, ValidateToken P now ref refreshSecret = .ok c ∧ c.UserID = uid ∧ c.Role = role ∧
          c.RegisteredClaims.ExpiresAt =
            some (jwt.NewNumericDate (t + time.Duration refHour time.Hour))) := by
  refine ⟨_, _, GenerateTokens_ok P t uid role accessSecret refreshSecret accMin refHour, ?_, ?_⟩
  · intro h
    refine ⟨issuedClaims t uid role accMin time.Minute, ?_, rfl, rfl, rfl⟩
    rw [ValidateToken_issued P now t uid role accessSecret accMin time.Minute ht, if_pos h]
  · intro h
    refine ⟨issuedClaims t uid role refHour time.Hour, ?_, rfl, rfl, rfl⟩
    rw [ValidateToken_issued P now t uid role refreshSecret refHour time.Hour ht, if_pos h]

/-- An instance of C1: tokens issued half a second past 2023-11-14 22:13:20 UTC
with lifetimes of 15 minutes and 24 hours, checked ten seconds later. -/
theorem generate_then_validate_witness :
    clockRange 1700000000500000000 ∧
    ∃ acc ref,
      GenerateTokens demoPrims 1700000000500000000 "u1".toList "user".toList
        "access-secret".toList "refresh-secret".toList 15 24 = .ok (acc, ref) ∧
      (∃ c, ValidateToken demoPrims 1700000010500000000 acc "access-secret".toList = .ok c ∧
        c.UserID = "u1".toList ∧ c.Role = "user".toList ∧
        c.RegisteredClaims.ExpiresAt = some 1700000900) ∧
      (∃ c, ValidateToken demoPrims 1700000010500000000 ref "refresh-secret".toList = .ok c ∧
        c.UserID = "u1".toList ∧ c.Role = "user".toList ∧
        c.RegisteredClaims.ExpiresAt = some 1700086400) := by
  have hr : clockRange 1700000000500000000 := by unfold clockRange; norm_num
  refine ⟨hr, ?_⟩
  obtain ⟨acc, ref, hg, ha, hf⟩ := generate_then_validate demoPrims 1700000000500000000
    1700000010500000000 "u1".toList "user".toList "access-secret".toList
    "refresh-secret".toList 15 24 hr
  have e1 : jwt.NewNumericDate (1700000000500000000 + time.Duration 15 time.Minute) =
      1700000900 := by
    simp only [jwt.NewNumericDate, time.Unix, time.Duration, time.wrap64, time.Minute, time.Second]
    norm_num
  have e2 : jwt.NewNumericDate (1700000000500000000 + time.Duration 24 time.Hour) =
      1700086400 := by
    simp only [jwt.NewNumericDate, time.Unix, time.Duration, time.wrap64, time.Hour, time.Minute,
      time.Second]
    norm_num
  rw [e1] at ha
  rw [e2] at hf
  exact ⟨acc, ref, hg, ha (by simp only [time.Second]; norm_num),
    hf (by simp only [time.Second]; norm_num)⟩

/-- The expiry of a token whose lifetime fits a 64-bit duration: the issue
instant truncated to whole seconds, plus the lifetime. -/
theorem expiry_of_fit (t n k : Int) (h : -(2 ^ 63 : Int) ≤ n * (k * time.Second) ∧
    n * (k * time.Second) < 2 ^ 63) :
    jwt.NewNumericDate (t + time.Duration n (k * time.Second)) * time.Second =
      time.Unix t * time.Second + n * (k * time.Second) := by
  unfold time.Duration
  rw [wrap64_of_range _ h]
  unfold jwt.NewNumericDate time.Unix
  have e : t + n * (k * time.Second) = t + time.Second * (n * k) := by ring
  rw [e, Int.add_mul_ediv_left _ _ (by unfold time.Second; norm_num)]
  ring

/-- Claim C2, as amended. For tokens issued at the instant `t` of the clock, with
`T` the instant `t` truncated to whole seconds (the `IssuedAt` of the tokens):
when the access lifetime of `accMin` minutes fits a 64-bit nanosecond duration,
the access token is accepted under its signing secret at every instant strictly
before `T + accMin` minutes and fails as expired at every instant from
`T + accMin` minutes on, that instant included; and when the refresh lifetime
of `refHour` hours fits, the refresh token likewise with `refHour` hours. Each
token needs only its own lifetime to fit. -/
theorem issued_token_expiry (P : Prims) (t now : Int)
    (uid role accessSecret refreshSecret : Str) (accMin refHour : Int) (ht : clockRange t) :
    ∃ acc ref,
      GenerateTokens P t uid role accessSecret refreshSecret accMin refHour = .ok (acc, ref) ∧
      (-(2 ^ 63 : Int) ≤ accMin * time.Minute ∧ accMin * time.Minute < 2 ^ 63 →
        (now < time.Unix t * time.Second + accMin * time.Minute →
          ∃ c, ValidateToken P now acc accessSecret = .ok c) ∧
        (time.Unix t * time.Second + accMin * time.Minute ≤ now →
          ValidateToken P now acc accessSecret = .error (.ErrTokenInvalidClaims true false))) ∧
      (-(2 ^ 63 : Int) ≤ refHour * time.Hour ∧ refHour * time.Hour < 2 ^ 63 →
        (now < time.Unix t * time.Second + refHour * time.Hour →
          ∃ c, ValidateToken P now ref refreshSecret = .ok c) ∧
        (time.Unix t * time.Second + refHour * time.Hour ≤ now →
          ValidateToken P now ref refreshSecret =
            .error (.ErrTokenInvalidClaims true false))) := by
  have hm : (60 : Int) * time.Second = time.Minute := rfl
  have hh : (60 : Int) * 60 * time.Second = time.Hour := by
    unfold time.Hour time.Minute; ring
  refine ⟨_, _, GenerateTokens_ok P t uid role accessSecret refreshSecret accMin refHour,
    ?_, ?_⟩
  · intro hacc
    have ea := expiry_of_fit t accMin 60 hacc
    rw [hm] at ea
    constructor
    · intro h
      rw [ValidateToken_issued P now t uid role accessSecret accMin time.Minute ht, ea,
        if_pos h]
      exact ⟨_, rfl⟩
    · intro h
      rw [ValidateToken_issued P now t uid role accessSecret accMin time.Minute ht, ea,
        if_neg (not_lt.2 h)]
  · intro href
    have er := expiry_of_fit t refHour (60 * 60) (by
      have e : refHour * (60 * 60 * time.Second) = refHour * time.Hour := by
        unfold time.Hour time.Minute; ring
      rw [e]; exact href)
    rw [hh] at er
    constructor
    · intro h
      rw [ValidateToken_issued P now t uid role refreshSecret refHour time.Hour ht, er,
        if_pos h]
      exact ⟨_, rfl⟩
    · intro h
      rw [ValidateToken_issued P now t uid role refreshSecret refHour time.Hour ht, er,
        if_neg (not_lt.2 h)]

/-- An instance of the amended C2: an access lifetime of 15 minutes beside a
refresh lifetime of 2562048 hours, which does not fit a 64-bit duration. The
access token is accepted one nanosecond before `T + 15` minutes and expired at
`T + 15` minutes. -/
theorem issued_token_expiry_witness :
    clockRange 1700000000500000000 ∧
    (-(2 ^ 63 : Int) ≤ 15 * time.Minute ∧ 15 * time.Minute < 2 ^ 63) ∧
    ¬ (2562048 * time.Hour < (2 ^ 63 : Int)) ∧
    ∃ acc ref,
      GenerateTokens demoPrims 1700000000500000000 "u1".toList "user".toList
        "access-secret".toList "refresh-secret".toList 15 2562048 = .ok (acc, ref) ∧
      (∃ c, ValidateToken demoPrims 1700000899999999999 acc "access-secret".toList = .ok c) ∧
      ValidateToken demoPrims 1700000900000000000 acc "access-secret".toList =
        .error (.ErrTokenInvalidClaims true false) := by
  have hr : clockRange 1700000000500000000 := by unfold clockRange; norm_num
  have ha : -(2 ^ 63 : Int) ≤ 15 * time.Minute ∧ 15 * time.Minute < 2 ^ 63 := by
    unfold time.Minute time.Second; norm_num
  have hh : ¬ (2562048 * time.Hour < (2 ^ 63 : Int)) := by
    unfold time.Hour time.Minute time.Second; norm_num
  refine ⟨hr, ha, hh, ?_⟩
  obtain ⟨acc, ref, hg, h1, _⟩ := issued_token_expiry demoPrims 1700000000500000000
    1700000899999999999 "u1".toList "user".toList "access-secret".toList
    "refresh-secret".toList 15 2562048 hr
  obtain ⟨acc', ref', hg', h2, _⟩ := issued_token_expiry demoPrims 1700000000500000000
    1700000900000000000 "u1".toList "user".toList "access-secret".toList
    "refresh-secret".toList 15 2562048 hr
  rw [hg] at hg'
  injection hg' with hg'
  injection hg' with e1 e2
  subst e1
  refine ⟨acc, ref, hg, (h1 ha).1 ?_, (h2 ha).2 ?_⟩
  · unfold time.Unix time.Minute time.Second; norm_num
  · unfold time.Unix time.Minute time.Second; norm_num

/-- Claim C2 as stated fails. A token issued half a second past a full second with
a lifetime of one minute is already expired 59.7 seconds later, strictly before
issue time plus lifetime, because the expiry it carries is truncated to whole
seconds. And a lifetime of 153722868 minutes does not fit a 64-bit nanosecond
duration: the product wraps around to a negative number and the access token is
expired at the very instant of issue. -/
theorem expired_before_issue_plus_ttl :
    ((1700000060200000000 : Int) < 1700000000500000000 + 1 * time.Minute ∧
      ∀ (P : Prims) (uid role accessSecret refreshSecret : Str) (refHour : Int),
        ∃ acc ref,
          GenerateTokens P 1700000000500000000 uid role accessSecret refreshSecret 1 refHour =
            .ok (acc, ref) ∧
          ValidateToken P 1700000060200000000 acc accessSecret =
            .error (.ErrTokenInvalidClaims true false)) ∧
    ((1700000000000000000 : Int) < 1700000000000000000 + 153722868 * time.Minute ∧
      ∀ (P : Prims) (uid role accessSecret refreshSecret : Str) (refHour : Int),
        ∃ acc ref,
          GenerateTokens P 1700000000000000000 uid role accessSecret refreshSecret 153722868
            refHour = .ok (acc, ref) ∧
          ValidateToken P 1700000000000000000 acc accessSecret =
            .error (.ErrTokenInvalidClaims true false)) := by
  refine ⟨⟨by unfold time.Minute time.Second; norm_num, ?_⟩,
    ⟨by unfold time.Minute time.Second; norm_num, ?_⟩⟩
  · intro P uid role accessSecret refreshSecret refHour
    refine ⟨_, _, GenerateTokens_ok P _ uid role accessSecret refreshSecret 1 refHour, ?_⟩
    rw [ValidateToken_issued P _ _ uid role accessSecret 1 time.Minute
      (by unfold clockRange; norm_num)]
    have e : jwt.NewNumericDate (1700000000500000000 + time.Duration 1 time.Minute) =
        1700000060 := by
      simp only [jwt.NewNumericDate, time.Unix, time.Duration, time.wrap64, time.Minute,
        time.Second]
      norm_num
    rw [e, if_neg (by unfold time.Second; norm_num)]
  · intro P uid role accessSecret refreshSecret refHour
    refine ⟨_, _, GenerateTokens_ok P _ uid role accessSecret refreshSecret 153722868 refHour, ?_⟩
    rw [ValidateToken_issued P _ _ uid role accessSecret 153722868 time.Minute
      (by unfold clockRange; norm_num)]
    have e : jwt.NewNumericDate (1700000000000000000 + time.Duration 153722868 time.Minute) =
        -7523371994 := by
      simp only [jwt.NewNumericDate, time.Unix, time.Duration, time.wrap64, time.Minute,
        time.Second]
      norm_num
    rw [e, if_neg (by unfold time.Second; norm_num)]

/-! ## Secrets and signatures -/

/-- An issued token checked with another secret: a signature failure when the
MACs of the two secrets differ on the signing string, whatever the clock
shows. -/
theorem ValidateToken_other_secret (P : Prims) (now t : Int) (uid role secret other : Str)
    (n unit : Int) (ht : clockRange t)
    (hmac : jwt.mac P .HS256 (toBytes secret)
        (toBytes ((jwt.NewWithClaims .HS256 (issuedClaims t uid role n unit)).SigningString P)) ≠
      jwt.mac P .HS256 (toBytes other)
        (toBytes ((jwt.NewWithClaims .HS256 (issuedClaims t uid role n unit)).SigningString P))) :
    ValidateToken P now (jwt.signed P .HS256 (issuedClaims t uid role n unit) (toBytes secret))
        other = .error .ErrTokenSignatureInvalid := by
  obtain ⟨he, hn, hi⟩ := issuedClaims_exact t uid role n unit ht
  rw [ValidateToken_signed P now .HS256 _ _ other rfl he hn hi, if_neg hmac]

theorem demo_mac_ne (msg : Bytes) :
    jwt.mac demoPrims .HS256 (toBytes "a".toList) msg ≠
      jwt.mac demoPrims .HS256 (toBytes "b".toList) msg := by
  intro h
  have h2 := congrArg List.head? h
  revert h2
  simp [jwt.mac, jwt.SigningMethod.hash, demoPrims, hmac.Sum, hmac.pad, toBytes, utf8EncodeChar]
  decide

/-- Why the rejection of a token under a secret with another key block is stated up
to a collision of the hash function: under a hash function that collides, here
one that maps every input to the empty digest, the secrets `a` and `b` fill
different key blocks and yet the access token signed with `a` is accepted
under `b`. -/
theorem collision_hides_the_secret :
    hmac.keyBlock ⟨collidingPrims.sha256, 64⟩ (toBytes "a".toList) ≠
      hmac.keyBlock ⟨collidingPrims.sha256, 64⟩ (toBytes "b".toList) ∧
    ∀ uid role : Str,
      ValidateToken collidingPrims 1700000010500000000
          (jwt.signed collidingPrims .HS256
            (issuedClaims 1700000000500000000 uid role 15 time.Minute) (toBytes "a".toList))
          "b".toList =
        .ok (issuedClaims 1700000000500000000 uid role 15 time.Minute) := by
  refine ⟨by decide, ?_⟩
  intro uid role
  have hr : clockRange 1700000000500000000 := by unfold clockRange; norm_num
  have e1 : jwt.NewNumericDate (1700000000500000000 + time.Duration 15 time.Minute) =
      1700000900 := by
    simp only [jwt.NewNumericDate, time.Unix, time.Duration, time.wrap64, time.Minute, time.Second]
    norm_num
  obtain ⟨he, hn, hi⟩ := issuedClaims_exact 1700000000500000000 uid role 15 time.Minute hr
  have hm : ∀ msg : Bytes, jwt.mac collidingPrims .HS256 (toBytes "a".toList) msg =
      jwt.mac collidingPrims .HS256 (toBytes "b".toList) msg := fun _ => rfl
  rw [ValidateToken_signed collidingPrims _ .HS256 _ _ _ rfl he hn hi, if_pos (hm _),
    Validate_issuedClaims, e1, if_pos (by unfold time.Second; norm_num)]

theorem GetSigningMethod_some (alg : Str) (m : jwt.SigningMethod)
    (h : jwt.GetSigningMethod alg = some m) : m.Alg = alg := by
  have := List.find?_some h
  simpa using this

theorem headerAlg_signed (P : Prims) (m : jwt.SigningMethod) (c : Claims) (key : Bytes) :
    jwt.headerAlg P (jwt.signed P m c key) = some m.Alg := by
  unfold jwt.headerAlg
  rw [Split_signed]
  simp only [DecodeString_EncodeToString, P.header_roundtrip]

/-- A token whose header declares an algorithm outside the HMAC family is
rejected. -/
theorem ValidateToken_not_hmac (P : Prims) (now : Int) (tokenString secret alg : Str)
    (hd : jwt.headerAlg P tokenString = some alg)
    (h256 : alg ≠ "HS256".toList) (h384 : alg ≠ "HS384".toList) (h512 : alg ≠ "HS512".toList) :
    ValidateToken P now tokenString secret = .error .ErrTokenMalformed ∨
      ValidateToken P now tokenString secret = .error .ErrTokenUnverifiable := by
  unfold jwt.headerAlg at hd
  unfold ValidateToken jwt.ParseWithClaims jwt.ParseUnverified
  rcases hs : strings.Split '.' tokenString with _ | ⟨p0, _ | ⟨p1, _ | ⟨p2, _ | ⟨p3, r⟩⟩⟩⟩
  · simp
  · simp
  · simp
  · rw [hs] at hd
    cases h0 : base64.DecodeString p0 with
    | none => simp [h0] at hd
    | some hb =>
      cases hh : P.unmarshalHeader hb with
      | none => simp [h0, hh] at hd
      | some oalg =>
        cases oalg with
        | none => simp [h0, hh] at hd
        | some a =>
          simp only [h0, hh, Option.some.injEq] at hd
          subst hd
          cases h1 : base64.DecodeString p1 with
          | none => simp [h0, hh, h1]
          | some cb =>
            cases hc : P.unmarshalClaims cb with
            | none => simp [h0, hh, h1, hc]
            | some c =>
              cases hg : jwt.GetSigningMethod a with
              | none => simp [h0, hh, h1, hc, hg]
              | some m =>
                have ha := GetSigningMethod_some a m hg
                have hm : m.isHMAC = false := by
                  cases m <;> first
                    | rfl
                    | exact absurd ha.symm h256
                    | exact absurd ha.symm h384
                    | exact absurd ha.symm h512
                simp [h0, hh, h1, hc, hg, hm]
  · simp

/-- Claim C4, as amended. `ValidateToken` pins the HMAC family, not HS256 alone. It
rejects every token whose header declares an algorithm other than HS256, HS384
and HS512, `none` and the asymmetric algorithms among them. A token whose
header declares HS384 or HS512, signed with that HMAC under the secret and with
claims that validate, is accepted exactly as an HS256 token is. -/
theorem hmac_family_pinned (P : Prims) (now : Int) (tokenString secret : Str) :
    (∀ alg, jwt.headerAlg P tokenString = some alg →
      alg ≠ "HS256".toList → alg ≠ "HS384".toList → alg ≠ "HS512".toList →
      ∃ e, ValidateToken P now tokenString secret = .error e) ∧
    (∀ (m : jwt.SigningMethod) (c : Claims), m.isHMAC = true →
      dateExact c.RegisteredClaims.ExpiresAt → dateExact c.RegisteredClaims.NotBefore →
      dateExact c.RegisteredClaims.IssuedAt → jwt.Validate now c.RegisteredClaims = .ok () →
      jwt.headerAlg P (jwt.signed P m c (toBytes secret)) = some m.Alg ∧
        ValidateToken P now (jwt.signed P m c (toBytes secret)) secret = .ok c) := by
  constructor
  · intro alg hd h256 h384 h512
    rcases ValidateToken_not_hmac P now tokenString secret alg hd h256 h384 h512 with h | h
    · exact ⟨_, h⟩
    · exact ⟨_, h⟩
  · intro m c hm he hn hi hv
    refine ⟨headerAlg_signed P m c _, ?_⟩
    rw [ValidateToken_signed P now m c _ secret hm he hn hi, if_pos rfl, hv]

/-- Claim C4 as stated fails: a token whose header declares HS384, signed with
HMAC-SHA-384 under the secret, is accepted, for every secret, hash function
and JSON encoding. -/
theorem hs384_token_accepted :
    "HS384".toList ≠ "HS256".toList ∧
    ∀ (P : Prims) (secret : Str),
      jwt.headerAlg P (jwt.signed P .HS384
        ⟨"u1".toList, "admin".toList, ⟨some 1700000900, none, some 1700000000⟩⟩
        (toBytes secret)) = some "HS384".toList ∧
      (jwt.NewWithClaims .HS384
        ⟨"u1".toList, "admin".toList, ⟨some 1700000900, none, some 1700000000⟩⟩).SignedString P
        (toBytes secret) = .ok (jwt.signed P .HS384
        ⟨"u1".toList, "admin".toList, ⟨some 1700000900, none, some 1700000000⟩⟩
        (toBytes secret)) ∧
      ValidateToken P 1700000010500000000 (jwt.signed P .HS384
        ⟨"u1".toList, "admin".toList, ⟨some 1700000900, none, some 1700000000⟩⟩
        (toBytes secret)) secret =
        .ok ⟨"u1".toList, "admin".toList, ⟨some 1700000900, none, some 1700000000⟩⟩ := by
  refine ⟨by decide, ?_⟩
  intro P secret
  refine ⟨headerAlg_signed P .HS384 _ _, SignedString_hmac P .HS384 _ _ rfl, ?_⟩
  rw [ValidateToken_signed P _ .HS384
    ⟨"u1".toList, "admin".toList, ⟨some 1700000900, none, some 1700000000⟩⟩ _ secret rfl
    (by simp [dateExact]) (by simp [dateExact]) (by simp [dateExact]), if_pos rfl]
  have hv : jwt.Validate 1700000010500000000
      (⟨some 1700000900, none, some 1700000000⟩ : jwt.RegisteredClaims) = .ok () := by
    simp [jwt.Validate, time.Second]
  simp only [hv]

/-! ## The authorization gate -/

/-- An accepted token has three segments, each of which decodes. -/
theorem ValidateToken_ok_segments (P : Prims) (now : Int) (tokenString secret : Str) (c : Claims)
    (h : ValidateToken P now tokenString secret = .ok c) :
    ∃ p0 p1 p2 b0 b1 b2, strings.Split '.' tokenString = [p0, p1, p2] ∧
      base64.DecodeString p0 = some b0 ∧ base64.DecodeString p1 = some b1 ∧
      base64.DecodeString p2 = some b2 := by
  unfold ValidateToken jwt.ParseWithClaims jwt.ParseUnverified at h
  rcases hs : strings.Split '.' tokenString with _ | ⟨p0, _ | ⟨p1, _ | ⟨p2, _ | ⟨p3, r⟩⟩⟩⟩
  · simp [hs] at h
  · simp [hs] at h
  · simp [hs] at h
  · cases h0 : base64.DecodeString p0 with
    | none => simp [hs, h0] at h
    | some b0 =>
      cases hh : P.unmarshalHeader b0 with
      | none => simp [hs, h0, hh] at h
      | some oalg =>
        cases h1 : base64.DecodeString p1 with
        | none => simp [hs, h0, hh, h1] at h
        | some b1 =>
          cases hc : P.unmarshalClaims b1 with
          | none => simp [hs, h0, hh, h1, hc] at h
          | some cl =>
            cases oalg with
            | none => simp [hs, h0, hh, h1, hc] at h
            | some a =>
              cases hg : jwt.GetSigningMethod a with
              | none => simp [hs, h0, hh, h1, hc, hg] at h
              | some m =>
                cases hm : m.isHMAC with
                | false => simp [hs, h0, hh, h1, hc, hg, hm] at h
                | true =>
                  cases h2 : base64.DecodeString p2 with
                  | none => simp [hs, h0, hh, h1, hc, hg, hm, h2] at h
                  | some b2 => exact ⟨p0, p1, p2, b0, b1, b2, rfl, h0, h1, h2⟩
  · simp [hs] at h

/-- An accepted token holds no blank. -/
theorem ValidateToken_ok_no_blank (P : Prims) (now : Int) (tokenString secret : Str) (c : Claims)
    (h : ValidateToken P now tokenString secret = .ok c) : ' ' ∉ tokenString := by
  obtain ⟨p0, p1, p2, b0, b1, b2, hs, h0, h1, h2⟩ :=
    ValidateToken_ok_segments P now tokenString secret c h
  have hj := (Split_spec '.' tokenString).2
  rw [hs] at hj
  have n0 : ' ' ∉ p0 := fun hm => by rw [DecodeString_blank p0 hm] at h0; cases h0
  have n1 : ' ' ∉ p1 := fun hm => by rw [DecodeString_blank p1 hm] at h1; cases h1
  have n2 : ' ' ∉ p2 := fun hm => by rw [DecodeString_blank p2 hm] at h2; cases h2
  rw [← hj]
  simp [List.intercalate, List.intersperse, n0, n1, n2]

/-- A token signed by the library holds no blank. -/
theorem signed_no_blank (P : Prims) (m : jwt.SigningMethod) (c : Claims) (key : Bytes) :
    ' ' ∉ jwt.signed P m c key := by
  unfold jwt.signed jwt.Token.SigningString
  simp [(EncodeToString_plain _).1]

theorem Split_bearer (t : Str) (h : ' ' ∉ t) :
    strings.Split ' ' ("Bearer ".toList ++ t) = ["Bearer".toList, t] := by
  have e : "Bearer ".toList ++ t = "Bearer".toList ++ ' ' :: t := by simp
  rw [e, Split_append_sep ' ' _ _ (by decide), Split_of_not_mem ' ' t h]

/-- The gate on a header `Bearer <t>` whose token has no blank: the verdict of
`ValidateToken` decides. -/
theorem MiddlewareGate_bearer (P : Prims) (now : Int) (accessSecret : Str) (c : Context) (t : Str)
    (hh : c.HeaderGet "Authorization".toList = "Bearer ".toList ++ t) (hb : ' ' ∉ t) :
    MiddlewareGate P now accessSecret c =
      match ValidateToken P now t accessSecret with
      | .error _ => .respond ⟨401, NewError 401 "invalid or expired token".toList⟩
      | .ok claims =>
        .next ((c.Set "userID".toList claims.UserID).Set "role".toList claims.Role) := by
  unfold MiddlewareGate
  simp only [hh, Split_bearer t hb]
  simp

/-- A request the gate hands on carries a header `Bearer <t>` with an accepted
token, and the context handed on holds the token's identity and role. -/
theorem MiddlewareGate_next (P : Prims) (now : Int) (accessSecret : Str) (c c' : Context)
    (h : MiddlewareGate P now accessSecret c = .next c') :
    ∃ t claims, c.HeaderGet "Authorization".toList = "Bearer ".toList ++ t ∧
      ValidateToken P now t accessSecret = .ok claims ∧
      c' = (c.Set "userID".toList claims.UserID).Set "role".toList claims.Role := by
  unfold MiddlewareGate at h
  simp only at h
  split at h
  · cases h
  · split at h
    · rename_i scheme tok hs
      split at h
      · cases h
      · rename_i hsch
        simp only [ne_eq, not_not] at hsch
        cases hv : ValidateToken P now tok accessSecret with
        | error e => simp [hv] at h
        | ok claims =>
          simp only [hv, Outcome.next.injEq] at h
          have hj := (Split_spec ' ' (c.HeaderGet "Authorization".toList)).2
          rw [hs, hsch] at hj
          refine ⟨tok, claims, ?_, hv, h.symm⟩
          rw [← hj]
          simp [List.intercalate, List.intersperse]
    · cases h

/-- Every answer of the gate itself is a 401. -/
theorem MiddlewareGate_respond (P : Prims) (now : Int) (accessSecret : Str) (c : Context)
    (r : Response) (h : MiddlewareGate P now accessSecret c = .respond r) :
    ∃ msg, r = ⟨401, NewError 401 msg⟩ := by
  unfold MiddlewareGate at h
  simp only at h
  split at h
  · exact ⟨_, (Outcome.respond.inj h).symm⟩
  · split at h
    · split at h
      · exact ⟨_, (Outcome.respond.inj h).symm⟩
      · split at h
        · exact ⟨_, (Outcome.respond.inj h).symm⟩
        · cases h
    · exact ⟨_, (Outcome.respond.inj h).symm⟩

/-- Claim C5. For every request and every access secret, the gate hands the request
to the downstream handler if and only if the `Authorization` header is
`Bearer <t>` for a token `t` that `ValidateToken` accepts under the access
secret; then the response is the handler's. In every other case the response
is a 401 built by the gate and is the same for every handler: the handler is
not invoked. -/
theorem gate_invokes_iff_valid (P : Prims) (now : Int) (accessSecret : Str) (c : Context) :
    ((∃ c', MiddlewareGate P now accessSecret c = .next c') ↔
      ∃ t claims, c.HeaderGet "Authorization".toList = "Bearer ".toList ++ t ∧
        ValidateToken P now t accessSecret = .ok claims) ∧
    (∀ c', MiddlewareGate P now accessSecret c = .next c' →
      ∀ next, Middleware P now accessSecret next c = next c') ∧
    ((¬ ∃ c', MiddlewareGate P now accessSecret c = .next c') →
      ∃ msg, MiddlewareGate P now accessSecret c = .respond ⟨401, NewError 401 msg⟩ ∧
        ∀ next, Middleware P now accessSecret next c = ⟨401, NewError 401 msg⟩) := by
  refine ⟨⟨?_, ?_⟩, ?_, ?_⟩
  · rintro ⟨c', h⟩
    obtain ⟨t, claims, hh, hv, _⟩ := MiddlewareGate_next P now accessSecret c c' h
    exact ⟨t, claims, hh, hv⟩
  · rintro ⟨t, claims, hh, hv⟩
    have hb := ValidateToken_ok_no_blank P now t accessSecret claims hv
    rw [MiddlewareGate_bearer P now accessSecret c t hh hb, hv]
    exact ⟨_, rfl⟩
  · intro c' h next
    unfold Middleware
    rw [h]
  · intro hn
    cases hg : MiddlewareGate P now accessSecret c with
    | next c' => exact absurd ⟨c', hg⟩ hn
    | respond r =>
      obtain ⟨msg, rfl⟩ := MiddlewareGate_respond P now accessSecret c r hg
      refine ⟨msg, rfl, ?_⟩
      intro next
      unfold Middleware
      rw [hg]

theorem Get_after_gate (c : Context) (uid role : Str) :
    ((c.Set "userID".toList uid).Set "role".toList role).Get "userID".toList = some uid ∧
      ((c.Set "userID".toList uid).Set "role".toList role).Get "role".toList = some role := by
  constructor
  · simp [Context.Get, Context.Set, List.lookup, List.filter]
  · simp [Context.Get, Context.Set, List.lookup]

/-- Claim C6. An access token issued by `GenerateTokens` for an identity id and a
role, presented as `Authorization: Bearer <token>` before its expiry to a gate
configured with the same access secret, reaches the downstream handler, and
the context the handler runs with holds the identity id under `userID` and the
role under `role`. -/
theorem gate_populates_context (P : Prims) (t now : Int)
    (uid role accessSecret refreshSecret : Str) (accMin refHour : Int) (c : Context)
    (ht : clockRange t)
    (hnow : now < jwt.NewNumericDate (t + time.Duration accMin time.Minute) * time.Second) :
    ∃ acc ref,
      GenerateTokens P t uid role accessSecret refreshSecret accMin refHour = .ok (acc, ref) ∧
      (c.HeaderGet "Authorization".toList = "Bearer ".toList ++ acc →
        ∃ c', MiddlewareGate P now accessSecret c = .next c' ∧
          c'.Get "userID".toList = some uid ∧ c'.Get "role".toList = some role ∧
          ∀ next, Middleware P now accessSecret next c = next c') := by
  refine ⟨_, _, GenerateTokens_ok P t uid role accessSecret refreshSecret accMin refHour, ?_⟩
  intro hh
  have hg := MiddlewareGate_bearer P now accessSecret c _ hh (signed_no_blank P .HS256 _ _)
  rw [ValidateToken_issued P now t uid role accessSecret accMin time.Minute ht, if_pos hnow] at hg
  simp only at hg
  refine ⟨_, hg, (Get_after_gate c uid role).1, (Get_after_gate c uid role).2, ?_⟩
  intro next
  unfold Middleware
  rw [hg]

/-- An instance of C6: a request that carries nothing but the freshly issued access
token, ten seconds after issue. -/
theorem gate_populates_context_witness :
    clockRange 1700000000500000000 ∧
    (1700000010500000000 : Int) <
      jwt.NewNumericDate (1700000000500000000 + time.Duration 15 time.Minute) * time.Second ∧
    ∃ acc ref,
      GenerateTokens demoPrims 1700000000500000000 "u1".toList "manager".toList
        "access-secret".toList "refresh-secret".toList 15 24 = .ok (acc, ref) ∧
      ∃ c', MiddlewareGate demoPrims 1700000010500000000 "access-secret".toList
          ⟨[("Authorization".toList, "Bearer ".toList ++ acc)], []⟩ = .next c' ∧
        c'.Get "userID".toList = some "u1".toList ∧
        c'.Get "role".toList = some "manager".toList := by
  have hr : clockRange 1700000000500000000 := by unfold clockRange; norm_num
  have hn : (1700000010500000000 : Int) <
      jwt.NewNumericDate (1700000000500000000 + time.Duration 15 time.Minute) * time.Second := by
    simp only [jwt.NewNumericDate, time.Unix, time.Duration, time.wrap64, time.Minute, time.Second]
    norm_num
  refine ⟨hr, hn, ?_⟩
  obtain ⟨acc, ref, hg, h⟩ := gate_populates_context demoPrims 1700000000500000000
    1700000010500000000 "u1".toList "manager".toList "access-secret".toList
    "refresh-secret".toList 15 24
    ⟨[("Authorization".toList, "Bearer ".toList ++
      jwt.signed demoPrims .HS256
        (issuedClaims 1700000000500000000 "u1".toList "manager".toList 15 time.Minute)
        (toBytes "access-secret".toList))], []⟩ hr hn
  have hacc : acc = jwt.signed demoPrims .HS256
      (issuedClaims 1700000000500000000 "u1".toList "manager".toList 15 time.Minute)
      (toBytes "access-secret".toList) := by
    have := GenerateTokens_ok demoPrims 1700000000500000000 "u1".toList "manager".toList
      "access-secret".toList "refresh-secret".toList 15 24
    rw [hg] at this
    injection this with this
    injection this with e1 e2
  subst hacc
  obtain ⟨c', h1, h2, h3, _⟩ := h (by simp [Context.HeaderGet, List.lookup])
  exact ⟨_, ref, hg, c', h1, h2, h3⟩

/-! ## Action tokens -/

/-- Claim C7 does not hold of the code. The verification token and the reset token
issued for `user456` are accepted, but both validators answer `user123`:
`VerifyEmail` marks `user123` verified and `ResetPassword` replaces the
password hash of `user123`, while `user456` is left as it was. -/
theorem action_token_yields_user123 :
    demoUseCase.generateVerificationToken 1700000000000000000 "user456".toList =
      .ok "verify_user456_1700000000".toList ∧
    demoUseCase.validateVerificationToken "verify_user456_1700000000".toList =
      .ok "user123".toList ∧
    demoUseCase.generatePasswordResetToken 1700000000000000000 "user456".toList =
      .ok "reset_user456_1700000000".toList ∧
    demoUseCase.validatePasswordResetToken "reset_user456_1700000000".toList =
      .ok "user123".toList ∧
    demoUseCase.VerifyEmail "verify_user456_1700000000".toList
        [demoUser "user456".toList "h1".toList, demoUser "user123".toList "h2".toList] =
      (.ok (), [demoUser "user456".toList "h1".toList,
        { demoUser "user123".toList "h2".toList with Verified := true }]) ∧
    demoUseCase.ResetPassword "reset_user456_1700000000".toList "newpassword123".toList
        [demoUser "user456".toList "h1".toList, demoUser "user123".toList "h2".toList] =
      (.ok (), [demoUser "user456".toList "h1".toList,
        demoUser "user123".toList "hashed_newpassword123".toList]) :=
  ⟨rfl, rfl, rfl, rfl, rfl, rfl⟩

/-- Claim C8 does not hold of the code. A token issued for email verification and
presented to `ResetPassword` is accepted and the stored password hash is
replaced; a reset token presented to `VerifyEmail` is accepted and the user is
marked verified. -/
theorem purpose_not_checked :
    demoUseCase.generateVerificationToken 1700000000000000000 "user123".toList =
      .ok "verify_user123_1700000000".toList ∧
    demoUseCase.ResetPassword "verify_user123_1700000000".toList "newpassword123".toList
        [demoUser "user123".toList "old_hash".toList] =
      (.ok (), [demoUser "user123".toList "hashed_newpassword123".toList]) ∧
    demoUseCase.generatePasswordResetToken 1700000000000000000 "user123".toList =
      .ok "reset_user123_1700000000".toList ∧
    demoUseCase.VerifyEmail "reset_user123_1700000000".toList
        [demoUser "user123".toList "old_hash".toList] =
      (.ok (), [{ demoUser "user123".toList "old_hash".toList with Verified := true }]) :=
  ⟨rfl, rfl, rfl, rfl⟩

/-- Claim C9 does not hold of the code. After a `ResetPassword` call with a reset
token has succeeded, a second call with the same token succeeds again and
replaces the stored password hash once more. -/
theorem reset_token_reusable :
    demoUseCase.generatePasswordResetToken 1700000000000000000 "user123".toList =
      .ok "reset_user123_1700000000".toList ∧
    demoUseCase.ResetPassword "reset_user123_1700000000".toList "first-password".toList
        [demoUser "user123".toList "old_hash".toList] =
      (.ok (), [demoUser "user123".toList "hashed_first-password".toList]) ∧
    demoUseCase.ResetPassword "reset_user123_1700000000".toList "second-password".toList
        [demoUser "user123".toList "hashed_first-password".toList] =
      (.ok (), [demoUser "user123".toList "hashed_second-password".toList]) :=
  ⟨rfl, rfl, rfl⟩

/-- Claim C10 does not hold of the code. With a token lifetime of 24 hours, the
tokens issued on 2001-09-09 (Unix second 1000000000) are accepted whenever they
are presented: neither `ResetPassword` nor `VerifyEmail` reads the clock, the
issue time in the token or the configured lifetime. -/
theorem action_token_never_expires :
    demoUseCase.cfg.TokenTTLHours = 24 ∧
    demoUseCase.generatePasswordResetToken 1000000000000000000 "user123".toList =
      .ok "reset_user123_1000000000".toList ∧
    demoUseCase.ResetPassword "reset_user123_1000000000".toList "newpassword123".toList
        [demoUser "user123".toList "old_hash".toList] =
      (.ok (), [demoUser "user123".toList "hashed_newpassword123".toList]) ∧
    demoUseCase.generateVerificationToken 1000000000000000000 "user123".toList =
      .ok "verify_user123_1000000000".toList ∧
    demoUseCase.VerifyEmail "verify_user123_1000000000".toList
        [demoUser "user123".toList "old_hash".toList] =
      (.ok (), [{ demoUser "user123".toList "old_hash".toList with Verified := true }]) :=
  ⟨rfl, rfl, rfl, rfl, rfl⟩

/-- Claim C11 does not hold of the code. The token `invalid_token` is issued by
neither generate function, yet both validators accept it and answer
`user123`: `VerifyEmail` marks that user verified and `ResetPassword` replaces
the password hash; on a store without `user123` the error is the store
lookup's `user not found`, not an invalid token. -/
theorem invalid_token_accepted :
    (∀ (now : Int) (userID : Str),
      demoUseCase.generateVerificationToken now userID ≠ .ok "invalid_token".toList ∧
      demoUseCase.generatePasswordResetToken now userID ≠ .ok "invalid_token".toList) ∧
    demoUseCase.validateVerificationToken "invalid_token".toList = .ok "user123".toList ∧
    demoUseCase.validatePasswordResetToken "invalid_token".toList = .ok "user123".toList ∧
    demoUseCase.VerifyEmail "invalid_token".toList [demoUser "user123".toList "old_hash".toList] =
      (.ok (), [{ demoUser "user123".toList "old_hash".toList with Verified := true }]) ∧
    demoUseCase.VerifyEmail "invalid_token".toList [] = (.error "user not found".toList, []) ∧
    demoUseCase.ResetPassword "invalid_token".toList "newpassword123".toList
        [demoUser "user123".toList "old_hash".toList] =
      (.ok (), [demoUser "user123".toList "hashed_newpassword123".toList]) ∧
    demoUseCase.ResetPassword "invalid_token".toList "newpassword123".toList [] =
      (.error "user not found".toList, []) := by
  refine ⟨?_, rfl, rfl, rfl, rfl, rfl, rfl⟩
  intro now userID
  constructor
  · intro h
    simp [EmailUseCase.generateVerificationToken] at h
  · intro h
    simp [EmailUseCase.generatePasswordResetToken] at h

/-! ## The user use case: refresh -/

/-- A refresh with an accepted token returns the access token `GenerateTokens`
signs for the accepted identity and role. -/
theorem Refresh_ok {σ : Type} (P : Prims) (uc : UserUseCase σ) (now now' : Int)
    (refreshToken : Str) (claims : Claims)
    (h : ValidateToken P now refreshToken uc.cfg.RefreshSecret = .ok claims) :
    uc.Refresh P now now' refreshToken =
      .ok ⟨jwt.signed P .HS256
        (issuedClaims now' claims.UserID claims.Role uc.cfg.AccessTTLMin time.Minute)
        (toBytes uc.cfg.AccessSecret)⟩ := by
  unfold UserUseCase.Refresh
  rw [h]
  simp only [GenerateTokens_ok]

theorem Refresh_error {σ : Type} (P : Prims) (uc : UserUseCase σ) (now now' : Int)
    (refreshToken : Str) (e : jwt.Error)
    (h : ValidateToken P now refreshToken uc.cfg.RefreshSecret = .error e) :
    uc.Refresh P now now' refreshToken = .error (.New "invalid refresh token".toList) := by
  unfold UserUseCase.Refresh
  rw [h]

/-- Claim C12. `Refresh` succeeds exactly when `ValidateToken` accepts the presented
token under the refresh secret. Then the response holds an access token (and
nothing else: `RefreshResponse` has this one field) which, whenever it is
checked before the expiry it carries, `ValidateToken` accepts under the access
secret with the identity id and the role of the accepted claims. When the
presented token is not accepted, `Refresh` fails with `invalid refresh token`
and returns no response. -/
theorem refresh_reissues_access_token {σ : Type} (P : Prims) (uc : UserUseCase σ)
    (now now' : Int) (refreshToken : Str) :
    ((∃ resp, uc.Refresh P now now' refreshToken = .ok resp) ↔
      ∃ claims, ValidateToken P now refreshToken uc.cfg.RefreshSecret = .ok claims) ∧
    (∀ claims, ValidateToken P now refreshToken uc.cfg.RefreshSecret = .ok claims →
      ∃ resp, uc.Refresh P now now' refreshToken = .ok resp ∧
        (clockRange now' → ∀ t : Int,
          t < jwt.NewNumericDate (now' + time.Duration uc.cfg.AccessTTLMin time.Minute) *
            time.Second →
          ∃ c, ValidateToken P t resp.AccessToken uc.cfg.AccessSecret = .ok c ∧
            c.UserID = claims.UserID ∧ c.Role = claims.Role)) ∧
    ((¬ ∃ claims, ValidateToken P now refreshToken uc.cfg.RefreshSecret = .ok claims) →
      uc.Refresh P now now' refreshToken = .error (.New "invalid refresh token".toList)) := by
  have hok : ∀ claims, ValidateToken P now refreshToken uc.cfg.RefreshSecret = .ok claims →
      ∃ resp, uc.Refresh P now now' refreshToken = .ok resp ∧
        (clockRange now' → ∀ t : Int,
          t < jwt.NewNumericDate (now' + time.Duration uc.cfg.AccessTTLMin time.Minute) *
            time.Second →
          ∃ c, ValidateToken P t resp.AccessToken uc.cfg.AccessSecret = .ok c ∧
            c.UserID = claims.UserID ∧ c.Role = claims.Role) := by
    intro claims h
    refine ⟨_, Refresh_ok P uc now now' refreshToken claims h, ?_⟩
    intro hr t ht
    refine ⟨issuedClaims now' claims.UserID claims.Role uc.cfg.AccessTTLMin time.Minute,
      ?_, rfl, rfl⟩
    simp only
    rw [ValidateToken_issued P t now' _ _ _ _ _ hr, if_pos ht]
  have herr : (¬ ∃ claims, ValidateToken P now refreshToken uc.cfg.RefreshSecret = .ok claims) →
      uc.Refresh P now now' refreshToken = .error (.New "invalid refresh token".toList) := by
    intro hn
    cases hv : ValidateToken P now refreshToken uc.cfg.RefreshSecret with
    | ok claims => exact absurd ⟨claims, hv⟩ hn
    | error e => exact Refresh_error P uc now now' refreshToken e hv
  refine ⟨⟨?_, ?_⟩, hok, herr⟩
  · rintro ⟨resp, hr⟩
    by_contra hn
    rw [herr hn] at hr
    cases hr
  · rintro ⟨claims, h⟩
    obtain ⟨resp, hr, _⟩ := hok claims h
    exact ⟨resp, hr⟩

/-- An instance of C12: the refresh token issued with the test configuration,
presented ten seconds after issue; the access token of the response is checked
a further ten seconds later. -/
theorem refresh_reissues_access_token_witness :
    ∃ acc ref resp c,
      GenerateTokens demoPrims 1700000000500000000 "u1".toList "manager".toList
        "test-access".toList "test-refresh".toList 15 168 = .ok (acc, ref) ∧
      demoUserUseCase.Refresh demoPrims 1700000010500000000 1700000010600000000 ref =
        .ok resp ∧
      ValidateToken demoPrims 1700000020500000000 resp.AccessToken "test-access".toList =
        .ok c ∧
      c.UserID = "u1".toList ∧ c.Role = "manager".toList := by
  have hr : clockRange 1700000000500000000 := by unfold clockRange; norm_num
  have hr' : clockRange 1700000010600000000 := by unfold clockRange; norm_num
  have hv : ValidateToken demoPrims 1700000010500000000
      (jwt.signed demoPrims .HS256
        (issuedClaims 1700000000500000000 "u1".toList "manager".toList 168 time.Hour)
        (toBytes "test-refresh".toList)) demoUserUseCase.cfg.RefreshSecret =
      .ok (issuedClaims 1700000000500000000 "u1".toList "manager".toList 168 time.Hour) := by
    have := ValidateToken_issued demoPrims 1700000010500000000 1700000000500000000
      "u1".toList "manager".toList "test-refresh".toList 168 time.Hour hr
    show ValidateToken demoPrims 1700000010500000000 _ "test-refresh".toList = _
    rw [this, if_pos]
    simp only [jwt.NewNumericDate, time.Unix, time.Duration, time.wrap64, time.Hour, time.Minute,
      time.Second]
    norm_num
  obtain ⟨resp, hresp, hacc⟩ := (refresh_reissues_access_token demoPrims demoUserUseCase
    1700000010500000000 1700000010600000000 _).2.1 _ hv
  obtain ⟨c, hc, hu, hro⟩ := hacc hr' 1700000020500000000 (by
    simp only [demoUserUseCase, demoUserConfig, jwt.NewNumericDate, time.Unix, time.Duration,
      time.wrap64, time.Minute, time.Second]
    norm_num)
  exact ⟨_, _, resp, c, GenerateTokens_ok demoPrims _ _ _ _ _ 15 168, hresp, hc, hu, hro⟩

/-! ## The user use case: login -/

/-- Claim C13. When the lookup of the email completes without a store error, `Login`
returns the one error `invalid credentials`, and no tokens, both when no user
exists for the email and when a user exists whose stored hash the password
does not match. -/
theorem login_hides_registration {σ : Type} (P : Prims) (H : PasswordHasher)
    (uc : UserUseCase σ) (now : Int) (req : LoginRequest) (s : σ) :
    (uc.repo.GetByEmail s req.Email = .ok none →
      uc.Login P H now req s = .error (.New "invalid credentials".toList)) ∧
    (∀ u, uc.repo.GetByEmail s req.Email = .ok (some u) →
      H.CheckPassword u.PasswordHash req.Password = false →
      uc.Login P H now req s = .error (.New "invalid credentials".toList)) := by
  constructor
  · intro h
    unfold UserUseCase.Login
    rw [h]
  · intro u h hc
    unfold UserUseCase.Login
    rw [h]
    simp [hc]

/-- An instance of C13 on the store in memory: an email nobody registered, and a
registered email with a wrong password. -/
theorem login_hides_registration_witness :
    demoUserUseCase.Login demoPrims demoHasher 1700000000500000000
        ⟨"nobody@example.com".toList, "secret123".toList⟩
        [{ demoUser "user123".toList "hashed_secret123".toList with Verified := true }] =
      .error (.New "invalid credentials".toList) ∧
    demoUserUseCase.Login demoPrims demoHasher 1700000000500000000
        ⟨"user123@example.com".toList, "wrong-password".toList⟩
        [{ demoUser "user123".toList "hashed_secret123".toList with Verified := true }] =
      .error (.New "invalid credentials".toList) :=
  ⟨(login_hides_registration demoPrims demoHasher demoUserUseCase 1700000000500000000
      ⟨"nobody@example.com".toList, "secret123".toList⟩ _).1 rfl,
   (login_hides_registration demoPrims demoHasher demoUserUseCase 1700000000500000000
      ⟨"user123@example.com".toList, "wrong-password".toList⟩ _).2 _ rfl rfl⟩

/-- Claim C14. For every stored user whose password matches and whose `Verified`
flag is false, `Login` fails with `account not verified`; and whenever `Login`
returns a token pair, the user stored for the email has the flag set (and the
password matches). -/
theorem login_blocked_unverified {σ : Type} (P : Prims) (H : PasswordHasher)
    (uc : UserUseCase σ) (now : Int) (req : LoginRequest) (s : σ) :
    (∀ u, uc.repo.GetByEmail s req.Email = .ok (some u) →
      H.CheckPassword u.PasswordHash req.Password = true → u.Verified = false →
      uc.Login P H now req s = .error (.New "account not verified".toList)) ∧
    (∀ resp, uc.Login P H now req s = .ok resp →
      ∃ u, uc.repo.GetByEmail s req.Email = .ok (some u) ∧ u.Verified = true ∧
        H.CheckPassword u.PasswordHash req.Password = true) := by
  constructor
  · intro u h hc hv
    unfold UserUseCase.Login
    rw [h]
    simp [hc, hv]
  · intro resp h
    unfold UserUseCase.Login at h
    cases hg : uc.repo.GetByEmail s req.Email with
    | error e => simp [hg] at h
    | ok ou =>
      cases ou with
      | none => simp [hg] at h
      | some u =>
        cases hc : H.CheckPassword u.PasswordHash req.Password with
        | false => simp [hg, hc] at h
        | true =>
          cases hv : u.Verified with
          | false => simp [hg, hc, hv] at h
          | true => exact ⟨u, rfl, hv, hc⟩

/-- An instance of C14 on the store in memory: the right password for an
unverified account, and the same account once it is verified. -/
theorem login_blocked_unverified_witness :
    demoUserUseCase.Login demoPrims demoHasher 1700000000500000000
        ⟨"user123@example.com".toList, "secret123".toList⟩
        [demoUser "user123".toList "hashed_secret123".toList] =
      .error (.New "account not verified".toList) ∧
    ∃ resp, demoUserUseCase.Login demoPrims demoHasher 1700000000500000000
        ⟨"user123@example.com".toList, "secret123".toList⟩
        [{ demoUser "user123".toList "hashed_secret123".toList with Verified := true }] =
      .ok resp :=
  ⟨(login_blocked_unverified demoPrims demoHasher demoUserUseCase 1700000000500000000
      ⟨"user123@example.com".toList, "secret123".toList⟩ _).1 _ rfl rfl rfl,
   ⟨_, by
    unfold UserUseCase.Login
    simp only [GenerateTokens_ok]
    rfl⟩⟩

/-! ## The user use case: registration -/

/-- A registration for an email the store already holds fails before anything
else happens, whatever the rest of the store does. -/
theorem Register_existing {σ : Type} (P : Prims) (H : PasswordHasher) (uc : UserUseCase σ)
    (now now' : Int) (req : RegisterRequest) (s : σ) (u : User)
    (h : uc.repo.GetByEmail s req.Email = .ok (some u)) :
    uc.Register P H now now' req s = (.error (.New "email already exists".toList), s) := by
  unfold UserUseCase.Register
  simp [h]

/-- A registration that succeeds on the store in memory found no user with the
email and appended one. -/
theorem Register_ok_memStore (P : Prims) (H : PasswordHasher) (send : Sender) (cfg : Config)
    (now now' : Int) (req : RegisterRequest) (s s' : List User) (resp : RegisterResponse)
    (h : UserUseCase.Register P H ⟨memStore, send, cfg⟩ now now' req s = (.ok resp, s')) :
    (s.find? fun u => decide (u.Email = req.Email)) = none ∧
      ∃ u : User, u.Email = req.Email ∧ s' = s ++ [u] := by
  unfold UserUseCase.Register at h
  simp only [memStore] at h
  cases hf : (s.find? fun u => decide (u.Email = req.Email)) with
  | some u => simp [hf] at h
  | none =>
    refine ⟨rfl, ?_⟩
    cases hh : H.HashPassword req.Password with
    | error e => simp [hf, hh] at h
    | ok hash =>
      simp only [hf, hh, GenerateTokens_ok, Prod.mk.injEq] at h
      exact ⟨_, rfl, h.2.symm⟩

/-- Two registrations on the store in memory, whose lookups do not fail, for every
email and any two passwords: after a `Register` with the email has succeeded, a
second `Register` with the same email fails with `email already exists` and
returns no tokens; it leaves the store as it was, and does so whatever `Create`
would do (it is not called); the store then holds exactly one user with that
email. -/
theorem Register_twice_memStore (P : Prims) (H : PasswordHasher) (send : Sender)
    (cfg : Config) (now now' now2 now2' : Int) (email pw1 pw2 : Str) (s s' : List User)
    (resp : RegisterResponse)
    (h : UserUseCase.Register P H ⟨memStore, send, cfg⟩ now now' ⟨email, pw1⟩ s =
      (.ok resp, s')) :
    UserUseCase.Register P H ⟨memStore, send, cfg⟩ now2 now2' ⟨email, pw2⟩ s' =
      (.error (.New "email already exists".toList), s') ∧
    (∀ create : List User → User → Except Str Str × List User,
      UserUseCase.Register P H ⟨{ memStore with Create := create }, send, cfg⟩ now2 now2'
        ⟨email, pw2⟩ s' = (.error (.New "email already exists".toList), s')) ∧
    (s'.filter fun u => decide (u.Email = email)).length = 1 := by
  obtain ⟨hnone, u, hu, hs'⟩ := Register_ok_memStore P H send cfg now now' ⟨email, pw1⟩ s s'
    resp h
  simp only at hnone hu
  have hall : ∀ x ∈ s, ¬ x.Email = email := by
    intro x hx
    have := List.find?_eq_none.1 hnone x hx
    simpa using this
  have hfind : (s'.find? fun x => decide (x.Email = email)) = some u := by
    rw [hs', List.find?_append, hnone]
    simp [hu]
  refine ⟨?_, ?_, ?_⟩
  · exact Register_existing P H ⟨memStore, send, cfg⟩ now2 now2' ⟨email, pw2⟩ s' u
      (by simp only [memStore]; rw [hfind])
  · intro create
    exact Register_existing P H ⟨{ memStore with Create := create }, send, cfg⟩ now2 now2'
      ⟨email, pw2⟩ s' u (by simp only [memStore]; rw [hfind])
  · rw [hs', List.filter_append]
    have hnil : (s.filter fun x => decide (x.Email = email)) = [] := by
      rw [List.filter_eq_nil_iff]
      intro x hx
      simpa using hall x hx
    rw [hnil]
    simp [hu]

/-- An error of the lookup is discarded: the registration goes on as it does for
an email the store does not hold. -/
theorem Register_lookup_error {σ : Type} (P : Prims) (H : PasswordHasher) (uc : UserUseCase σ)
    (now now' : Int) (req : RegisterRequest) (s : σ) (e : Str)
    (h : uc.repo.GetByEmail s req.Email = .error e) :
    uc.Register P H now now' req s =
      UserUseCase.Register P H
        { uc with repo := { uc.repo with GetByEmail := fun _ _ => .ok none } } now now' req s := by
  unfold UserUseCase.Register
  simp only [h]

/-- Claim C15 does not hold of the code. `Register` discards the error of the lookup
`GetByEmail` (`existing, _ :=`). When the lookup returns the stored user, the
second `Register` fails with `email already exists`, returns no tokens and
leaves the store as it was, whatever `Create` would do; so it is on a store
whose lookups do not fail, which then holds exactly one user with the email.
But when the lookup fails, `Register` goes on as for an unknown email, to the
hasher and to `Create`: on a store whose lookup answers `connection refused`
the second `Register` for `alice@example.com` succeeds, returns tokens, and the
store holds two users with that email. -/
theorem register_ignores_lookup_error :
    (∀ (σ : Type) (P : Prims) (H : PasswordHasher) (uc : UserUseCase σ)
        (create : σ → User → Except Str Str × σ) (now now' : Int) (req : RegisterRequest)
        (s : σ) (u : User),
      uc.repo.GetByEmail s req.Email = .ok (some u) →
        UserUseCase.Register P H { uc with repo := { uc.repo with Create := create } } now now'
            req s =
          (.error (.New "email already exists".toList), s)) ∧
    (∀ (P : Prims) (H : PasswordHasher) (send : Sender) (cfg : Config)
        (now now' now2 now2' : Int) (email pw1 pw2 : Str) (s s' : List User)
        (resp : RegisterResponse),
      UserUseCase.Register P H ⟨memStore, send, cfg⟩ now now' ⟨email, pw1⟩ s = (.ok resp, s') →
        UserUseCase.Register P H ⟨memStore, send, cfg⟩ now2 now2' ⟨email, pw2⟩ s' =
          (.error (.New "email already exists".toList), s') ∧
        (s'.filter fun u => decide (u.Email = email)).length = 1) ∧
    (∀ (σ : Type) (P : Prims) (H : PasswordHasher) (uc : UserUseCase σ) (now now' : Int)
        (req : RegisterRequest) (s : σ) (e : Str),
      uc.repo.GetByEmail s req.Email = .error e →
        uc.Register P H now now' req s =
          UserUseCase.Register P H
            { uc with repo := { uc.repo with GetByEmail := fun _ _ => .ok none } } now now'
            req s) ∧
    (∃ resp resp2 s1 s2,
      UserUseCase.Register demoPrims demoHasher ⟨lookupDown, sendOk, demoUserConfig⟩
          1700000000500000000 1700000000600000000
          ⟨"alice@example.com".toList, "secret123".toList⟩ [] = (.ok resp, s1) ∧
      lookupDown.GetByEmail s1 "alice@example.com".toList = .error "connection refused".toList ∧
      UserUseCase.Register demoPrims demoHasher ⟨lookupDown, sendOk, demoUserConfig⟩
          1700000001500000000 1700000001600000000
          ⟨"alice@example.com".toList, "654321".toList⟩ s1 = (.ok resp2, s2) ∧
      s2.map (fun u => (u.ID, u.Email, u.PasswordHash)) =
        [("u0".toList, "alice@example.com".toList, "hashed_secret123".toList),
         ("u1".toList, "alice@example.com".toList, "hashed_654321".toList)]) := by
  refine ⟨?_, ?_, ?_, ?_⟩
  · intro σ P H uc create now now' req s u h
    exact Register_existing P H { uc with repo := { uc.repo with Create := create } } now now'
      req s u h
  · intro P H send cfg now now' now2 now2' email pw1 pw2 s s' resp h
    have := Register_twice_memStore P H send cfg now now' now2 now2' email pw1 pw2 s s' resp h
    exact ⟨this.1, this.2.2⟩
  · intro σ P H uc now now' req s e h
    exact Register_lookup_error P H uc now now' req s e h
  · refine ⟨⟨jwt.signed demoPrims .HS256
          (issuedClaims 1700000000600000000 "u0".toList RoleUser 15 time.Minute)
          (toBytes "test-access".toList),
        jwt.signed demoPrims .HS256
          (issuedClaims 1700000000600000000 "u0".toList RoleUser 168 time.Hour)
          (toBytes "test-refresh".toList)⟩,
      ⟨jwt.signed demoPrims .HS256
          (issuedClaims 1700000001600000000 "u1".toList RoleUser 15 time.Minute)
          (toBytes "test-access".toList),
        jwt.signed demoPrims .HS256
          (issuedClaims 1700000001600000000 "u1".toList RoleUser 168 time.Hour)
          (toBytes "test-refresh".toList)⟩,
      [{ ID := "u0".toList, Email := "alice@example.com".toList,
         PasswordHash := "hashed_secret123".toList, Role := RoleUser, Verified := false,
         CreatedAt := 1700000000500000000 }],
      [{ ID := "u0".toList, Email := "alice@example.com".toList,
         PasswordHash := "hashed_secret123".toList, Role := RoleUser, Verified := false,
         CreatedAt := 1700000000500000000 },
       { ID := "u1".toList, Email := "alice@example.com".toList,
         PasswordHash := "hashed_654321".toList, Role := RoleUser, Verified := false,
         CreatedAt := 1700000001500000000 }], ?_, rfl, ?_, rfl⟩
    · unfold UserUseCase.Register
      simp only [GenerateTokens_ok]
      rfl
    · unfold UserUseCase.Register
      simp only [GenerateTokens_ok]
      rfl

/-! ## The gate: format and failure answers -/

theorem MiddlewareGate_missing (P : Prims) (now : Int) (accessSecret : Str) (c : Context)
    (h : c.HeaderGet "Authorization".toList = []) :
    MiddlewareGate P now accessSecret c = .respond ⟨401, NewError 401 "missing token".toList⟩ := by
  unfold MiddlewareGate
  simp only []
  rw [if_pos h]

/-- A header that is not empty and not of the shape is answered `invalid token
format`. -/
theorem MiddlewareGate_format (P : Prims) (now : Int) (accessSecret : Str) (c : Context)
    (hne : c.HeaderGet "Authorization".toList ≠ [])
    (hs : ¬ bearerShape (c.HeaderGet "Authorization".toList)) :
    MiddlewareGate P now accessSecret c =
      .respond ⟨401, NewError 401 "invalid token format".toList⟩ := by
  unfold MiddlewareGate
  simp only [hne, if_false]
  split
  · rename_i scheme tok hsp
    by_cases hsch : scheme = "Bearer".toList
    · exfalso
      apply hs
      have hspec := Split_spec ' ' (c.HeaderGet "Authorization".toList)
      rw [hsp] at hspec
      refine ⟨tok, ?_, hspec.1 tok (by simp)⟩
      rw [← hspec.2, hsch]
      simp [List.intercalate, List.intersperse]
    · simp only [ne_eq, hsch, not_false_eq_true, if_true]
  · rfl

/-- A header of the shape is answered by the verdict of `ValidateToken`: never
with `missing token` or `invalid token format`. -/
theorem MiddlewareGate_shape (P : Prims) (now : Int) (accessSecret : Str) (c : Context)
    (hs : bearerShape (c.HeaderGet "Authorization".toList)) :
    MiddlewareGate P now accessSecret c ≠
        .respond ⟨401, NewError 401 "missing token".toList⟩ ∧
      MiddlewareGate P now accessSecret c ≠
        .respond ⟨401, NewError 401 "invalid token format".toList⟩ := by
  obtain ⟨t, ht, hb⟩ := hs
  rw [MiddlewareGate_bearer P now accessSecret c t ht hb]
  cases ValidateToken P now t accessSecret with
  | error e => exact ⟨by simp [NewError], by simp [NewError]⟩
  | ok claims => exact ⟨by simp, by simp⟩

/-- Claim C16. For any two `Authorization` headers of the form `Bearer <t>`, the
scheme, one blank and a token (a word without a blank), whose tokens both fail
`ValidateToken`, for whatever reason, the gate's response is the same: status
401 with the message `invalid or expired token`. -/
theorem gate_collapses_failures (P : Prims) (now : Int) (accessSecret : Str)
    (c₁ c₂ : Context) (t₁ t₂ : Str) (e₁ e₂ : jwt.Error)
    (h₁ : c₁.HeaderGet "Authorization".toList = "Bearer ".toList ++ t₁)
    (h₂ : c₂.HeaderGet "Authorization".toList = "Bearer ".toList ++ t₂)
    (b₁ : ' ' ∉ t₁) (b₂ : ' ' ∉ t₂)
    (f₁ : ValidateToken P now t₁ accessSecret = .error e₁)
    (f₂ : ValidateToken P now t₂ accessSecret = .error e₂) :
    MiddlewareGate P now accessSecret c₁ =
        .respond ⟨401, NewError 401 "invalid or expired token".toList⟩ ∧
      MiddlewareGate P now accessSecret c₂ = MiddlewareGate P now accessSecret c₁ := by
  rw [MiddlewareGate_bearer P now accessSecret c₁ t₁ h₁ b₁,
    MiddlewareGate_bearer P now accessSecret c₂ t₂ h₂ b₂, f₁, f₂]
  exact ⟨rfl, rfl⟩

/-- An instance of C16: an access token that has expired and a token signed with
another secret. -/
theorem gate_collapses_failures_witness :
    ∃ t₁ t₂,
      ValidateToken demoPrims 1700009999000000000 t₁ "a".toList =
        .error (.ErrTokenInvalidClaims true false) ∧
      ValidateToken demoPrims 1700009999000000000 t₂ "a".toList =
        .error .ErrTokenSignatureInvalid ∧
      MiddlewareGate demoPrims 1700009999000000000 "a".toList
          ⟨[("Authorization".toList, "Bearer ".toList ++ t₁)], []⟩ =
        .respond ⟨401, NewError 401 "invalid or expired token".toList⟩ ∧
      MiddlewareGate demoPrims 1700009999000000000 "a".toList
          ⟨[("Authorization".toList, "Bearer ".toList ++ t₂)], []⟩ =
        MiddlewareGate demoPrims 1700009999000000000 "a".toList
          ⟨[("Authorization".toList, "Bearer ".toList ++ t₁)], []⟩ := by
  have hr : clockRange 1700000000500000000 := by unfold clockRange; norm_num
  have f₁ : ValidateToken demoPrims 1700009999000000000
      (jwt.signed demoPrims .HS256
        (issuedClaims 1700000000500000000 "u1".toList "user".toList 15 time.Minute)
        (toBytes "a".toList)) "a".toList = .error (.ErrTokenInvalidClaims true false) := by
    rw [ValidateToken_issued demoPrims _ _ _ _ _ _ _ hr, if_neg]
    simp only [jwt.NewNumericDate, time.Unix, time.Duration, time.wrap64, time.Minute,
      time.Second]
    norm_num
  have f₂ : ValidateToken demoPrims 1700009999000000000
      (jwt.signed demoPrims .HS256
        (issuedClaims 1700000000500000000 "u1".toList "user".toList 15 time.Minute)
        (toBytes "b".toList)) "a".toList = .error .ErrTokenSignatureInvalid :=
    ValidateToken_other_secret demoPrims _ _ _ _ _ _ _ _ hr (fun h => demo_mac_ne _ h.symm)
  have := gate_collapses_failures demoPrims 1700009999000000000 "a".toList
    ⟨[("Authorization".toList, "Bearer ".toList ++ jwt.signed demoPrims .HS256
        (issuedClaims 1700000000500000000 "u1".toList "user".toList 15 time.Minute)
        (toBytes "a".toList))], []⟩
    ⟨[("Authorization".toList, "Bearer ".toList ++ jwt.signed demoPrims .HS256
        (issuedClaims 1700000000500000000 "u1".toList "user".toList 15 time.Minute)
        (toBytes "b".toList))], []⟩ _ _ _ _
    (by simp [Context.HeaderGet, List.lookup]) (by simp [Context.HeaderGet, List.lookup])
    (signed_no_blank _ _ _ _) (signed_no_blank _ _ _ _) f₁ f₂
  exact ⟨_, _, f₁, f₂, this.1, this.2⟩

/-- Claim C17, as amended. The gate answers `missing token` exactly when the
`Authorization` header is absent or empty. For a header that is not empty it
answers `invalid token format` exactly when the header is not of the shape
`Bearer <token>`: the scheme `Bearer`, one blank, then a token without a blank,
where the token may be empty. In both cases no token is verified: the answer is
the same for every hash function and JSON encoding, every clock and every
secret. -/
theorem gate_format_answers (P : Prims) (now : Int) (accessSecret : Str) (c : Context) :
    (MiddlewareGate P now accessSecret c =
        .respond ⟨401, NewError 401 "missing token".toList⟩ ↔
      c.HeaderGet "Authorization".toList = []) ∧
    (c.HeaderGet "Authorization".toList ≠ [] →
      (MiddlewareGate P now accessSecret c =
          .respond ⟨401, NewError 401 "invalid token format".toList⟩ ↔
        ¬ bearerShape (c.HeaderGet "Authorization".toList))) ∧
    (c.HeaderGet "Authorization".toList = [] ∨
        ¬ bearerShape (c.HeaderGet "Authorization".toList) →
      ∀ (P' : Prims) (now' : Int) (secret' : Str),
        MiddlewareGate P' now' secret' c = MiddlewareGate P now accessSecret c) := by
  refine ⟨⟨?_, MiddlewareGate_missing P now accessSecret c⟩, ?_, ?_⟩
  · intro h
    by_contra hne
    by_cases hs : bearerShape (c.HeaderGet "Authorization".toList)
    · exact (MiddlewareGate_shape P now accessSecret c hs).1 h
    · rw [MiddlewareGate_format P now accessSecret c hne hs] at h
      revert h
      simp [NewError]
  · intro hne
    constructor
    · intro h hs
      exact (MiddlewareGate_shape P now accessSecret c hs).2 h
    · exact MiddlewareGate_format P now accessSecret c hne
  · intro h P' now' secret'
    by_cases he : c.HeaderGet "Authorization".toList = []
    · rw [MiddlewareGate_missing P' now' secret' c he, MiddlewareGate_missing P now accessSecret c he]
    · have hs : ¬ bearerShape (c.HeaderGet "Authorization".toList) := by
        rcases h with h | h
        · exact absurd h he
        · exact h
      rw [MiddlewareGate_format P' now' secret' c he hs,
        MiddlewareGate_format P now accessSecret c he hs]

/-- Claim C17 as stated fails: the header `Bearer ` (the scheme, one blank and an
empty token) is not empty and holds no token, yet it splits into two parts and
its empty token is handed to `ValidateToken`; the answer is `invalid or
expired token`, not `invalid token format`. -/
theorem bearer_empty_token_verified :
    "Bearer ".toList ≠ [] ∧
    "invalid or expired token".toList ≠ "invalid token format".toList ∧
    strings.Split ' ' "Bearer ".toList = ["Bearer".toList, []] ∧
    ∀ (P : Prims) (now : Int) (accessSecret : Str),
      ValidateToken P now [] accessSecret = .error .ErrTokenMalformed ∧
      MiddlewareGate P now accessSecret ⟨[("Authorization".toList, "Bearer ".toList)], []⟩ =
        .respond ⟨401, NewError 401 "invalid or expired token".toList⟩ := by
  refine ⟨by decide, by decide, rfl, ?_⟩
  intro P now accessSecret
  exact ⟨rfl, rfl⟩

/-! ## Role gating in the blog service -/

/-- Claim C18. For each of the four roles `guest < user < manager < admin` in the
request context, the category-creation handler and the comment-moderation
handler answer 403 `forbidden`, whatever the rest of the handler would do (the
use case is not called), exactly when the role ranks below `manager`, and go
on to the rest of the handler exactly when the role is `manager` or `admin`. -/
theorem role_gate_follows_order (c : Context) (role : Str)
    (hr : role ∈ [RoleGuest, RoleUser, RoleManager, RoleAdmin])
    (hc : c.Get "role".toList = some role) :
    ∃ r m, roleRank role = some r ∧ roleRank RoleManager = some m ∧
      (r < m ↔ blog.CreateCategoryCheck c =
        .respond ⟨403, .error (NewError 403 "forbidden".toList)⟩) ∧
      (m ≤ r ↔ blog.CreateCategoryCheck c = .proceed) ∧
      (r < m → ∀ rest, blog.HTTPHandler.CreateCategory rest c =
        some ⟨403, .error (NewError 403 "forbidden".toList)⟩) ∧
      (m ≤ r → ∀ rest, blog.HTTPHandler.CreateCategory rest c = some (rest c)) ∧
      (r < m ↔ blog.UpdateCommentStatusCheck c =
        .respond ⟨403, .error (NewError 403 "forbidden".toList)⟩) ∧
      (m ≤ r ↔ blog.UpdateCommentStatusCheck c = .proceed) ∧
      (r < m → ∀ rest, blog.HTTPHandler.UpdateCommentStatus rest c =
        some ⟨403, .error (NewError 403 "forbidden".toList)⟩) ∧
      (m ≤ r → ∀ rest, blog.HTTPHandler.UpdateCommentStatus rest c = some (rest c)) := by
  simp only [List.mem_cons, List.mem_singleton, List.not_mem_nil, or_false] at hr
  rcases hr with rfl | rfl | rfl | rfl
  · refine ⟨0, 2, rfl, rfl, ?_⟩
    simp only [blog.CreateCategoryCheck, blog.UpdateCommentStatusCheck,
      blog.HTTPHandler.CreateCategory, blog.HTTPHandler.UpdateCommentStatus, hc]
    simp [RoleGuest]
  · refine ⟨1, 2, rfl, rfl, ?_⟩
    simp only [blog.CreateCategoryCheck, blog.UpdateCommentStatusCheck,
      blog.HTTPHandler.CreateCategory, blog.HTTPHandler.UpdateCommentStatus, hc]
    simp [RoleUser]
  · refine ⟨2, 2, rfl, rfl, ?_⟩
    simp only [blog.CreateCategoryCheck, blog.UpdateCommentStatusCheck,
      blog.HTTPHandler.CreateCategory, blog.HTTPHandler.UpdateCommentStatus, hc]
    simp [RoleManager]
  · refine ⟨3, 2, rfl, rfl, ?_⟩
    simp only [blog.CreateCategoryCheck, blog.UpdateCommentStatusCheck,
      blog.HTTPHandler.CreateCategory, blog.HTTPHandler.UpdateCommentStatus, hc]
    simp [RoleAdmin]

/-- An instance of C18: a context the gate filled for a `user`, whose rank 1 is
below the rank 2 of `manager`. -/
theorem role_gate_follows_order_witness :
    RoleUser ∈ [RoleGuest, RoleUser, RoleManager, RoleAdmin] ∧
    (Context.Set (Context.Set ⟨[], []⟩ "userID".toList "u1".toList) "role".toList RoleUser).Get
      "role".toList = some RoleUser ∧
    roleRank RoleUser = some 1 ∧ roleRank RoleManager = some 2 ∧
    blog.CreateCategoryCheck
        (Context.Set (Context.Set ⟨[], []⟩ "userID".toList "u1".toList) "role".toList RoleUser) =
      .respond ⟨403, .error (NewError 403 "forbidden".toList)⟩ ∧
    blog.UpdateCommentStatusCheck
        (Context.Set (Context.Set ⟨[], []⟩ "userID".toList "u1".toList) "role".toList RoleUser) =
      .respond ⟨403, .error (NewError 403 "forbidden".toList)⟩ := by
  have hm : RoleUser ∈ [RoleGuest, RoleUser, RoleManager, RoleAdmin] := by simp
  obtain ⟨r, m, h1, h2, h3, _, _, _, h7, _⟩ := role_gate_follows_order
    (Context.Set (Context.Set ⟨[], []⟩ "userID".toList "u1".toList) "role".toList RoleUser)
    RoleUser hm rfl
  have e1 : roleRank RoleUser = some 1 := rfl
  have e2 : roleRank RoleManager = some 2 := rfl
  rw [e1] at h1
  rw [e2] at h2
  cases h1
  cases h2
  exact ⟨hm, rfl, rfl, rfl, h3.1 (by decide), h7.1 (by decide)⟩

/-! ## The password reset request -/

/-- Claim C19, as amended. For every email, when the mail sender delivers the reset
mail, the result of `SendPasswordResetEmail` is the same whether the lookup
finds a user or finds none, namely `nil`, and so is the response the handler
builds from it: 200 with the message `password reset email sent`. -/
theorem reset_request_same_outcome {σ : Type} (uc : EmailUseCase σ)
    (getByEmail : σ → Str → Except Str (Option User)) (send : Sender) (now : Int)
    (email : Str) (s₁ s₂ : σ) (u : User)
    (h₁ : getByEmail s₁ email = .ok (some u)) (h₂ : getByEmail s₂ email = .ok none)
    (hs : send email passwordResetSubject
      (passwordResetBody (uc.cfg.BaseURL ++ "/reset-password?token=".toList ++
        ("reset_".toList ++ u.ID ++ "_".toList ++ formatInt (time.Unix now)))
        uc.cfg.TokenTTLHours) = none) :
    uc.SendPasswordResetEmail getByEmail send now email s₁ = .ok () ∧
    uc.SendPasswordResetEmail getByEmail send now email s₂ = .ok () ∧
    HTTPHandler.SendPasswordResetEmail uc getByEmail send now (.ok email) s₁ =
      ⟨200, .success (OK [("message".toList, "password reset email sent".toList)])⟩ ∧
    HTTPHandler.SendPasswordResetEmail uc getByEmail send now (.ok email) s₂ =
      HTTPHandler.SendPasswordResetEmail uc getByEmail send now (.ok email) s₁ := by
  have e₁ : uc.SendPasswordResetEmail getByEmail send now email s₁ = .ok () := by
    unfold EmailUseCase.SendPasswordResetEmail
    rw [h₁]
    simp only [EmailUseCase.generatePasswordResetToken]
    rw [hs]
  have e₂ : uc.SendPasswordResetEmail getByEmail send now email s₂ = .ok () := by
    unfold EmailUseCase.SendPasswordResetEmail
    rw [h₂]
  refine ⟨e₁, e₂, ?_, ?_⟩
  · unfold HTTPHandler.SendPasswordResetEmail
    simp only [e₁]
  · unfold HTTPHandler.SendPasswordResetEmail
    simp only [e₁, e₂]

/-- An instance of the amended C19: a sender that delivers every mail, the store
with and without the user. -/
theorem reset_request_same_outcome_witness :
    demoUseCase.SendPasswordResetEmail memStore.GetByEmail sendOk 1700000000500000000
        "user123@example.com".toList [demoUser "user123".toList "h".toList] = .ok () ∧
    demoUseCase.SendPasswordResetEmail memStore.GetByEmail sendOk 1700000000500000000
        "user123@example.com".toList [] = .ok () ∧
    HTTPHandler.SendPasswordResetEmail demoUseCase memStore.GetByEmail sendOk 1700000000500000000
        (.ok "user123@example.com".toList) [demoUser "user123".toList "h".toList] =
      ⟨200, .success (OK [("message".toList, "password reset email sent".toList)])⟩ ∧
    HTTPHandler.SendPasswordResetEmail demoUseCase memStore.GetByEmail sendOk 1700000000500000000
        (.ok "user123@example.com".toList) [] =
      HTTPHandler.SendPasswordResetEmail demoUseCase memStore.GetByEmail sendOk
        1700000000500000000 (.ok "user123@example.com".toList)
        [demoUser "user123".toList "h".toList] :=
  reset_request_same_outcome demoUseCase memStore.GetByEmail sendOk 1700000000500000000
    "user123@example.com".toList [demoUser "user123".toList "h".toList] []
    (demoUser "user123".toList "h".toList) rfl rfl rfl

/-- Claim C19 as stated fails: with a mail sender that fails, the request for the
email of an existing user returns the error of the sender and the handler
answers 500, while the request for an unknown email returns `nil` and the
handler answers 200. -/
theorem reset_request_reveals_on_mail_failure :
    demoUseCase.SendPasswordResetEmail memStore.GetByEmail sendFails 1700000000500000000
        "user123@example.com".toList [demoUser "user123".toList "h".toList] =
      .error "failed to send password reset email: smtp error".toList ∧
    demoUseCase.SendPasswordResetEmail memStore.GetByEmail sendFails 1700000000500000000
        "user123@example.com".toList [] = .ok () ∧
    HTTPHandler.SendPasswordResetEmail demoUseCase memStore.GetByEmail sendFails
        1700000000500000000 (.ok "user123@example.com".toList)
        [demoUser "user123".toList "h".toList] =
      ⟨500, .error (NewError 500 "failed to send password reset email: smtp error".toList)⟩ ∧
    HTTPHandler.SendPasswordResetEmail demoUseCase memStore.GetByEmail sendFails
        1700000000500000000 (.ok "user123@example.com".toList) [] =
      ⟨200, .success (OK [("message".toList, "password reset email sent".toList)])⟩ :=
  ⟨rfl, rfl, rfl, rfl⟩

/-! ## Email verification -/

/-- What `VerifyEmail` does with the user its validator resolves the token to: a
user who is not verified is handed to the store's `Update` with `Verified` set
to true and every other field unchanged, and the result is that of the update;
for a user who is already verified the method fails with `email already
verified` and leaves the store as it was, whatever `Update` would do. -/
theorem VerifyEmail_resolved {σ : Type} (uc : EmailUseCase σ) (token : Str) (s : σ)
    (userID : Str) (user : User)
    (hv : uc.validateVerificationToken token = .ok userID)
    (hg : uc.repo.GetByID s userID = .ok (some user)) :
    (user.Verified = false →
      uc.VerifyEmail token s =
        match uc.repo.Update s
          { ID := user.ID, Email := user.Email, PasswordHash := user.PasswordHash,
            Role := user.Role, Verified := true, CreatedAt := user.CreatedAt } with
        | (some err, s') => (.error ("failed to update user verification: ".toList ++ err), s')
        | (none, s') => (.ok (), s')) ∧
    (user.Verified = true →
      ∀ update : σ → User → Option Str × σ,
        EmailUseCase.VerifyEmail { uc with repo := { uc.repo with Update := update } } token s =
          (.error "email already verified".toList, s)) := by
  constructor
  · intro h
    unfold EmailUseCase.VerifyEmail
    rw [hv]
    simp only [hg, h]
    rfl
  · intro h update
    unfold EmailUseCase.VerifyEmail
    have hv' : EmailUseCase.validateVerificationToken
        { uc with repo := { uc.repo with Update := update } } token = .ok userID := hv
    rw [hv']
    simp only [hg, h, if_true]

/-- Claim C20 does not hold of the code. `validateVerificationToken` resolves every
token it accepts to `user123`, so the one-way transition is made on `user123`,
whoever the token was issued for. The token issued for the unverified
`user456` leaves `user456` unverified: it marks `user123` verified, and on a
store without `user123` it fails with `user not found`. The token issued for
`user456` who is already verified does not fail with `email already
verified`: it succeeds and writes `user123` to the store. For the user the
validator resolves the token to, the transition is as the claim says. -/
theorem verify_email_wrong_user :
    (∀ (σ : Type) (uc : EmailUseCase σ) (token : Str) (s : σ) (userID : Str) (user : User),
      uc.validateVerificationToken token = .ok userID →
      uc.repo.GetByID s userID = .ok (some user) →
        userID = "user123".toList ∧
        (user.Verified = false →
          uc.VerifyEmail token s =
            match uc.repo.Update s
              { ID := user.ID, Email := user.Email, PasswordHash := user.PasswordHash,
                Role := user.Role, Verified := true, CreatedAt := user.CreatedAt } with
            | (some err, s') =>
              (.error ("failed to update user verification: ".toList ++ err), s')
            | (none, s') => (.ok (), s')) ∧
        (user.Verified = true →
          ∀ update : σ → User → Option Str × σ,
            EmailUseCase.VerifyEmail { uc with repo := { uc.repo with Update := update } }
                token s =
              (.error "email already verified".toList, s))) ∧
    demoUseCase.generateVerificationToken 1700000000000000000 "user456".toList =
      .ok "verify_user456_1700000000".toList ∧
    demoUseCase.VerifyEmail "verify_user456_1700000000".toList
        [demoUser "user456".toList "h1".toList, demoUser "user123".toList "h2".toList] =
      (.ok (), [demoUser "user456".toList "h1".toList,
        { demoUser "user123".toList "h2".toList with Verified := true }]) ∧
    demoUseCase.VerifyEmail "verify_user456_1700000000".toList
        [demoUser "user456".toList "h1".toList] =
      (.error "user not found".toList, [demoUser "user456".toList "h1".toList]) ∧
    demoUseCase.VerifyEmail "verify_user456_1700000000".toList
        [{ demoUser "user456".toList "h1".toList with Verified := true },
         demoUser "user123".toList "h2".toList] =
      (.ok (), [{ demoUser "user456".toList "h1".toList with Verified := true },
        { demoUser "user123".toList "h2".toList with Verified := true }]) := by
  refine ⟨?_, rfl, rfl, rfl, rfl⟩
  intro σ uc token s userID user hv hg
  refine ⟨?_, VerifyEmail_resolved uc token s userID user hv hg⟩
  unfold EmailUseCase.validateVerificationToken at hv
  split at hv
  · exact absurd hv (by simp)
  · exact (Except.ok.inj hv).symm

/-! ## Action tokens: how they are made -/

/-- Claim C21. Against the claim, an action token has no random component. Both
generators return the text made of a fixed word, the identity id and the issue
time in whole seconds, so the token is reconstructed from the id and the
timestamp; two tokens issued for one identity at instants of the same clock
second are equal, as for `user123` at 0.1 s and 0.9 s after 1700000000. -/
theorem action_token_determined :
    (∀ (σ : Type) (uc : EmailUseCase σ) (now : Int) (userID : Str),
      uc.generateVerificationToken now userID =
          .ok ("verify_".toList ++ userID ++ "_".toList ++ formatInt (time.Unix now)) ∧
        uc.generatePasswordResetToken now userID =
          .ok ("reset_".toList ++ userID ++ "_".toList ++ formatInt (time.Unix now))) ∧
    (∀ (σ : Type) (uc : EmailUseCase σ) (now now' : Int) (userID : Str),
      time.Unix now = time.Unix now' →
        uc.generateVerificationToken now userID = uc.generateVerificationToken now' userID ∧
        uc.generatePasswordResetToken now userID =
          uc.generatePasswordResetToken now' userID) ∧
    demoUseCase.generateVerificationToken 1700000000100000000 "user123".toList =
      .ok "verify_user123_1700000000".toList ∧
    demoUseCase.generateVerificationToken 1700000000900000000 "user123".toList =
      .ok "verify_user123_1700000000".toList ∧
    demoUseCase.generatePasswordResetToken 1700000000100000000 "user123".toList =
      .ok "reset_user123_1700000000".toList ∧
    demoUseCase.generatePasswordResetToken 1700000000900000000 "user123".toList =
      .ok "reset_user123_1700000000".toList := by
  refine ⟨fun _ _ _ _ => ⟨rfl, rfl⟩, ?_, rfl, rfl, rfl, rfl⟩
  intro σ uc now now' userID h
  simp only [EmailUseCase.generateVerificationToken, EmailUseCase.generatePasswordResetToken, h,
    and_self]

/-! ## The credential hasher and the password reset -/

theorem specVerify_specHash (kdf : Str → Str → Str) (salt p p' : Str) (hs : salt.length = 16) :
    specVerify kdf (specHash kdf salt p) p' = decide (kdf salt p = kdf salt p') := by
  unfold specVerify specHash
  have h1 : (salt ++ '$' :: kdf salt p).drop 16 = '$' :: kdf salt p := by
    rw [← hs]; exact List.drop_left' rfl
  have h2 : (salt ++ '$' :: kdf salt p).take 16 = salt := by
    rw [← hs]; exact List.take_left' rfl
  simp only [h1, h2]

/-- Claim C22. Against the claim, the digest `hashPassword` makes at a password reset
is the word `hashed_` followed by the plaintext: no salt, no derivation, the
plaintext readable in it. The credential hasher of the spec, whose digests
embed the salt of the call, verifies its own digests (and rejects a plaintext
whose derived key differs) but verifies no plaintext against a digest of
`hashPassword`: after `ResetPassword` with `newpassword123`, `Login` with that
password answers `invalid credentials`. -/
theorem reset_digest_not_verifiable :
    (∀ (σ : Type) (uc : EmailUseCase σ) (p : Str),
      uc.hashPassword p = .ok ("hashed_".toList ++ p)) ∧
    (∀ (kdf : Str → Str → Str) (p p' : Str),
      specVerify kdf ("hashed_".toList ++ p) p' = false) ∧
    (∀ (kdf : Str → Str → Str) (salt p : Str), salt.length = 16 →
      specVerify kdf (specHash kdf salt p) p = true) ∧
    (∀ (kdf : Str → Str → Str) (salt p p' : Str), salt.length = 16 →
      kdf salt p ≠ kdf salt p' → specVerify kdf (specHash kdf salt p) p' = false) ∧
    (∀ (kdf : Str → Str → Str) (salt : Str),
      demoUseCase.ResetPassword "reset_user123_1700000000".toList "newpassword123".toList
          [{ demoUser "user123".toList "old_hash".toList with Verified := true }] =
        (.ok (), [{ demoUser "user123".toList "hashed_newpassword123".toList with
                    Verified := true }]) ∧
      demoUserUseCase.Login demoPrims (specHasher kdf salt) 1700000000000000000
          ⟨"user123@example.com".toList, "newpassword123".toList⟩
          [{ demoUser "user123".toList "hashed_newpassword123".toList with Verified := true }] =
        .error (.New "invalid credentials".toList)) := by
  refine ⟨fun _ _ _ => rfl, fun _ _ _ => rfl, ?_, ?_, fun _ _ => ⟨rfl, rfl⟩⟩
  · intro kdf salt p hs
    rw [specVerify_specHash kdf salt p p hs]
    simp
  · intro kdf salt p p' hs hne
    rw [specVerify_specHash kdf salt p p' hs]
    simp [hne]

/-! ## Two consume calls at once -/

theorem VerifyEmail_phases {σ : Type} (uc : EmailUseCase σ) (token : Str) (s : σ) :
    uc.VerifyEmail token s =
      match uc.VerifyEmailRead token s with
      | .error err => (.error err, s)
      | .ok user => uc.VerifyEmailWrite user s := by
  unfold EmailUseCase.VerifyEmail EmailUseCase.VerifyEmailRead EmailUseCase.VerifyEmailWrite
  cases uc.validateVerificationToken token with
  | error e => rfl
  | ok userID =>
    simp only []
    cases uc.repo.GetByID s userID with
    | error e => rfl
    | ok o =>
      cases o with
      | none => rfl
      | some user =>
        simp only []
        by_cases hv : user.Verified = true
        · simp only [hv, if_true]
        · simp only [hv, if_false]
          rfl

theorem ResetPassword_phases {σ : Type} (uc : EmailUseCase σ) (token newPassword : Str) (s : σ) :
    uc.ResetPassword token newPassword s =
      match uc.ResetPasswordRead token newPassword s with
      | .error err => (.error err, s)
      | .ok user => uc.ResetPasswordWrite user s := by
  unfold EmailUseCase.ResetPassword EmailUseCase.ResetPasswordRead
    EmailUseCase.ResetPasswordWrite
  cases uc.validatePasswordResetToken token with
  | error e => rfl
  | ok userID =>
    simp only []
    cases uc.repo.GetByID s userID with
    | error e => rfl
    | ok o =>
      cases o with
      | none => rfl
      | some user => rfl

/-- Claim C23. Against the claim, two consume calls for one freshly issued token
both succeed, in whatever order their store operations run. A call is its
read (token check and `GetByID`) followed by its write (`Update`). Two
`ResetPassword` calls succeed when they run one after the other, and when both
read before either writes, in both orders of the writes; two `VerifyEmail`
calls that both read before either writes both succeed, and run one after the
other the second fails with `email already verified`. No call fails for a
token that was used. -/
theorem concurrent_consume_both_succeed :
    (∀ (σ : Type) (uc : EmailUseCase σ) (token newPassword : Str) (s : σ),
      uc.ResetPassword token newPassword s =
        match uc.ResetPasswordRead token newPassword s with
        | .error err => (.error err, s)
        | .ok user => uc.ResetPasswordWrite user s) ∧
    (∀ (σ : Type) (uc : EmailUseCase σ) (token : Str) (s : σ),
      uc.VerifyEmail token s =
        match uc.VerifyEmailRead token s with
        | .error err => (.error err, s)
        | .ok user => uc.VerifyEmailWrite user s) ∧
    demoUseCase.generatePasswordResetToken 1700000000000000000 "user123".toList =
      .ok "reset_user123_1700000000".toList ∧
    (∃ s1 s2,
      demoUseCase.ResetPassword "reset_user123_1700000000".toList "first-password".toList
          [demoUser "user123".toList "old_hash".toList] = (.ok (), s1) ∧
      demoUseCase.ResetPassword "reset_user123_1700000000".toList "second-password".toList
          s1 = (.ok (), s2)) ∧
    (∃ a b s1 s2 s1' s2',
      demoUseCase.ResetPasswordRead "reset_user123_1700000000".toList "first-password".toList
          [demoUser "user123".toList "old_hash".toList] = .ok a ∧
      demoUseCase.ResetPasswordRead "reset_user123_1700000000".toList "second-password".toList
          [demoUser "user123".toList "old_hash".toList] = .ok b ∧
      demoUseCase.ResetPasswordWrite a [demoUser "user123".toList "old_hash".toList] =
        (.ok (), s1) ∧
      demoUseCase.ResetPasswordWrite b s1 = (.ok (), s2) ∧
      demoUseCase.ResetPasswordWrite b [demoUser "user123".toList "old_hash".toList] =
        (.ok (), s1') ∧
      demoUseCase.ResetPasswordWrite a s1' = (.ok (), s2')) ∧
    demoUseCase.generateVerificationToken 1700000000000000000 "user123".toList =
      .ok "verify_user123_1700000000".toList ∧
    (∃ a b s1 s2,
      demoUseCase.VerifyEmailRead "verify_user123_1700000000".toList
          [demoUser "user123".toList "old_hash".toList] = .ok a ∧
      demoUseCase.VerifyEmailRead "verify_user123_1700000000".toList
          [demoUser "user123".toList "old_hash".toList] = .ok b ∧
      demoUseCase.VerifyEmailWrite a [demoUser "user123".toList "old_hash".toList] =
        (.ok (), s1) ∧
      demoUseCase.VerifyEmailWrite b s1 = (.ok (), s2)) ∧
    (∃ s1,
      demoUseCase.VerifyEmail "verify_user123_1700000000".toList
          [demoUser "user123".toList "old_hash".toList] = (.ok (), s1) ∧
      demoUseCase.VerifyEmail "verify_user123_1700000000".toList s1 =
        (.error "email already verified".toList, s1)) := by
  refine ⟨fun _ uc token pw s => ResetPassword_phases uc token pw s,
    fun _ uc token s => VerifyEmail_phases uc token s, rfl,
    ⟨_, _, rfl, rfl⟩, ⟨_, _, _, _, _, _, rfl, rfl, rfl, rfl, rfl, rfl⟩, rfl,
    ⟨_, _, _, _, rfl, rfl, rfl, rfl⟩, ⟨_, rfl, rfl⟩⟩

/-! ## Articles: creation -/

/-- Claim C24. `Create` answers a request of more than 10 tags with the error
`max 10 tags`, the store untouched, whatever the repository is: no method of
it is called. A request of 10 tags or fewer reaches the repository's `Create`
with an article that carries the request's tags, and fails only with the
error the repository's `Create` returns. -/
theorem create_rejects_over_ten_tags {σ : Type} (lower : Char → Char)
    (repo : blog.ArticleRepository σ) (now now' : Int) (userID : Str)
    (req : blog.CreateArticleRequest) (s : σ) :
    (10 < req.Tags.length →
      (blog.ArticleUseCase.mk repo).Create lower now now' userID req s =
        (.error "max 10 tags".toList, s)) ∧
    (req.Tags.length ≤ 10 →
      ∃ a : blog.Article, a.Tags = req.Tags ∧ a.AuthorID = userID ∧ a.Title = req.Title ∧
        (∀ err s', repo.Create s a = (.error err, s') →
          (blog.ArticleUseCase.mk repo).Create lower now now' userID req s = (.error err, s')) ∧
        (∀ id s', repo.Create s a = (.ok id, s') →
          ∃ resp, (blog.ArticleUseCase.mk repo).Create lower now now' userID req s =
              (.ok resp, s') ∧ resp.ID = id ∧ resp.Tags = req.Tags)) := by
  constructor
  · intro h
    unfold blog.ArticleUseCase.Create
    rw [if_pos h]
  · intro h
    have h' : ¬ req.Tags.length > 10 := by omega
    refine ⟨{ ID := [], AuthorID := userID, Title := req.Title,
              Slug := (blog.ArticleUseCase.mk repo).slugLoop s
                (strings.ReplaceAll (strings.ToLower lower req.Title) ' ' '-') 5 0
                (strings.ReplaceAll (strings.ToLower lower req.Title) ' ' '-'),
              Summary := req.Summary, Content := req.Content, CoverURL := req.CoverURL,
              Status := blog.StatusDraft, CategoryID := req.CategoryID, Tags := req.Tags,
              ViewCount := 0, RatingAvg := 0, CreatedAt := now, UpdatedAt := now',
              PublishedAt := none }, rfl, rfl, rfl, ?_, ?_⟩
    · intro err s' hc
      unfold blog.ArticleUseCase.Create
      rw [if_neg h']
      simp only [hc]
    · intro id s' hc
      unfold blog.ArticleUseCase.Create
      rw [if_neg h']
      simp only [hc]
      exact ⟨_, rfl, rfl, rfl⟩

/-- The theorem of claim C24 at the requests of the repository's tests: eleven
tags are rejected, two tags are stored. -/
theorem create_rejects_over_ten_tags_witness :
    blog.demoArticleUseCase.Create asciiLower 1700000000000000000 1700000000000000001
        "user123".toList
        { blog.demoRequest with
          Tags := ["tag1".toList, "tag2".toList, "tag3".toList, "tag4".toList, "tag5".toList,
                   "tag6".toList, "tag7".toList, "tag8".toList, "tag9".toList, "tag10".toList,
                   "tag11".toList] } [] = (.error "max 10 tags".toList, []) ∧
    ∃ resp s', blog.demoArticleUseCase.Create asciiLower 1700000000000000000
        1700000000000000001 "user123".toList blog.demoRequest [] = (.ok resp, s') ∧
      resp.Tags = ["test".toList, "article".toList] :=
  ⟨(create_rejects_over_ten_tags asciiLower blog.memArticles 1700000000000000000
      1700000000000000001 "user123".toList _ []).1 (by decide),
    by
      obtain ⟨a, _, _, _, _, hok⟩ :=
        (create_rejects_over_ten_tags asciiLower blog.memArticles 1700000000000000000
          1700000000000000001 "user123".toList blog.demoRequest []).2 (by decide)
      obtain ⟨resp, hr, _, ht⟩ := hok _ _ rfl
      exact ⟨resp, _, hr, ht⟩⟩

/-! ## Articles: who may change them -/

/-- Claim C25. For an article the repository returns for the id and a user id
other than its `AuthorID`, `Update` and `Delete` fail with `forbidden`; when
the repository returns no article (and no error) both fail with `article not
found`; an error of the lookup is returned as it is. In the three cases the
store is left as it was and the answer is the same whatever the repository's
`Update` and `Delete` are: they are not called. -/
theorem only_author_modifies {σ : Type} (repo : blog.ArticleRepository σ)
    (upd : σ → blog.Article → Option Str × σ) (del : σ → Str → Option Str × σ) (now : Int)
    (userID id : Str) (req : blog.CreateArticleRequest) (s : σ) :
    (∀ a, repo.GetByID s id = .ok (some a) → a.AuthorID ≠ userID →
      (blog.ArticleUseCase.mk { repo with Update := upd, Delete := del }).Update now userID id
          req s = (.error "forbidden".toList, s) ∧
      (blog.ArticleUseCase.mk { repo with Update := upd, Delete := del }).Delete userID id s =
        (some "forbidden".toList, s)) ∧
    (repo.GetByID s id = .ok none →
      (blog.ArticleUseCase.mk { repo with Update := upd, Delete := del }).Update now userID id
          req s = (.error "article not found".toList, s) ∧
      (blog.ArticleUseCase.mk { repo with Update := upd, Delete := del }).Delete userID id s =
        (some "article not found".toList, s)) ∧
    (∀ err, repo.GetByID s id = .error err →
      (blog.ArticleUseCase.mk { repo with Update := upd, Delete := del }).Update now userID id
          req s = (.error err, s) ∧
      (blog.ArticleUseCase.mk { repo with Update := upd, Delete := del }).Delete userID id s =
        (some err, s)) := by
  refine ⟨?_, ?_, ?_⟩
  · intro a h hne
    unfold blog.ArticleUseCase.Update blog.ArticleUseCase.Delete
    simp only [h, hne, ne_eq, not_false_eq_true, if_true, and_self]
  · intro h
    unfold blog.ArticleUseCase.Update blog.ArticleUseCase.Delete
    simp only [h, and_self]
  · intro err h
    unfold blog.ArticleUseCase.Update blog.ArticleUseCase.Delete
    simp only [h, and_self]

/-- The theorem of claim C25 on the store in memory: `user456` may neither update
nor delete the article of `user123`, and nobody the article that is not there. -/
theorem only_author_modifies_witness :
    (blog.demoArticleUseCase.Update 1700000000000000000 "user456".toList "article123".toList
        blog.demoRequest
        [blog.demoArticle "article123".toList "user123".toList "old-slug".toList] =
      (.error "forbidden".toList,
        [blog.demoArticle "article123".toList "user123".toList "old-slug".toList]) ∧
     blog.demoArticleUseCase.Delete "user456".toList "article123".toList
        [blog.demoArticle "article123".toList "user123".toList "old-slug".toList] =
      (some "forbidden".toList,
        [blog.demoArticle "article123".toList "user123".toList "old-slug".toList])) ∧
    (blog.demoArticleUseCase.Update 1700000000000000000 "user123".toList "nonexistent".toList
        blog.demoRequest
        [blog.demoArticle "article123".toList "user123".toList "old-slug".toList] =
      (.error "article not found".toList,
        [blog.demoArticle "article123".toList "user123".toList "old-slug".toList]) ∧
     blog.demoArticleUseCase.Delete "user123".toList "nonexistent".toList
        [blog.demoArticle "article123".toList "user123".toList "old-slug".toList] =
      (some "article not found".toList,
        [blog.demoArticle "article123".toList "user123".toList "old-slug".toList])) :=
  ⟨(only_author_modifies blog.memArticles blog.memArticles.Update blog.memArticles.Delete
      1700000000000000000 "user456".toList "article123".toList blog.demoRequest
      [blog.demoArticle "article123".toList "user123".toList "old-slug".toList]).1
      _ rfl (by decide),
   (only_author_modifies blog.memArticles blog.memArticles.Update blog.memArticles.Delete
      1700000000000000000 "user123".toList "nonexistent".toList blog.demoRequest
      [blog.demoArticle "article123".toList "user123".toList "old-slug".toList]).2.1 rfl⟩

/-- Claim C30. For an article the repository returns for the id and a request by
its author, `Update` hands the repository's `Update` one article, the same
whatever that method is: it holds the request's title, content, summary,
category, tags and cover and the clock as `UpdatedAt`, and the `ID`, `AuthorID`,
`Slug`, `Status`, `ViewCount`, `RatingAvg`, `CreatedAt` and `PublishedAt` of the
article that was read. The slug is the old one also under a new title. The
result is the error of that call or the response made of that article. -/
theorem update_keeps_identity_fields {σ : Type} (repo : blog.ArticleRepository σ) (now : Int)
    (userID id : Str) (req : blog.CreateArticleRequest) (s : σ) (a : blog.Article)
    (h : repo.GetByID s id = .ok (some a)) (ha : a.AuthorID = userID) :
    ∃ a' : blog.Article,
      (a'.ID = a.ID ∧ a'.AuthorID = a.AuthorID ∧ a'.Slug = a.Slug ∧ a'.Status = a.Status ∧
        a'.ViewCount = a.ViewCount ∧ a'.RatingAvg = a.RatingAvg ∧ a'.CreatedAt = a.CreatedAt ∧
        a'.PublishedAt = a.PublishedAt) ∧
      (a'.Title = req.Title ∧ a'.Content = req.Content ∧ a'.Summary = req.Summary ∧
        a'.CategoryID = req.CategoryID ∧ a'.Tags = req.Tags ∧ a'.CoverURL = req.CoverURL ∧
        a'.UpdatedAt = now) ∧
      ∀ upd : σ → blog.Article → Option Str × σ,
        (blog.ArticleUseCase.mk { repo with Update := upd }).Update now userID id req s =
          match upd s a' with
          | (some err, s') => (.error err, s')
          | (none, s') =>
            (.ok { ID := a.ID, AuthorID := a.AuthorID, Title := req.Title, Slug := a.Slug,
                   Summary := req.Summary, Content := req.Content, CoverURL := req.CoverURL,
                   Status := a.Status, CategoryID := req.CategoryID, Tags := req.Tags,
                   ViewCount := a.ViewCount, RatingAvg := a.RatingAvg,
                   CreatedAt := a.CreatedAt, UpdatedAt := now }, s') := by
  refine ⟨{ a with Title := req.Title, Content := req.Content, Summary := req.Summary,
                   CategoryID := req.CategoryID, Tags := req.Tags, CoverURL := req.CoverURL,
                   UpdatedAt := now }, ⟨rfl, rfl, rfl, rfl, rfl, rfl, rfl, rfl⟩,
    ⟨rfl, rfl, rfl, rfl, rfl, rfl, rfl⟩, ?_⟩
  intro upd
  unfold blog.ArticleUseCase.Update
  simp only [h, ha, ne_eq, not_true_eq_false, if_false]

/-- The theorem of claim C30 on the store in memory: the author retitles the
article `article123`; the stored article keeps its slug `old-slug`, its status,
its counters and its dates. -/
theorem update_keeps_identity_fields_witness :
    ∃ a' : blog.Article,
      (a'.ID = "article123".toList ∧ a'.AuthorID = "user123".toList ∧
        a'.Slug = "old-slug".toList ∧ a'.Status = "approved".toList ∧ a'.ViewCount = 7 ∧
        a'.RatingAvg = 4 ∧ a'.CreatedAt = 1690000000000000000 ∧
        a'.PublishedAt = some 1690000100000000000) ∧
      a'.Title = "Test Article".toList ∧
      (blog.demoArticleUseCase.Update 1700000000000000000 "user123".toList
          "article123".toList blog.demoRequest
          [blog.demoArticle "article123".toList "user123".toList "old-slug".toList]).2 =
        [a'] := by
  obtain ⟨a', hf, hr, hu⟩ :=
    update_keeps_identity_fields blog.memArticles 1700000000000000000 "user123".toList
      "article123".toList blog.demoRequest
      [blog.demoArticle "article123".toList "user123".toList "old-slug".toList]
      (blog.demoArticle "article123".toList "user123".toList "old-slug".toList) rfl rfl
  refine ⟨a', hf, hr.1, ?_⟩
  have := hu blog.memArticles.Update
  have hid : a'.ID = "article123".toList := hf.1
  show (blog.ArticleUseCase.Update ⟨{ blog.memArticles with Update := blog.memArticles.Update }⟩
    _ _ _ _ _).2 = _
  rw [this]
  simp [blog.memArticles, blog.demoArticle, hid]

/-! ## Categories -/

/-- Claim C26. Against the claim, `ListTree` returns a flat list: one response for
each category the repository lists, in its order, every one with no children,
whatever the parent ids are. For the list Technology, Programming under
Technology, Science it returns three top-level entries, Programming among them
with its parent id, and Technology without a child. -/
theorem list_tree_returns_flat_list :
    (∀ (σ : Type) (uc : blog.CategoryUseCase σ) (s : σ) (list : List blog.Category),
      uc.repo.ListTree s = .ok list →
        ∃ resp, uc.ListTree s = .ok resp ∧
          resp.map blog.CategoryResponse.ID = list.map (fun c => c.ID) ∧
          resp.map blog.CategoryResponse.ParentID = list.map (fun c => c.ParentID) ∧
          ∀ r ∈ resp, r.Children = []) ∧
    blog.CategoryUseCase.ListTree ⟨blog.memCategories⟩
        [⟨"cat1".toList, "Technology".toList, "technology".toList, []⟩,
         ⟨"cat2".toList, "Programming".toList, "programming".toList, "cat1".toList⟩,
         ⟨"cat3".toList, "Science".toList, "science".toList, []⟩] =
      .ok [.mk "cat1".toList "Technology".toList "technology".toList [] [],
           .mk "cat2".toList "Programming".toList "programming".toList "cat1".toList [],
           .mk "cat3".toList "Science".toList "science".toList [] []] := by
  refine ⟨?_, rfl⟩
  intro σ uc s list h
  unfold blog.CategoryUseCase.ListTree
  rw [h]
  refine ⟨_, rfl, ?_, ?_, ?_⟩
  · simp [List.map_map, Function.comp, blog.CategoryResponse.ID]
  · simp [List.map_map, Function.comp, blog.CategoryResponse.ParentID]
  · intro r hr
    simp only [List.mem_map] at hr
    obtain ⟨c, _, rfl⟩ := hr
    rfl

/-! ## Media: validation before upload -/

theorem isAllowedType_iff {ρ τ : Type} (uc : media.MediaUseCase ρ τ) (contentType : Str) :
    uc.isAllowedType contentType = true ↔
      ∃ allowedType ∈ uc.cfg.AllowedTypes, allowedType <+: contentType := by
  unfold media.MediaUseCase.isAllowedType strings.HasPrefix
  simp only [List.any_eq_true, List.isPrefixOf_iff_prefix]

/-- Claim C27. `Upload` validates the file first. A file larger than `MaxFileSize`
is answered with the error `file too large: <size> bytes (max: <max>)`; a file
of size at most `MaxFileSize` whose content type has no allowed type as a
prefix is answered with `file type not allowed: <content type>`; in both cases
the record store and the file storage are left as they were and the answer is
the same whatever the repository and the storage are: they are not called. A
file of size at most `MaxFileSize` whose content type starts with an allowed
type passes `validateFile`. The size is checked before the type. -/
theorem upload_validates_first {ρ τ : Type} (repo : media.MediaRepository ρ)
    (storage : media.MediaStorage τ) (cfg : media.Config) (ctxValue : Str → Option Str)
    (now now' now'' : Int) (uploaderID : Str) (file : media.FileHeader) (r : ρ) (t : τ) :
    (cfg.MaxFileSize < file.Size →
      (media.MediaUseCase.mk repo storage cfg).Upload ctxValue now now' now'' uploaderID file
          r t =
        (.error ("file too large: ".toList ++ formatInt file.Size ++ " bytes (max: ".toList ++
          formatInt cfg.MaxFileSize ++ ")".toList), r, t)) ∧
    (file.Size ≤ cfg.MaxFileSize →
      (¬ ∃ allowedType ∈ cfg.AllowedTypes,
          allowedType <+: file.HeaderGet "Content-Type".toList) →
      (media.MediaUseCase.mk repo storage cfg).Upload ctxValue now now' now'' uploaderID file
          r t =
        (.error ("file type not allowed: ".toList ++ file.HeaderGet "Content-Type".toList),
          r, t)) ∧
    (file.Size ≤ cfg.MaxFileSize →
      (∃ allowedType ∈ cfg.AllowedTypes,
          allowedType <+: file.HeaderGet "Content-Type".toList) →
      (media.MediaUseCase.mk repo storage cfg).validateFile file = none) := by
  refine ⟨?_, ?_, ?_⟩
  · intro h
    have hv : (media.MediaUseCase.mk repo storage cfg).validateFile file =
        some ("file too large: ".toList ++ formatInt file.Size ++ " bytes (max: ".toList ++
          formatInt cfg.MaxFileSize ++ ")".toList) := by
      unfold media.MediaUseCase.validateFile
      rw [if_pos (show file.Size > cfg.MaxFileSize from h)]
    unfold media.MediaUseCase.Upload
    rw [hv]
  · intro h hn
    have ha : (media.MediaUseCase.mk repo storage cfg).isAllowedType
        (file.HeaderGet "Content-Type".toList) = false := by
      rw [Bool.eq_false_iff]
      intro hc
      exact hn ((isAllowedType_iff _ _).1 hc)
    have hv : (media.MediaUseCase.mk repo storage cfg).validateFile file =
        some ("file type not allowed: ".toList ++ file.HeaderGet "Content-Type".toList) := by
      unfold media.MediaUseCase.validateFile
      rw [if_neg (show ¬ file.Size > cfg.MaxFileSize by omega)]
      simp only [ha, Bool.not_false, if_true]
    unfold media.MediaUseCase.Upload
    rw [hv]
  · intro h hy
    have ha : (media.MediaUseCase.mk repo storage cfg).isAllowedType
        (file.HeaderGet "Content-Type".toList) = true := (isAllowedType_iff _ _).2 hy
    unfold media.MediaUseCase.validateFile
    rw [if_neg (show ¬ file.Size > cfg.MaxFileSize by omega)]
    simp only [ha, Bool.not_true, Bool.false_eq_true, if_false]

/-- The theorem of claim C27 at the files of the repository's tests: the file of
20 MiB is too large, the text file is of a type not allowed, the image of
1024 bytes passes. -/
theorem upload_validates_first_witness :
    media.demoUseCase.Upload (fun _ => none) 1700000000000000000 1700000000000000001
        1700000000000000002 "user123".toList
        (media.demoFile "large.jpg".toList (20 * 1024 * 1024) "image/jpeg".toList) [] [] =
      (.error "file too large: 20971520 bytes (max: 10485760)".toList, [], []) ∧
    media.demoUseCase.Upload (fun _ => none) 1700000000000000000 1700000000000000001
        1700000000000000002 "user123".toList
        (media.demoFile "test.txt".toList 1024 "text/plain".toList) [] [] =
      (.error "file type not allowed: text/plain".toList, [], []) ∧
    media.demoUseCase.validateFile (media.demoFile "test.jpg".toList 1024 "image/jpeg".toList) =
      none :=
  ⟨(upload_validates_first media.memRecords media.memFiles media.demoConfig (fun _ => none)
      1700000000000000000 1700000000000000001 1700000000000000002 "user123".toList
      (media.demoFile "large.jpg".toList (20 * 1024 * 1024) "image/jpeg".toList) [] []).1
      (by decide),
   (upload_validates_first media.memRecords media.memFiles media.demoConfig (fun _ => none)
      1700000000000000000 1700000000000000001 1700000000000000002 "user123".toList
      (media.demoFile "test.txt".toList 1024 "text/plain".toList) [] []).2.1
      (by decide) (by decide),
   (upload_validates_first media.memRecords media.memFiles media.demoConfig (fun _ => none)
      1700000000000000000 1700000000000000001 1700000000000000002 "user123".toList
      (media.demoFile "test.jpg".toList 1024 "image/jpeg".toList) [] []).2.2
      (by decide) ⟨"image/".toList, by decide, by decide⟩⟩

/-- Claim C27, the part that fails as written. A file that is too large and of a
type that is not allowed is answered with `file too large`, and the words `file
type not allowed` stand nowhere in the error: an executable of 20 MiB against
the limit of 10 MiB and the allowed type `image/`. -/
theorem oversized_file_of_wrong_type :
    media.demoUseCase.isAllowedType "application/x-msdownload".toList = false ∧
    media.demoUseCase.Upload (fun _ => none) 1700000000000000000 1700000000000000001
        1700000000000000002 "user123".toList
        (media.demoFile "setup.exe".toList (20 * 1024 * 1024)
          "application/x-msdownload".toList) [] [] =
      (.error "file too large: 20971520 bytes (max: 10485760)".toList, [], []) ∧
    ¬ "file type not allowed".toList <:+:
      "file too large: 20971520 bytes (max: 10485760)".toList := by
  refine ⟨rfl, rfl, ?_⟩
  decide

/-! ## Articles: the slug -/

theorem slugLoop_found {σ : Type} (uc : blog.ArticleUseCase σ) (s : σ) (base : Str) (n i : Nat)
    (slug : Str) (a : blog.Article) (h : uc.repo.GetBySlug s slug = .ok (some a)) :
    uc.slugLoop s base (n + 1) i slug =
      uc.slugLoop s base n (i + 1) (base ++ "-".toList ++ formatInt ((i : Int) + 1)) := by
  simp only [blog.ArticleUseCase.slugLoop, h]

theorem slugLoop_free {σ : Type} (uc : blog.ArticleUseCase σ) (s : σ) (base : Str) (n i : Nat)
    (slug : Str) (h : ∀ a, uc.repo.GetBySlug s slug ≠ .ok (some a)) :
    uc.slugLoop s base (n + 1) i slug = slug := by
  simp only [blog.ArticleUseCase.slugLoop]
  rcases h0 : uc.repo.GetBySlug s slug with e | (_ | a)
  · rfl
  · rfl
  · exact absurd h0 (h a)

/-- The slug `Create` settles on: a candidate the lookup finds no article for,
among the base and the base with the numbers 1 to 4, or else the base with the
number 5, which is not looked up. -/
theorem slugLoop_five {σ : Type} (uc : blog.ArticleUseCase σ) (s : σ) (base : Str) :
    ((∀ a, uc.repo.GetBySlug s (uc.slugLoop s base 5 0 base) ≠ .ok (some a)) ∧
      uc.slugLoop s base 5 0 base ∈
        [base, base ++ "-".toList ++ formatInt 1, base ++ "-".toList ++ formatInt 2,
         base ++ "-".toList ++ formatInt 3, base ++ "-".toList ++ formatInt 4]) ∨
    (uc.slugLoop s base 5 0 base = base ++ "-".toList ++ formatInt 5 ∧
      ∀ c ∈ [base, base ++ "-".toList ++ formatInt 1, base ++ "-".toList ++ formatInt 2,
             base ++ "-".toList ++ formatInt 3, base ++ "-".toList ++ formatInt 4],
        ∃ a, uc.repo.GetBySlug s c = .ok (some a)) := by
  by_cases h0 : ∃ a, uc.repo.GetBySlug s base = .ok (some a)
  swap
  · left
    have h0' : ∀ a, uc.repo.GetBySlug s base ≠ .ok (some a) := fun a h => h0 ⟨a, h⟩
    rw [slugLoop_free uc s base 4 0 base h0']
    exact ⟨h0', by simp⟩
  obtain ⟨a0, e0⟩ := h0
  rw [slugLoop_found uc s base 4 0 base a0 e0]
  have c1 : ((0 : Nat) : Int) + 1 = 1 := rfl
  rw [c1]
  by_cases h1 : ∃ a, uc.repo.GetBySlug s (base ++ "-".toList ++ formatInt 1) = .ok (some a)
  swap
  · left
    have h1' : ∀ a, uc.repo.GetBySlug s (base ++ "-".toList ++ formatInt 1) ≠ .ok (some a) :=
      fun a h => h1 ⟨a, h⟩
    rw [slugLoop_free uc s base 3 1 _ h1']
    exact ⟨h1', by simp⟩
  obtain ⟨a1, e1⟩ := h1
  rw [slugLoop_found uc s base 3 1 _ a1 e1]
  have c2 : ((1 : Nat) : Int) + 1 = 2 := rfl
  rw [c2]
  by_cases h2 : ∃ a, uc.repo.GetBySlug s (base ++ "-".toList ++ formatInt 2) = .ok (some a)
  swap
  · left
    have h2' : ∀ a, uc.repo.GetBySlug s (base ++ "-".toList ++ formatInt 2) ≠ .ok (some a) :=
      fun a h => h2 ⟨a, h⟩
    rw [slugLoop_free uc s base 2 2 _ h2']
    exact ⟨h2', by simp⟩
  obtain ⟨a2, e2⟩ := h2
  rw [slugLoop_found uc s base 2 2 _ a2 e2]
  have c3 : ((2 : Nat) : Int) + 1 = 3 := rfl
  rw [c3]
  by_cases h3 : ∃ a, uc.repo.GetBySlug s (base ++ "-".toList ++ formatInt 3) = .ok (some a)
  swap
  · left
    have h3' : ∀ a, uc.repo.GetBySlug s (base ++ "-".toList ++ formatInt 3) ≠ .ok (some a) :=
      fun a h => h3 ⟨a, h⟩
    rw [slugLoop_free uc s base 1 3 _ h3']
    exact ⟨h3', by simp⟩
  obtain ⟨a3, e3⟩ := h3
  rw [slugLoop_found uc s base 1 3 _ a3 e3]
  have c4 : ((3 : Nat) : Int) + 1 = 4 := rfl
  rw [c4]
  by_cases h4 : ∃ a, uc.repo.GetBySlug s (base ++ "-".toList ++ formatInt 4) = .ok (some a)
  swap
  · left
    have h4' : ∀ a, uc.repo.GetBySlug s (base ++ "-".toList ++ formatInt 4) ≠ .ok (some a) :=
      fun a h => h4 ⟨a, h⟩
    rw [slugLoop_free uc s base 0 4 _ h4']
    exact ⟨h4', by simp⟩
  obtain ⟨a4, e4⟩ := h4
  rw [slugLoop_found uc s base 0 4 _ a4 e4]
  have c5 : ((4 : Nat) : Int) + 1 = 5 := rfl
  rw [c5]
  right
  refine ⟨rfl, ?_⟩
  intro c hc
  simp only [List.mem_cons, List.mem_singleton, List.not_mem_nil, or_false] at hc
  rcases hc with rfl | rfl | rfl | rfl | rfl
  · exact ⟨a0, e0⟩
  · exact ⟨a1, e1⟩
  · exact ⟨a2, e2⟩
  · exact ⟨a3, e3⟩
  · exact ⟨a4, e4⟩

/-- Claim C28. Against the claim, the slug stored with a new article can be one an
existing article has. `Create` tries the base and the base with the numbers 1
to 4; a candidate the lookup finds no article for is taken, and so the slug is
the base when no article has it. After five candidates that are taken the loop
ends with the base and the number 5, which is never looked up: in a store that
holds `test-article` and `test-article-1` to `test-article-5`, the article
created for the title `Test Article` is stored under `test-article-5`, the slug
of an article already there. -/
theorem slug_collides_after_five :
    (∀ (σ : Type) (uc : blog.ArticleUseCase σ) (s : σ) (base : Str),
      ((∀ a, uc.repo.GetBySlug s (uc.slugLoop s base 5 0 base) ≠ .ok (some a)) ∧
        uc.slugLoop s base 5 0 base ∈
          [base, base ++ "-".toList ++ formatInt 1, base ++ "-".toList ++ formatInt 2,
           base ++ "-".toList ++ formatInt 3, base ++ "-".toList ++ formatInt 4]) ∨
      (uc.slugLoop s base 5 0 base = base ++ "-".toList ++ formatInt 5 ∧
        ∀ c ∈ [base, base ++ "-".toList ++ formatInt 1, base ++ "-".toList ++ formatInt 2,
               base ++ "-".toList ++ formatInt 3, base ++ "-".toList ++ formatInt 4],
          ∃ a, uc.repo.GetBySlug s c = .ok (some a))) ∧
    (∀ (σ : Type) (uc : blog.ArticleUseCase σ) (s : σ) (base : Str),
      (∀ a, uc.repo.GetBySlug s base ≠ .ok (some a)) → uc.slugLoop s base 5 0 base = base) ∧
    (∃ resp s',
      blog.demoArticleUseCase.Create asciiLower 1700000000000000000 1700000000000000001
          "user123".toList blog.demoRequest
          [blog.demoArticle "a0".toList "user456".toList "test-article".toList,
           blog.demoArticle "a1".toList "user456".toList "test-article-1".toList,
           blog.demoArticle "a2".toList "user456".toList "test-article-2".toList,
           blog.demoArticle "a3".toList "user456".toList "test-article-3".toList,
           blog.demoArticle "a4".toList "user456".toList "test-article-4".toList,
           blog.demoArticle "a5".toList "user456".toList "test-article-5".toList] =
        (.ok resp, s') ∧
      resp.Slug = "test-article-5".toList ∧ resp.ID = "a6".toList ∧
      blog.memArticles.GetBySlug
          [blog.demoArticle "a0".toList "user456".toList "test-article".toList,
           blog.demoArticle "a1".toList "user456".toList "test-article-1".toList,
           blog.demoArticle "a2".toList "user456".toList "test-article-2".toList,
           blog.demoArticle "a3".toList "user456".toList "test-article-3".toList,
           blog.demoArticle "a4".toList "user456".toList "test-article-4".toList,
           blog.demoArticle "a5".toList "user456".toList "test-article-5".toList]
          "test-article-5".toList =
        .ok (some (blog.demoArticle "a5".toList "user456".toList "test-article-5".toList)) ∧
      (s'.filter fun a => decide (a.Slug = "test-article-5".toList)).map (fun a => a.ID) =
        ["a5".toList, "a6".toList]) := by
  refine ⟨fun _ uc s base => slugLoop_five uc s base,
    fun _ uc s base h => slugLoop_free uc s base 4 0 base h, ⟨_, _, rfl, rfl, rfl, rfl, rfl⟩⟩

/-! ## Access token and refresh token -/

/-- What `ParseUnverified` reads out of a token signed with the method `m` over the
claim set `c`: the method, the claim set, and the three segments. -/
theorem ParseUnverified_signed (P : Prims) (m : jwt.SigningMethod) (c : Claims) (key : Bytes)
    (he : dateExact c.RegisteredClaims.ExpiresAt) (hn : dateExact c.RegisteredClaims.NotBefore)
    (hi : dateExact c.RegisteredClaims.IssuedAt) :
    jwt.ParseUnverified P (jwt.signed P m c key) =
      .ok ({ Raw := jwt.signed P m c key, Method := m, Claims := c, Signature := [],
             Valid := false },
        base64.EncodeToString (P.marshalHeader m.Alg),
        base64.EncodeToString (P.marshalClaims c),
        base64.EncodeToString
          (jwt.mac P m key (toBytes ((jwt.NewWithClaims m c).SigningString P)))) := by
  unfold jwt.ParseUnverified
  rw [Split_signed]
  simp only [DecodeString_EncodeToString, P.header_roundtrip, P.claims_roundtrip c he hn hi,
    GetSigningMethod_Alg]

/-- Claim C29. For every configuration, the two tokens of one `GenerateTokens` call
parse to the same signing method, the same header segment and claim sets with
the same `UserID`, `Role`, issue time as `IssuedAt` and no `NotBefore`: only
`ExpiresAt` differs, and no field says which token is which. When, moreover,
the access secret equals the refresh secret, `Refresh` accepts the access
token at every instant before the expiry it carries, and the gate hands a
request that bears the refresh token to the handler, with the token's user id
and role, at every instant before the expiry the refresh token carries. -/
theorem access_and_refresh_interchangeable {σ : Type} (P : Prims) (uc : UserUseCase σ)
    (t now now' : Int) (uid role : Str) (c : Context) (ht : clockRange t) :
    ∃ acc ref tokA tokR head segA segR sigA sigR,
      GenerateTokens P t uid role uc.cfg.AccessSecret uc.cfg.RefreshSecret uc.cfg.AccessTTLMin
          uc.cfg.RefreshTTLHour = .ok (acc, ref) ∧
      jwt.ParseUnverified P acc = .ok (tokA, head, segA, sigA) ∧
      jwt.ParseUnverified P ref = .ok (tokR, head, segR, sigR) ∧
      tokA.Method = tokR.Method ∧
      tokA.Claims.UserID = uid ∧ tokR.Claims.UserID = uid ∧
      tokA.Claims.Role = role ∧ tokR.Claims.Role = role ∧
      tokA.Claims.RegisteredClaims.IssuedAt = some (jwt.NewNumericDate t) ∧
      tokR.Claims.RegisteredClaims.IssuedAt = some (jwt.NewNumericDate t) ∧
      tokA.Claims.RegisteredClaims.NotBefore = none ∧
      tokR.Claims.RegisteredClaims.NotBefore = none ∧
      tokA.Claims.RegisteredClaims.ExpiresAt =
        some (jwt.NewNumericDate (t + time.Duration uc.cfg.AccessTTLMin time.Minute)) ∧
      tokR.Claims.RegisteredClaims.ExpiresAt =
        some (jwt.NewNumericDate (t + time.Duration uc.cfg.RefreshTTLHour time.Hour)) ∧
      (uc.cfg.AccessSecret = uc.cfg.RefreshSecret →
        now < jwt.NewNumericDate (t + time.Duration uc.cfg.AccessTTLMin time.Minute) *
          time.Second →
        ∃ resp, uc.Refresh P now now' acc = .ok resp) ∧
      (uc.cfg.AccessSecret = uc.cfg.RefreshSecret →
        now < jwt.NewNumericDate (t + time.Duration uc.cfg.RefreshTTLHour time.Hour) *
          time.Second →
        c.HeaderGet "Authorization".toList = "Bearer ".toList ++ ref →
        MiddlewareGate P now uc.cfg.AccessSecret c =
          .next ((c.Set "userID".toList uid).Set "role".toList role)) := by
  obtain ⟨heA, hnA, hiA⟩ := issuedClaims_exact t uid role uc.cfg.AccessTTLMin time.Minute ht
  obtain ⟨heR, hnR, hiR⟩ := issuedClaims_exact t uid role uc.cfg.RefreshTTLHour time.Hour ht
  refine ⟨jwt.signed P .HS256 (issuedClaims t uid role uc.cfg.AccessTTLMin time.Minute)
      (toBytes uc.cfg.AccessSecret),
    jwt.signed P .HS256 (issuedClaims t uid role uc.cfg.RefreshTTLHour time.Hour)
      (toBytes uc.cfg.RefreshSecret),
    { Raw := _, Method := .HS256,
      Claims := issuedClaims t uid role uc.cfg.AccessTTLMin time.Minute, Signature := [],
      Valid := false },
    { Raw := _, Method := .HS256,
      Claims := issuedClaims t uid role uc.cfg.RefreshTTLHour time.Hour, Signature := [],
      Valid := false }, _, _, _, _, _,
    GenerateTokens_ok P t uid role _ _ _ _,
    ParseUnverified_signed P .HS256 _ _ heA hnA hiA,
    ParseUnverified_signed P .HS256 _ _ heR hnR hiR,
    rfl, rfl, rfl, rfl, rfl, rfl, rfl, rfl, rfl, rfl, rfl, ?_, ?_⟩
  · intro hs hnow
    have hv : ValidateToken P now
        (jwt.signed P .HS256 (issuedClaims t uid role uc.cfg.AccessTTLMin time.Minute)
          (toBytes uc.cfg.AccessSecret)) uc.cfg.RefreshSecret =
        .ok (issuedClaims t uid role uc.cfg.AccessTTLMin time.Minute) := by
      rw [← hs, ValidateToken_issued P now t uid role uc.cfg.AccessSecret _ _ ht, if_pos hnow]
    exact ⟨_, Refresh_ok P uc now now' _ _ hv⟩
  · intro hs hnow hh
    have hv : ValidateToken P now
        (jwt.signed P .HS256 (issuedClaims t uid role uc.cfg.RefreshTTLHour time.Hour)
          (toBytes uc.cfg.RefreshSecret)) uc.cfg.AccessSecret =
        .ok (issuedClaims t uid role uc.cfg.RefreshTTLHour time.Hour) := by
      rw [hs, ValidateToken_issued P now t uid role uc.cfg.RefreshSecret _ _ ht, if_pos hnow]
    rw [MiddlewareGate_bearer P now uc.cfg.AccessSecret c _ hh (signed_no_blank P _ _ _), hv]
    rfl

/-- The theorem of claim C29 for a configuration whose two secrets are the same:
one minute after the issue `Refresh` accepts the access token, and one hour
after it the gate lets the refresh token through. -/
theorem access_and_refresh_interchangeable_witness :
    clockRange 1700000000000000000 ∧
    ∃ acc ref,
      GenerateTokens demoPrims 1700000000000000000 "user123".toList "user".toList
          "shared-secret".toList "shared-secret".toList 15 168 = .ok (acc, ref) ∧
      (∃ resp, UserUseCase.Refresh demoPrims
          (⟨memStore, sendOk, ⟨"shared-secret".toList, "shared-secret".toList, 15, 168,
            "test@local".toList⟩⟩ : UserUseCase (List User))
          1700000060000000000 1700000060000000001 acc = .ok resp) ∧
      MiddlewareGate demoPrims 1700003600000000000 "shared-secret".toList
          ⟨[("Authorization".toList, "Bearer ".toList ++ ref)], []⟩ =
        .next ((Context.Set ⟨[("Authorization".toList, "Bearer ".toList ++ ref)], []⟩
          "userID".toList "user123".toList).Set "role".toList "user".toList) := by
  refine ⟨by unfold clockRange; norm_num, ?_⟩
  obtain ⟨acc, ref, tokA, tokR, head, segA, segR, sigA, sigR, hg, -, -, -, -, -, -, -, -, -,
      -, -, -, -, hr, -⟩ :=
    access_and_refresh_interchangeable demoPrims
      (⟨memStore, sendOk, ⟨"shared-secret".toList, "shared-secret".toList, 15, 168,
        "test@local".toList⟩⟩ : UserUseCase (List User))
      1700000000000000000 1700000060000000000 1700000060000000001 "user123".toList
      "user".toList ⟨[], []⟩ (by unfold clockRange; norm_num)
  obtain ⟨acc2, ref2, tokA2, tokR2, head2, segA2, segR2, sigA2, sigR2, hg2, -, -, -, -, -, -,
      -, -, -, -, -, -, -, -, hgate⟩ :=
    access_and_refresh_interchangeable demoPrims
      (⟨memStore, sendOk, ⟨"shared-secret".toList, "shared-secret".toList, 15, 168,
        "test@local".toList⟩⟩ : UserUseCase (List User))
      1700000000000000000 1700003600000000000 1700003600000000001 "user123".toList
      "user".toList ⟨[("Authorization".toList, "Bearer ".toList ++ ref)], []⟩
      (by unfold clockRange; norm_num)
  have hsame : (acc2, ref2) = (acc, ref) := by
    have := hg2.symm.trans hg
    exact Except.ok.inj this
  obtain ⟨rfl, rfl⟩ := Prod.mk.inj hsame
  refine ⟨acc2, ref2, hg, hr rfl ?_, hgate rfl ?_ rfl⟩
  · simp only [jwt.NewNumericDate, time.Unix, time.Duration, time.wrap64, time.Minute,
      time.Second]
    norm_num
  · simp only [jwt.NewNumericDate, time.Unix, time.Duration, time.wrap64, time.Hour,
      time.Minute, time.Second]
    norm_num

end Microblog
